import Mathlib

/-! # progzy: an authenticating forward proxy

A shallow embedding of the proxy engine (`backend/proxy/proxy.go`), the
credential and session authority (`backend/utils/auth.go`), the two-factor
manager (`backend/utils/security.go`, `backend/handlers/twofa.go`) and the
persistence calls they use (`backend/database/database.go`).

Conventions of the embedding.

* A Go `string` is a Lean `String`: the Go strings covered are the ones that
  hold valid UTF-8 text.  A Go `[]byte` is a `List Nat` of byte values.
* A Go `error` result is `Except String`, the string being the Go message.
* Code that lives outside the repository (the Go standard library, the JWT,
  bcrypt and AES-GCM packages, the SQL server) is reached through the fields of
  `Lib`; what the repository itself does is written out.
* Time is the Unix time in seconds, an `Int`, passed in where the Go code reads
  the clock.
-/

namespace Progzy

/-! ## Values exchanged with the libraries -/

/-- Bytes of a Go `[]byte`. -/
abbrev Bytes := List Nat

/-- Equality of `Except` values is decidable when it is on both sides. -/
instance decEqExcept {ε α : Type} [DecidableEq ε] [DecidableEq α] :
    DecidableEq (Except ε α)
  | .ok a, .ok b =>
    if h : a = b then isTrue (congrArg Except.ok h)
    else isFalse (fun h' => h (Except.ok.inj h'))
  | .error a, .error b =>
    if h : a = b then isTrue (congrArg Except.error h)
    else isFalse (fun h' => h (Except.error.inj h'))
  | .ok _, .error _ => isFalse (fun h => Except.noConfusion h)
  | .error _, .ok _ => isFalse (fun h => Except.noConfusion h)

/-- Header map `http.Header`: canonical key, values in order. -/
abbrev Header := List (String × List String)

/-- Session claims `utils.Claims`; the two registered claims in use are the
expiry and the issue time. -/
structure Claims where
  UserID : Int
  Username : String
  IsAdmin : Bool
  TwoFactorVerified : Bool
  ExpiresAt : Option Int
  IssuedAt : Option Int
deriving DecidableEq, Repr

/-- Signing method of a parsed token: the HMAC family
(`*jwt.SigningMethodHMAC`) or any other. -/
inductive SigningMethod where
  | hmac (alg : String)
  | other (alg : String)
deriving DecidableEq, Repr

/-- Parsed token `jwt.Token`. -/
structure Token where
  Method : SigningMethod
  Claims : Claims
  Valid : Bool
deriving DecidableEq, Repr

/-- Authenticated cipher `cipher.AEAD` with nil additional data: `Seal nonce
plaintext` is the ciphertext followed by its tag. -/
structure AEAD where
  NonceSize : Nat
  Seal : Bytes → Bytes → Bytes
  Open : Bytes → Bytes → Except String Bytes

/-- Outbound request built by `http.NewRequestWithContext`. -/
structure OutboundRequest where
  Method : String
  URLScheme : String
  URLHost : String
  URL : String
  Host : String
  Header : Header
deriving DecidableEq, Repr

/-! ## External collaborators -/

/-- The external collaborators of the repository: library routines and tables
that are not part of its source. -/
structure Lib where
  /-- Lower-case mapping of `unicode.ToLower` for runes above `MaxASCII`
  (the Unicode case tables). -/
  caseTable : Char → Char
  /-- Upper-case mapping of `unicode.ToUpper` for runes above `MaxASCII`. -/
  upperTable : Char → Char
  /-- Test `strings.EqualFold`. -/
  EqualFold : String → String → Bool
  /-- Conversion `string(b)` of a byte slice. -/
  stringOfBytes : Bytes → String
  /-- Conversion `[]byte(s)` of a string. -/
  bytesOfString : String → Bytes
  /-- Decoder `base64.StdEncoding.DecodeString`; `none` is a decoding error. -/
  base64Decode : String → Option Bytes
  /-- Encoder `base64.StdEncoding.EncodeToString`. -/
  base64Encode : Bytes → String
  /-- Decoder `base32.StdEncoding.DecodeString`; `none` is a decoding error. -/
  base32Decode : String → Option Bytes
  /-- Keyed hash `hmac.New(sha1.New, key)` applied to a message. -/
  hmacSHA1 : Bytes → Bytes → Bytes
  /-- Digest `sha256.Sum256`. -/
  sha256 : Bytes → Bytes
  /-- Constructor `aes.NewCipher`; the block cipher is represented by its key. -/
  aesNewCipher : Bytes → Except String Bytes
  /-- Constructor `cipher.NewGCM`. -/
  cipherNewGCM : Bytes → Except String AEAD
  /-- Test `bcrypt.CompareHashAndPassword(hash, password) == nil`. -/
  bcryptCompare : String → String → Bool
  /-- Hash `bcrypt.GenerateFromPassword(password, DefaultCost)` for a drawn salt. -/
  bcryptGenerate : String → Bytes → Except String String
  /-- Parser `jwt.ParseWithClaims(tokenString, &Claims, keyFunc)` run at the
  given time: decodes the token, asks `keyFunc` for the key, checks the
  signature and the registered claims. -/
  ParseWithClaims : String → (Token → Except String String) → Int → Except String Token
  /-- Signer `jwt.NewWithClaims(jwt.SigningMethodHS256, claims).SignedString(key)`. -/
  SignedString : Claims → String → Except String String
  /-- SQL function `LOWER` of the database server. -/
  sqlLower : String → String
  /-- Splitter `net.SplitHostPort`. -/
  SplitHostPort : String → Except String (String × String)
  /-- Constructor `http.NewRequestWithContext(ctx, method, url, body)`: the
  method and the parsed URL of the outbound request, `Host` taken from the
  URL, no headers. -/
  NewRequest : String → String → Except String OutboundRequest
  /-- Encoder `base32.StdEncoding.WithPadding(base32.NoPadding).EncodeToString`. -/
  base32EncodeNoPad : Bytes → String
  /-- Escaper `url.PathEscape`. -/
  PathEscape : String → String
  /-- Escaper `url.QueryEscape`. -/
  QueryEscape : String → String
  /-- Constructor `otp.NewKeyFromURL`; the key is represented by the URL it was
  made from, which `Key.URL` returns. -/
  NewKeyFromURL : String → Except String String
  /-- Rendering `key.Image(width, height)` followed by `png.Encode`: the bytes of
  the PNG image of the QR code of the key. -/
  keyImagePNG : String → Nat → Nat → Except String Bytes

/-! ## Go standard library: `strings`, `unicode` -/

/-- Rune test `unicode.IsSpace`: the code points of the Unicode White_Space
property (in Latin-1: tab, line feed, vertical tab, form feed, carriage return,
space, NEL and NBSP). -/
def isSpace (c : Char) : Bool :=
  let n := c.toNat
  n == 0x09 || n == 0x0A || n == 0x0B || n == 0x0C || n == 0x0D || n == 0x20 ||
  n == 0x85 || n == 0xA0 || n == 0x1680 || (0x2000 ≤ n && n ≤ 0x200A) ||
  n == 0x2028 || n == 0x2029 || n == 0x202F || n == 0x205F || n == 0x3000

/-- Go `strings.TrimSpace`: drop leading and trailing white space. -/
def TrimSpace (s : String) : String :=
  String.mk ((s.data.dropWhile isSpace).reverse.dropWhile isSpace).reverse

/-- Go `unicode.ToLower`: ASCII letters are shifted, runes above `MaxASCII`
go through the case tables. -/
def unicodeToLower (L : Lib) (r : Char) : Char :=
  if r.toNat ≤ 0x7F then
    if 0x41 ≤ r.toNat ∧ r.toNat ≤ 0x5A then Char.ofNat (r.toNat + 0x20) else r
  else L.caseTable r

/-- Go `strings.ToLower`: map every rune through `unicode.ToLower`. -/
def ToLower (L : Lib) (s : String) : String :=
  String.mk (s.data.map (unicodeToLower L))

/-- Go `strings.Contains(s, substr)`: `substr` occurs in `s` as a contiguous
block. -/
def Contains (s substr : String) : Bool :=
  s.data.tails.any (fun t => substr.data.isPrefixOf t)

/-- First occurrence of the separator: the text before it and the text after. -/
def cutAt (sep : Char) : List Char → Option (List Char × List Char)
  | [] => none
  | c :: cs =>
    if c = sep then some ([], cs)
    else match cutAt sep cs with
      | none => none
      | some (a, b) => some (c :: a, b)

/-- Go `strings.SplitN(s, sep, 2)` for a one-character separator: at most two
pieces, split at the first separator. -/
def SplitN2 (s : String) (sep : Char) : List String :=
  match cutAt sep s.data with
  | none => [s]
  | some (a, b) => [String.mk a, String.mk b]

/-- The pieces of a text between the occurrences of a separator. -/
def splitAll (sep : Char) : List Char → List (List Char)
  | [] => [[]]
  | c :: cs =>
    if c = sep then [] :: splitAll sep cs
    else
      match splitAll sep cs with
      | [] => [[c]]
      | piece :: pieces => (c :: piece) :: pieces

/-- Go `strings.Split(s, sep)` for a one-character separator. -/
def Split (s : String) (sep : Char) : List String :=
  (splitAll sep s.data).map String.mk

/-! ## `models` -/

/-- Record `models.UserProxySettings`. -/
structure UserProxySettings where
  ProxyType : String
  Whitelist : List String
  Blacklist : List String
deriving DecidableEq, Repr


/-- Record `models.User`. -/
structure User where
  ID : Int
  Username : String
  PasswordHash : String
  Email : String
  Comment : String
  IsAdmin : Bool
  IsActive : Bool
  ProxyType : String
  TwoFAEnabled : Bool
  CreatedAt : Int
  UpdatedAt : Int
  Whitelist : List String
  Blacklist : List String
deriving DecidableEq, Repr

/-- Record `models.RequestLog` as written by `LogRequest`. -/
structure RequestLog where
  UserID : Option Int
  Method : String
  URL : String
  StatusCode : Int
  BytesSent : Int
  BytesReceived : Int
  DurationMs : Int
deriving DecidableEq, Repr

/-- Record `models.TwoFALogEntry`. -/
structure TwoFALogEntry where
  UserID : Int
  IP : String
  Event : String
  Method : String
  Success : Bool
  Message : String
deriving DecidableEq, Repr

/-- Record `models.TwoFABackupCode`. -/
structure TwoFABackupCode where
  ID : Int
  UserID : Int
  CodeHash : String
  Used : Bool
  CreatedAt : Int
  UsedAt : Option Int
deriving DecidableEq, Repr

/-- Record `models.TwoFAVerifyRequest`. -/
structure TwoFAVerifyRequest where
  Code : String
  BackupCode : String
  TempToken : String
deriving DecidableEq, Repr

/-- Record `models.LoginRequest`. -/
structure LoginRequest where
  Username : String
  Password : String
deriving DecidableEq, Repr

/-- Record `models.InitSetupRequest`. -/
structure InitSetupRequest where
  Username : String
  Password : String
  Email : String
deriving DecidableEq, Repr

/-- Record `models.UserCreate`. -/
structure UserCreate where
  Username : String
  Password : String
  Email : String
  Comment : String
  IsAdmin : Bool
  ProxyType : String
  Whitelist : List String
  Blacklist : List String
deriving DecidableEq, Repr

/-! ## Process environment -/

/-- The environment variables the code reads with `os.Getenv`; an unset
variable reads as the empty string. -/
structure Env where
  JWT_SECRET : String
  TWOFA_ENCRYPTION_KEY : String
  APP_NAME : String
deriving DecidableEq, Repr

/-! ## Persistence (`database.go`) -/

/-- Row of table `users`. -/
structure UserRow where
  id : Int
  username : String
  password_hash : String
  email : String
  comment : String
  is_admin : Bool
  is_active : Bool
  proxy_type : String
  twofa_enabled : Bool
  twofa_secret : Option String
  created_at : Int
  updated_at : Int
deriving DecidableEq, Repr

/-- Row of tables `user_proxy_whitelist` and `user_proxy_blacklist`. -/
structure ProxyListRow where
  id : Int
  user_id : Int
  value : String
deriving DecidableEq, Repr

/-- Row of table `request_logs`. -/
structure RequestLogRow where
  user_id : Option Int
  method : String
  url : String
  status_code : Int
  bytes_sent : Int
  bytes_received : Int
  duration_ms : Int
  created_at : Int
deriving DecidableEq, Repr

/-- Row of table `traffic_stats`, unique per `(user_id, date)`. -/
structure TrafficRow where
  user_id : Int
  bytes_sent : Int
  bytes_received : Int
  request_count : Int
  date : Int
deriving DecidableEq, Repr

/-- Row of table `user_twofa_backup_codes`. -/
structure BackupCodeRow where
  id : Int
  user_id : Int
  code_hash : String
  used : Bool
  created_at : Int
  used_at : Option Int
deriving DecidableEq, Repr

/-- Row of table `twofa_logs`. -/
structure TwoFALogRow where
  user_id : Int
  ip_address : String
  event : String
  method : String
  success : Bool
  message : String
  created_at : Int
deriving DecidableEq, Repr

/-- Row of table `admin_audit_logs`. -/
structure AuditRow where
  user_id : Option Int
  action : String
  details : String
  ip_address : String
  created_at : Int
deriving DecidableEq, Repr

/-- The SQL statements issued by the functions of `database.go` embedded here. -/
inductive Stmt where
  | selectUserByUsername
  | selectUserByID
  | selectProxyType
  | selectWhitelist
  | selectBlacklist
  | insertRequestLog
  | upsertTrafficStats
  | insertAuditLog
  | updateTwoFASecret
  | updateTwoFAEnabled
  | clearTwoFAData
  | replaceBackupCodes
  | selectTwoFASecret
  | selectBackupCodes
  | updateBackupCodeUsed
  | countTwoFALogs
  | insertTwoFALog
  | countUsers
  | insertUser
  | replaceProxyList
deriving DecidableEq, Repr

/-- The database behind `*database.Database`: the tables, the next value of
the backup-code id sequence, and for each statement whether the server or the
driver fails it while the request at hand is served. -/
structure Database where
  users : List UserRow
  whitelist : List ProxyListRow
  blacklist : List ProxyListRow
  requestLogs : List RequestLogRow
  trafficStats : List TrafficRow
  backupCodes : List BackupCodeRow
  twofaLogs : List TwoFALogRow
  auditLogs : List AuditRow
  nextBackupCodeID : Int
  fails : Stmt → Bool

/-- Scan of a `users` row into `models.User`; the lists stay nil. -/
def UserRow.toUser (r : UserRow) : User :=
  { ID := r.id, Username := r.username, PasswordHash := r.password_hash, Email := r.email,
    Comment := r.comment, IsAdmin := r.is_admin, IsActive := r.is_active,
    ProxyType := r.proxy_type, TwoFAEnabled := r.twofa_enabled, CreatedAt := r.created_at,
    UpdatedAt := r.updated_at, Whitelist := [], Blacklist := [] }

/-- Clause `ORDER BY id LIMIT 1` over rows of `users`: the row of least id,
the earlier one on a tie. -/
def firstByID : List UserRow → Option UserRow
  | [] => none
  | r :: rs =>
    match firstByID rs with
    | none => some r
    | some m => if r.id ≤ m.id then some r else some m

/-- What the schema of table `users`, which is not among the sources, decides
for an inserted row: the next value of the id sequence and the defaults of the
columns `is_active` and `twofa_enabled`. -/
structure UsersSchema where
  nextID : Int
  is_active : Bool
  twofa_enabled : Bool
deriving DecidableEq, Repr

/-- Method `IsInitialized`. -/
def Database.IsInitialized (d : Database) : Except String Bool :=
  if d.fails .countUsers then .error "sql: statement failed"
  else .ok (decide ((d.users.length : Int) > 0))

/-- Method `CreateUser`; the password hash is not among the returned columns. -/
def Database.CreateUser (d : Database) (schema : UsersSchema) (now : Int) (user : UserCreate)
    (passwordHash : String) : Except String User × Database :=
  let proxyType := if user.ProxyType = "" then "default" else user.ProxyType
  if d.fails .insertUser then (.error "sql: statement failed", d)
  else
    let row : UserRow :=
      { id := schema.nextID, username := user.Username, password_hash := passwordHash,
        email := user.Email, comment := user.Comment, is_admin := user.IsAdmin,
        is_active := schema.is_active, proxy_type := proxyType,
        twofa_enabled := schema.twofa_enabled, twofa_secret := none, created_at := now,
        updated_at := now }
    (.ok { row.toUser with PasswordHash := "" }, { d with users := d.users ++ [row] })

/-- Method `GetUserByUsernameCtx` (and `GetUserByUsername`, which calls it):
the name is trimmed and compared under SQL `LOWER`. -/
def Database.GetUserByUsername (L : Lib) (d : Database) (username : String) :
    Except String User :=
  let username := TrimSpace username
  if username = "" then .error "username is required"
  else if d.fails .selectUserByUsername then .error "sql: statement failed"
  else
    match firstByID (d.users.filter
        (fun r => decide (L.sqlLower r.username = L.sqlLower username))) with
    | none => .error "sql: no rows in result set"
    | some r => .ok r.toUser

/-- Query of `getProxyList`: the values of one user, `ORDER BY id` being the
order of the table. -/
def getProxyList (failed : Bool) (table : List ProxyListRow) (userID : Int) :
    Except String (List String) :=
  if failed then .error "sql: statement failed"
  else .ok ((table.filter (fun r => decide (r.user_id = userID))).map (fun r => r.value))

/-- The loop of `sanitizeEntries`; the map `seen` holds exactly the elements of
`result`, so membership in `result` stands for the lookup. -/
def sanitizeLoop (L : Lib) : List String → List String → List String
  | [], result => result
  | entry :: rest, result =>
    let normalized := ToLower L (TrimSpace entry)
    if normalized = "" then sanitizeLoop L rest result
    else if normalized ∈ result then sanitizeLoop L rest result
    else sanitizeLoop L rest (result ++ [normalized])

/-- Function `sanitizeEntries`. -/
def sanitizeEntries (L : Lib) (entries : List String) : List String :=
  sanitizeLoop L entries []

/-- The rows `replaceProxyList` inserts, ids taken from the sequence. -/
def newProxyListRows (userID : Int) : Int → List String → List ProxyListRow
  | _, [] => []
  | id, value :: rest =>
    { id := id, user_id := userID, value := value } :: newProxyListRows userID (id + 1) rest

/-- Method `replaceProxyList`: one transaction deletes the rows of the user in
the table and inserts the sanitized entries; `nextID` is the next value of the
id sequence of the table.  A table other than the two lists fails the
statement. -/
def Database.replaceProxyList (L : Lib) (d : Database) (nextID : Int) (table : String)
    (userID : Int) (entries : List String) : Except String (List String) × Database :=
  let sanitized := sanitizeEntries L entries
  if d.fails .replaceProxyList then (.error "sql: statement failed", d)
  else if table = "user_proxy_whitelist" then
    let kept := d.whitelist.filter (fun row => !decide (row.user_id = userID))
    (.ok sanitized, { d with whitelist := kept ++ newProxyListRows userID nextID sanitized })
  else if table = "user_proxy_blacklist" then
    let kept := d.blacklist.filter (fun row => !decide (row.user_id = userID))
    (.ok sanitized, { d with blacklist := kept ++ newProxyListRows userID nextID sanitized })
  else (.error "sql: statement failed", d)

/-- A discarded error: the value of a successful call, the zero value otherwise. -/
def orNil {α : Type} (r : Except String (List α)) : List α :=
  match r with
  | .ok v => v
  | .error _ => []

/-- Method `GetUserByID`; errors of the two list queries are discarded. -/
def Database.GetUserByID (d : Database) (id : Int) : Except String User :=
  if d.fails .selectUserByID then .error "sql: statement failed"
  else
    match d.users.find? (fun r => decide (r.id = id)) with
    | none => .error "sql: no rows in result set"
    | some r =>
      .ok { r.toUser with
        Whitelist := orNil (getProxyList (d.fails .selectWhitelist) d.whitelist r.id)
        Blacklist := orNil (getProxyList (d.fails .selectBlacklist) d.blacklist r.id) }

/-- Method `GetUserProxySettings`. -/
def Database.GetUserProxySettings (d : Database) (userID : Int) :
    Except String UserProxySettings :=
  if d.fails .selectProxyType then .error "sql: statement failed"
  else
    match d.users.find? (fun r => decide (r.id = userID)) with
    | none => .error "sql: no rows in result set"
    | some r =>
      match getProxyList (d.fails .selectWhitelist) d.whitelist userID,
            getProxyList (d.fails .selectBlacklist) d.blacklist userID with
      | .error e, _ => .error e
      | .ok _, .error e => .error e
      | .ok wl, .ok bl => .ok { ProxyType := r.proxy_type, Whitelist := wl, Blacklist := bl }

/-- Method `LogRequest`: one row appended to `request_logs`. -/
def Database.LogRequest (d : Database) (now : Int) (log : RequestLog) :
    Except String Unit × Database :=
  if d.fails .insertRequestLog then (.error "sql: statement failed", d)
  else
    let row : RequestLogRow :=
      { user_id := log.UserID, method := log.Method, url := log.URL,
        status_code := log.StatusCode, bytes_sent := log.BytesSent,
        bytes_received := log.BytesReceived, duration_ms := log.DurationMs,
        created_at := now }
    (.ok (), { d with requestLogs := d.requestLogs ++ [row] })

/-- Day `CURRENT_DATE` of a time, in UTC. -/
def dateOf (now : Int) : Int := now / 86400

/-- The upsert of `UpdateTrafficStats` on the rows of `traffic_stats`. -/
def upsertTraffic (userID sent received date : Int) : List TrafficRow → List TrafficRow
  | [] => [{ user_id := userID, bytes_sent := sent, bytes_received := received,
             request_count := 1, date := date }]
  | r :: rs =>
    if r.user_id = userID ∧ r.date = date then
      { r with bytes_sent := r.bytes_sent + sent, bytes_received := r.bytes_received + received,
               request_count := r.request_count + 1 } :: rs
    else r :: upsertTraffic userID sent received date rs

/-- Method `UpdateTrafficStats`. -/
def Database.UpdateTrafficStats (d : Database) (now : Int) (userID bytesSent bytesReceived : Int) :
    Except String Unit × Database :=
  if d.fails .upsertTrafficStats then (.error "sql: statement failed", d)
  else
    let rows := upsertTraffic userID bytesSent bytesReceived (dateOf now) d.trafficStats
    (.ok (), { d with trafficStats := rows })

/-- Method `StoreTwoFASecret`. -/
def Database.StoreTwoFASecret (d : Database) (userID : Int) (encryptedSecret : String) :
    Except String Unit × Database :=
  if d.fails .updateTwoFASecret then (.error "sql: statement failed", d)
  else
    let rows := d.users.map (fun r =>
      if r.id = userID then { r with twofa_secret := some encryptedSecret, twofa_enabled := false }
      else r)
    (.ok (), { d with users := rows })

/-- Method `SetTwoFAEnabled`. -/
def Database.SetTwoFAEnabled (d : Database) (userID : Int) (enabled : Bool) :
    Except String Unit × Database :=
  if d.fails .updateTwoFAEnabled then (.error "sql: statement failed", d)
  else
    let rows := d.users.map (fun r =>
      if r.id = userID then { r with twofa_enabled := enabled } else r)
    (.ok (), { d with users := rows })

/-- Method `ClearTwoFAData`: one transaction clears the secret and the flag and
deletes the backup codes of the user. -/
def Database.ClearTwoFAData (d : Database) (userID : Int) : Except String Unit × Database :=
  if d.fails .clearTwoFAData then (.error "sql: statement failed", d)
  else
    let rows := d.users.map (fun r =>
      if r.id = userID then { r with twofa_secret := none, twofa_enabled := false } else r)
    let codes := d.backupCodes.filter (fun c => !decide (c.user_id = userID))
    (.ok (), { d with users := rows, backupCodes := codes })

/-- The rows `ReplaceBackupCodes` inserts, ids taken from the sequence. -/
def newBackupCodeRows (now userID : Int) : Int → List String → List BackupCodeRow
  | _, [] => []
  | id, hash :: rest =>
    { id := id, user_id := userID, code_hash := hash, used := false, created_at := now,
      used_at := none } :: newBackupCodeRows now userID (id + 1) rest

/-- Method `ReplaceBackupCodes`: one transaction deletes the codes of the user
and inserts a row per hash. -/
def Database.ReplaceBackupCodes (d : Database) (now userID : Int) (hashes : List String) :
    Except String Unit × Database :=
  if d.fails .replaceBackupCodes then (.error "sql: statement failed", d)
  else
    let kept := d.backupCodes.filter (fun c => !decide (c.user_id = userID))
    let added := newBackupCodeRows now userID d.nextBackupCodeID hashes
    (.ok (), { d with backupCodes := kept ++ added,
                      nextBackupCodeID := d.nextBackupCodeID + hashes.length })

/-- Method `GetTwoFASecret`; a NULL secret reads as the empty string. -/
def Database.GetTwoFASecret (d : Database) (userID : Int) : Except String (String × Bool) :=
  if d.fails .selectTwoFASecret then .error "sql: statement failed"
  else
    match d.users.find? (fun r => decide (r.id = userID)) with
    | none => .error "sql: no rows in result set"
    | some r =>
      match r.twofa_secret with
      | none => .ok ("", r.twofa_enabled)
      | some secret => .ok (secret, r.twofa_enabled)

/-- Scan of a backup-code row. -/
def BackupCodeRow.toCode (r : BackupCodeRow) : TwoFABackupCode :=
  { ID := r.id, UserID := r.user_id, CodeHash := r.code_hash, Used := r.used,
    CreatedAt := r.created_at, UsedAt := r.used_at }

/-- Method `GetBackupCodes`: the rows of the user, `ORDER BY id`. -/
def Database.GetBackupCodes (d : Database) (userID : Int) :
    Except String (List TwoFABackupCode) :=
  if d.fails .selectBackupCodes then .error "sql: statement failed"
  else
    .ok (((d.backupCodes.filter (fun c => decide (c.user_id = userID))).insertionSort
      (fun a b => a.id ≤ b.id)).map BackupCodeRow.toCode)

/-- The loop of `ConsumeBackupCode` over the codes read: the first unused code
whose hash matches the candidate is marked used by id. -/
def consumeLoop (L : Lib) (d : Database) (now : Int) (candidate : String) :
    List TwoFABackupCode → Except String Bool × Database
  | [] => (.ok false, d)
  | code :: rest =>
    if code.Used then consumeLoop L d now candidate rest
    else if L.bcryptCompare code.CodeHash candidate then
      if d.fails .updateBackupCodeUsed then (.error "sql: statement failed", d)
      else
        let rows := d.backupCodes.map (fun r =>
          if r.id = code.ID then { r with used := true, used_at := some now } else r)
        (.ok true, { d with backupCodes := rows })
    else consumeLoop L d now candidate rest

/-- Method `ConsumeBackupCode`. -/
def Database.ConsumeBackupCode (L : Lib) (d : Database) (now userID : Int) (candidate : String) :
    Except String Bool × Database :=
  match d.GetBackupCodes userID with
  | .error e => (.error e, d)
  | .ok codes => consumeLoop L d now candidate codes

/-- Method `CountRecentTwoFAAttempts`, `window` in seconds. -/
def Database.CountRecentTwoFAAttempts (d : Database) (now userID : Int) (ip : String)
    (window : Int) : Except String Int :=
  let cutoff := now - window
  if d.fails .countTwoFALogs then .error "sql: statement failed"
  else
    .ok ((d.twofaLogs.filter (fun r =>
      decide (r.user_id = userID) && decide (r.ip_address = ip) &&
        decide (r.created_at ≥ cutoff))).length : Int)

/-- Method `LogTwoFAAttempt`. -/
def Database.LogTwoFAAttempt (d : Database) (now : Int) (entry : TwoFALogEntry) :
    Except String Unit × Database :=
  if d.fails .insertTwoFALog then (.error "sql: statement failed", d)
  else
    let row : TwoFALogRow :=
      { user_id := entry.UserID, ip_address := entry.IP, event := entry.Event,
        method := entry.Method, success := entry.Success, message := entry.Message,
        created_at := now }
    (.ok (), { d with twofaLogs := d.twofaLogs ++ [row] })

/-- Method `LogAdminAction`; a failed insert is only printed. -/
def Database.LogAdminAction (d : Database) (now : Int) (userID : Option Int)
    (action details ip : String) : Database :=
  if d.fails .insertAuditLog then d
  else
    let row : AuditRow :=
      { user_id := userID, action := action, details := details, ip_address := ip,
        created_at := now }
    { d with auditLogs := d.auditLogs ++ [row] }

/-! ## Credential and session authority (`utils/auth.go`) -/

/-- Function `CheckPasswordHash`: bcrypt first, then the comparison with a
stored plaintext (`subtle.ConstantTimeCompare`, which is equality). -/
def CheckPasswordHash (L : Lib) (password hash : String) : Bool :=
  if hash = "" then false
  else if L.bcryptCompare hash password then true
  else if hash = password then true
  else false

/-- The signing secret read by `generateToken` and `ValidateToken`. -/
def jwtSecret (env : Env) : String :=
  if env.JWT_SECRET = "" then "default-secret-change-me" else env.JWT_SECRET

/-- The key function `ValidateToken` hands to the parser: only HMAC methods
get the key. -/
def keyFunc (secret : String) (token : Token) : Except String String :=
  match token.Method with
  | .hmac _ => .ok secret
  | .other alg => .error ("unexpected signing method: " ++ alg)

/-- Function `ValidateToken`, run at time `now`. -/
def ValidateToken (L : Lib) (env : Env) (now : Int) (tokenString : String) :
    Except String Claims :=
  let secret := jwtSecret env
  match L.ParseWithClaims tokenString (keyFunc secret) now with
  | .error e => .error e
  | .ok token => if token.Valid then .ok token.Claims else .error "invalid token"

/-! ## Two-factor manager: secrets and codes (`utils/security.go`) -/

/-- Constant `backupCodeAlphabet`. -/
def backupCodeAlphabet : String := "23456789ABCDEFGHJKLMNPQRSTUVWXYZ"

/-- Constant `backupCodeLength`. -/
def backupCodeLength : Nat := 8

/-- Constant `defaultTotpPeriod`. -/
def defaultTotpPeriod : Nat := 30

/-- Constant `totpValidationSkew`. -/
def totpValidationSkew : Nat := 1

/-- Go `len(s)` of a string: its length in bytes. -/
def byteLen (s : String) : Nat := (s.data.map Char.utf8Size).sum

/-- Function `getEncryptionKey`. -/
def getEncryptionKey (L : Lib) (env : Env) : Except String Bytes :=
  let key := env.TWOFA_ENCRYPTION_KEY
  let key := if key = "" then env.JWT_SECRET else key
  if TrimSpace key = "" then .error "TWOFA_ENCRYPTION_KEY or JWT_SECRET must be set"
  else .ok (L.sha256 (L.bytesOfString key))

/-- Function `EncryptSecret`; `draw n` is the outcome of reading `n` bytes from
`rand.Reader`. -/
def EncryptSecret (L : Lib) (env : Env) (draw : Nat → Except String Bytes) (plaintext : String) :
    Except String String :=
  match getEncryptionKey L env with
  | .error e => .error e
  | .ok key =>
    match L.aesNewCipher key with
    | .error e => .error e
    | .ok block =>
      match L.cipherNewGCM block with
      | .error e => .error e
      | .ok gcm =>
        match draw gcm.NonceSize with
        | .error e => .error e
        | .ok nonce =>
          let ciphertext := nonce ++ gcm.Seal nonce (L.bytesOfString plaintext)
          .ok (L.base64Encode ciphertext)

/-- Function `DecryptSecret`. -/
def DecryptSecret (L : Lib) (env : Env) (encoded : String) : Except String String :=
  match getEncryptionKey L env with
  | .error e => .error e
  | .ok key =>
    match L.base64Decode encoded with
    | none => .error "illegal base64 data"
    | some data =>
      match L.aesNewCipher key with
      | .error e => .error e
      | .ok block =>
        match L.cipherNewGCM block with
        | .error e => .error e
        | .ok gcm =>
          let nonceSize := gcm.NonceSize
          if data.length < nonceSize then .error "invalid ciphertext"
          else
            let nonce := data.take nonceSize
            let ciphertext := data.drop nonceSize
            match gcm.Open nonce ciphertext with
            | .error e => .error e
            | .ok plaintext => .ok (L.stringOfBytes plaintext)

/-! ### One-time passwords: package `github.com/pquerna/otp`

`ValidateTOTP` hands the code to `totp.ValidateCustom` of the package
`github.com/pquerna/otp`, which is not among the sources of the repository.
The window of accepted time steps is decided there, so the routines of the
package that `ValidateTOTP` reaches are modelled: 30-second steps, one step of
tolerance either side, six digits, as the specification states them, and RFC
4226 and RFC 6238 for the code itself.  The package computes the step of a time
as the floor of a floating-point quotient; here it is the floor of the integer
quotient, which is the same number below 2^53 seconds. -/

/-- Go `unicode.ToUpper`. -/
def unicodeToUpper (L : Lib) (r : Char) : Char :=
  if r.toNat ≤ 0x7F then
    if 0x61 ≤ r.toNat ∧ r.toNat ≤ 0x7A then Char.ofNat (r.toNat - 0x20) else r
  else L.upperTable r

/-- Go `strings.ToUpper`. -/
def ToUpper (L : Lib) (s : String) : String :=
  String.mk (s.data.map (unicodeToUpper L))

/-- Conversion `uint64(x)` of a signed counter. -/
def uint64 (x : Int) : Nat := (x % 18446744073709551616).toNat

/-- Big-endian bytes of a number, `k` bytes wide (`binary.BigEndian.PutUint64`
for `k = 8`). -/
def bigEndian : Nat → Nat → Bytes
  | 0, _ => []
  | k + 1, v => (v >>> (8 * k)) % 256 :: bigEndian k v

/-- Decimal digit as a character. -/
def digitChar (d : Nat) : Char := "0123456789".data.getD d '0'

/-- Format `fmt.Sprintf("%06d", n)` of `otp.DigitsSix` for `n` below a million. -/
def formatSix (n : Nat) : String :=
  String.mk ([100000, 10000, 1000, 100, 10, 1].map (fun p => digitChar (n / p % 10)))

/-- Modelled from the spec: function `hotp.GenerateCodeCustom` of the package
`github.com/pquerna/otp` with SHA-1 and six digits, the one-time code derived
from the shared secret and a counter.  The secret is trimmed, padded to a
multiple of eight characters, upper-cased and decoded; the HMAC of the counter
is truncated dynamically (RFC 4226). -/
def hotpGenerateCode (L : Lib) (secret : String) (counter : Nat) : Except String String :=
  let secret := TrimSpace secret
  let n := byteLen secret % 8
  let secret := if n ≠ 0 then secret ++ String.mk (List.replicate (8 - n) '=') else secret
  let secret := ToUpper L secret
  match L.base32Decode secret with
  | none => .error "Decoding of secret as base32 failed."
  | some secretBytes =>
    let sum := L.hmacSHA1 secretBytes (bigEndian 8 counter)
    let offset := sum.getD (sum.length - 1) 0 &&& 0xf
    let value :=
      ((sum.getD offset 0 &&& 0x7f) <<< 24) |||
      ((sum.getD (offset + 1) 0 &&& 0xff) <<< 16) |||
      ((sum.getD (offset + 2) 0 &&& 0xff) <<< 8) |||
      (sum.getD (offset + 3) 0 &&& 0xff)
    .ok (formatSix (value % 1000000))

/-- Modelled from the spec: function `hotp.ValidateCustom` of the package
`github.com/pquerna/otp` with SHA-1 and six digits: the trimmed passcode must
be six bytes long and equal the code of the counter. -/
def hotpValidate (L : Lib) (passcode : String) (counter : Nat) (secret : String) :
    Except String Bool :=
  let passcode := TrimSpace passcode
  if byteLen passcode ≠ 6 then .error "Input length unexpected"
  else
    match hotpGenerateCode L secret counter with
    | .error e => .error e
    | .ok otpstr => .ok (decide (otpstr = passcode))

/-- Modelled from the spec: the loop of `totp.ValidateCustom` of the package
`github.com/pquerna/otp` over the counters to try; an error stops it. -/
def totpTryCounters (L : Lib) (passcode secret : String) : List Nat → Except String Bool
  | [] => .ok false
  | counter :: rest =>
    match hotpValidate L passcode counter secret with
    | .error e => .error e
    | .ok true => .ok true
    | .ok false => totpTryCounters L passcode secret rest

/-- Modelled from the spec: function `totp.ValidateCustom` of the package
`github.com/pquerna/otp` at Unix time `t`, which accepts the codes of the
time step of `t` and of the steps within the skew on either side: the counter
of `t`, then for each skew `i` the counters `i` later and `i` earlier. -/
def totpValidateCustom (L : Lib) (passcode secret : String) (t : Int) (period skew : Nat) :
    Except String Bool :=
  let period := if period = 0 then 30 else period
  let counter : Int := t / (period : Int)
  let counters := uint64 counter ::
    (List.range skew).flatMap (fun i => [uint64 (counter + (i + 1 : Nat)), uint64 (counter - (i + 1 : Nat))])
  totpTryCounters L passcode secret counters

/-- Modelled from the spec: function `totp.GenerateCodeCustom` of the package
`github.com/pquerna/otp` with period 30 at Unix time `t`: the code of the
30-second time step of `t`. -/
def totpGenerateCode (L : Lib) (secret : String) (t : Int) : Except String String :=
  hotpGenerateCode L secret (uint64 (t / 30))

/-- Function `ValidateTOTP`. -/
def ValidateTOTP (L : Lib) (secret code : String) (now : Int) : Bool :=
  let code := TrimSpace code
  if byteLen code = 0 then false
  else
    match totpValidateCustom L code secret now defaultTotpPeriod totpValidationSkew with
    | .error _ => false
    | .ok valid => valid

/-- The buffer of `n` bytes after a read filled it. -/
def fillBuffer (n : Nat) (bytes : Bytes) : Bytes := (bytes ++ List.replicate n 0).take n

/-- One backup code: each byte of the buffer picks a letter of the alphabet. -/
def backupCodeOf (buf : Bytes) : String :=
  String.mk (buf.map (fun b =>
    backupCodeAlphabet.data.getD (b % backupCodeAlphabet.data.length) '2'))

/-- The loop of `GenerateBackupCodes` from index `i` for `n` more codes;
`draw i` is the outcome of the read for code `i`. -/
def generateBackupCodesFrom (draw : Nat → Except String Bytes) : Nat → Nat →
    Except String (List String)
  | _, 0 => .ok []
  | i, n + 1 =>
    match draw i with
    | .error e => .error e
    | .ok bytes =>
      match generateBackupCodesFrom draw (i + 1) n with
      | .error e => .error e
      | .ok codes => .ok (backupCodeOf (fillBuffer backupCodeLength bytes) :: codes)

/-- Function `GenerateBackupCodes`. -/
def GenerateBackupCodes (draw : Nat → Except String Bytes) (count : Int) :
    Except String (List String) :=
  if count ≤ 0 then .error "invalid count"
  else generateBackupCodesFrom draw 0 count.toNat

/-- Constant `defaultIssuer`. -/
def defaultIssuer : String := "MyApp"

/-- Constant `qrImageSize`. -/
def qrImageSize : Nat := 256

/-- Function `randomBase32Secret`; `rnd size` is the outcome of the read of
`size` random bytes. -/
def randomBase32Secret (L : Lib) (rnd : Nat → Except String Bytes) (size : Nat) :
    Except String String :=
  match rnd size with
  | .error e => .error e
  | .ok raw => .ok (L.base32EncodeNoPad (fillBuffer size raw))

/-- Function `issuerName`. -/
def issuerName (env : Env) : String :=
  let v := TrimSpace env.APP_NAME
  if v ≠ "" then v else defaultIssuer

/-- Function `GenerateKey`: the key and the secret in base32. -/
def GenerateKey (L : Lib) (env : Env) (rnd : Nat → Except String Bytes)
    (username email : String) : Except String (String × String) :=
  match randomBase32Secret L rnd 20 with
  | .error e => .error e
  | .ok secret =>
    let issuer := issuerName env
    let identity := if TrimSpace email = "" then username else email
    let label := issuer ++ ":" ++ identity
    let otpauthURL := "otpauth://totp/" ++ L.PathEscape label ++ "?secret=" ++ secret ++
      "&issuer=" ++ L.QueryEscape issuer
    match L.NewKeyFromURL otpauthURL with
    | .error e => .error e
    | .ok key => .ok (key, secret)

/-- Function `GenerateQRCodeBase64`. -/
def GenerateQRCodeBase64 (L : Lib) (key : String) : Except String String :=
  match L.keyImagePNG key qrImageSize qrImageSize with
  | .error e => .error e
  | .ok png => .ok ("data:image/png;base64," ++ L.base64Encode png)

/-- Function `HashPassword` for the salt bcrypt draws. -/
def HashPassword (L : Lib) (salt : Bytes) (password : String) : Except String String :=
  L.bcryptGenerate password salt

/-- Function `generateToken` at time `now`, `ttl` in seconds. -/
def generateToken (L : Lib) (env : Env) (now : Int) (userID : Int) (username : String)
    (isAdmin twoFactorVerified : Bool) (ttl : Int) : Except String String :=
  let secret := jwtSecret env
  let claims : Claims :=
    { UserID := userID, Username := username, IsAdmin := isAdmin,
      TwoFactorVerified := twoFactorVerified, ExpiresAt := some (now + ttl),
      IssuedAt := some now }
  L.SignedString claims secret

/-- Function `GenerateToken`: a full session token, valid 24 hours. -/
def GenerateToken (L : Lib) (env : Env) (now : Int) (userID : Int) (username : String)
    (isAdmin twoFactorVerified : Bool) : Except String String :=
  generateToken L env now userID username isAdmin twoFactorVerified (24 * 3600)

/-- Function `GenerateTempToken`: a challenge token, valid 5 minutes. -/
def GenerateTempToken (L : Lib) (env : Env) (now : Int) (userID : Int) (username : String)
    (isAdmin : Bool) : Except String String :=
  generateToken L env now userID username isAdmin false (5 * 60)

/-! ## Proxy engine (`proxy/proxy.go`) -/

/-- Go `validHeaderFieldByte` of `net/textproto`: the token characters of
RFC 7230, that is the ASCII letters and digits and the fifteen marks
``!#$%&'*+-.^_`|~``.  A byte of a rune above `MaxASCII` is none of them. -/
def validHeaderFieldByte (c : Char) : Bool :=
  let n := c.toNat
  (0x30 ≤ n && n ≤ 0x39) || (0x41 ≤ n && n ≤ 0x5A) || (0x61 ≤ n && n ≤ 0x7A) ||
  n == 0x21 || n == 0x23 || n == 0x24 || n == 0x25 || n == 0x26 || n == 0x27 ||
  n == 0x2A || n == 0x2B || n == 0x2D || n == 0x2E || n == 0x5E || n == 0x5F ||
  n == 0x60 || n == 0x7C || n == 0x7E

/-- The loop of Go `canonicalMIMEHeaderKey`: the first letter and every letter
after a hyphen goes to upper case, every other letter to lower case. -/
def canonicalLoop : Bool → List Char → List Char
  | _, [] => []
  | upper, c :: rest =>
    let c1 :=
      if upper && (0x61 ≤ c.toNat && c.toNat ≤ 0x7A) then Char.ofNat (c.toNat - 0x20)
      else if !upper && (0x41 ≤ c.toNat && c.toNat ≤ 0x5A) then Char.ofNat (c.toNat + 0x20)
      else c
    c1 :: canonicalLoop (c1 == '-') rest

/-- Go `textproto.CanonicalMIMEHeaderKey`: a key holding a byte that is no
token character (a space included) is returned as it is; any other key is put
in canonical form. -/
def CanonicalMIMEHeaderKey (s : String) : String :=
  if s.data.all validHeaderFieldByte then String.mk (canonicalLoop true s.data) else s

/-- Method `Header.Get`: the first value stored under the canonical form of the
key, empty when absent: `Get("X-2FA-Token")` reads the entry `X-2fa-Token`,
the name under which `net/http` stores that header. -/
def Header.Get (h : Header) (key : String) : String :=
  match h.find? (fun kv => decide (kv.1 = CanonicalMIMEHeaderKey key)) with
  | some (_, v :: _) => v
  | _ => ""

/-- Inbound request `*http.Request`: the parts the handlers read.  `URL` is
`r.URL.String()`; `Body` is the outcome of decoding the JSON body into
`models.TwoFAVerifyRequest`; `Query` holds the URL query values;
`ContextUser` is the user `middleware.GetUserFromContext` finds. -/
structure Request where
  Method : String
  URL : String
  Host : String
  Header : Header
  RemoteAddr : String
  ContentLength : Int
  Body : Option TwoFAVerifyRequest
  Query : List (String × String)
  ContextUser : Option User
deriving DecidableEq, Repr

/-- Method `authenticateRequest` of `ProxyServer`, run at time `now`. -/
def authenticateRequest (L : Lib) (env : Env) (db : Database) (now : Int) (r : Request) :
    Except String Claims :=
  let authHeader := r.Header.Get "Proxy-Authorization"
  if authHeader = "" then .error "missing proxy authorization"
  else
    match SplitN2 authHeader ' ' with
    | [scheme, rest] =>
      if scheme = "Basic" then
        match L.base64Decode rest with
        | none => .error "invalid base64 encoding"
        | some decoded =>
          match SplitN2 (L.stringOfBytes decoded) ':' with
          | [username, password] =>
            match db.GetUserByUsername L username with
            | .error _ => .error "user not found"
            | .ok user =>
              if !user.IsActive then .error "user is inactive"
              else if user.IsAdmin then .error "admin accounts cannot use proxy"
              else if !CheckPasswordHash L password user.PasswordHash then
                .error "invalid password"
              else .ok { UserID := user.ID, Username := user.Username, IsAdmin := user.IsAdmin,
                         TwoFactorVerified := false, ExpiresAt := none, IssuedAt := none }
          | _ => .error "invalid credentials format"
      else if scheme = "Bearer" then
        match ValidateToken L env now rest with
        | .error _ => .error "invalid token"
        | .ok claims =>
          if claims.IsAdmin then .error "admin accounts cannot use proxy"
          else .ok claims
      else .error "unsupported authorization method"
    | _ => .error "invalid authorization format"

/-- Method `Header.Set`: the key holds exactly the one value afterwards.  The
callers of `Set`, `Add` and `Del` pass a literal in canonical form or a key
read from a header map, which these methods store as it is. -/
def Header.Set (h : Header) (key value : String) : Header :=
  if h.any (fun kv => decide (kv.1 = key)) then
    h.map (fun kv => if kv.1 = key then (key, [value]) else kv)
  else h ++ [(key, [value])]

/-- Method `Header.Add`: the value is appended to the values of the key. -/
def Header.Add (h : Header) (key value : String) : Header :=
  if h.any (fun kv => decide (kv.1 = key)) then
    h.map (fun kv => if kv.1 = key then (key, kv.2 ++ [value]) else kv)
  else h ++ [(key, [value])]

/-- Map index `h[key]`: all values stored under the key as written, none when
absent. -/
def Header.Values (h : Header) (key : String) : List String :=
  match h.find? (fun kv => decide (kv.1 = key)) with
  | some (_, vs) => vs
  | none => []

/-- Method `Header.Del`. -/
def Header.Del (h : Header) (key : String) : Header :=
  h.filter (fun kv => !decide (kv.1 = key))

/-- Body written to a client. -/
inductive Payload where
  /-- Plain text written by `http.Error`. -/
  | text (s : String)
  /-- Upstream body streamed by `io.Copy`: the number of bytes copied. -/
  | stream (n : Int)
  /-- JSON of `models.ErrorResponse`. -/
  | error (msg : String)
  /-- JSON of `models.SuccessResponse`. -/
  | success (msg : String)
  /-- JSON of `models.TwoFAVerifyResponse`. -/
  | twoFAVerify (token : String) (user : Option User) (message : String)
      (backupCodes : List String)
  /-- JSON of `models.TwoFABackupCodesResponse`. -/
  | backupCodes (codes : List String)
  /-- JSON of `models.LoginResponse`. -/
  | login (token : String) (user : User) (message : String) (requires2FA : Bool)
      (tempToken : String)
  /-- JSON of `models.TwoFASetupResponse`. -/
  | twoFASetup (secret : String) (otpauthURL : String) (qrCode : String)
deriving DecidableEq, Repr

/-- What a handler wrote through its `http.ResponseWriter`. -/
structure Response where
  Status : Int
  Header : Header
  Body : Payload
deriving DecidableEq, Repr

/-- Function `http.Error`: plain-text headers, the status, the message and a
line feed. -/
def httpError (h : Header) (msg : String) (code : Int) : Response :=
  { Status := code
    Header := ((h.Del "Content-Length").Set "Content-Type" "text/plain; charset=utf-8").Set
      "X-Content-Type-Options" "nosniff"
    Body := .text (msg ++ "\n") }

/-- What the proxy client receives: a response, or after a hijack the bytes
written on the raw connection. -/
inductive Reply where
  | response (r : Response)
  | hijacked (written : String)
deriving DecidableEq, Repr

/-- Upstream answer to `client.Do` as the handler consumes it: status, headers
and the number of body bytes `io.Copy` moves to the client. -/
structure UpstreamResponse where
  StatusCode : Int
  Header : Header
  BodyBytes : Int
deriving DecidableEq, Repr

/-- The network as one proxied request meets it. -/
structure Network where
  /-- Outcome of `client.Do`. -/
  Do : OutboundRequest → Except String UpstreamResponse
  /-- Outcome of `net.DialTimeout("tcp", addr, 10s)`. -/
  Dial : String → Except String Unit
  /-- Outcome of the hijack: `none` when the writer is no `http.Hijacker`. -/
  Hijack : Option (Except String Unit)
  /-- Value of the variable `bytesSent` when the handler reads it, after the
  receive on `errChan`. -/
  TunnelSent : Int
  /-- Value of the variable `bytesReceived` when the handler reads it, after the
  receive on `errChan`. -/
  TunnelReceived : Int

/-- Outbound connection attempts of a handler. -/
inductive NetEvent where
  | roundTrip (req : OutboundRequest)
  | dial (addr : String)
deriving DecidableEq, Repr

/-- Outcome of one proxied request: the reply, the database afterwards and the
outbound connection attempts made. -/
structure ProxyResult where
  reply : Reply
  db : Database
  net : List NetEvent

/-- Method `logRequest` of `ProxyServer`; a failed insert is only printed. -/
def logRequest (db : Database) (now elapsedMs : Int) (userID : Int) (method url : String)
    (statusCode bytesSent bytesReceived : Int) : Database :=
  (db.LogRequest now
    { UserID := some userID, Method := method, URL := url, StatusCode := statusCode,
      BytesSent := bytesSent, BytesReceived := bytesReceived, DurationMs := elapsedMs }).2

/-- Function `extractHost`. -/
def extractHost (L : Lib) (raw : String) : String :=
  let host := ToLower L (TrimSpace raw)
  if host = "" then ""
  else if Contains host ":" then
    match L.SplitHostPort host with
    | .ok (parsedHost, _) => parsedHost
    | .error _ =>
      match cutAt ':' host.data with
      | some (a, _) => String.mk a
      | none => host
  else host


/-! ## Access policy evaluator (`proxy.go`) -/

/-- The loop of `matchesList`: trim and lower-case each entry, skip the empty
ones, stop at the first one the host contains. -/
def matchesListLoop (L : Lib) (lowerHost : String) : List String → Bool
  | [] => false
  | entry :: rest =>
    let entry := ToLower L (TrimSpace entry)
    if entry = "" then matchesListLoop L lowerHost rest
    else if Contains lowerHost entry then true
    else matchesListLoop L lowerHost rest

/-- Function `matchesList` of `proxy.go`. -/
def matchesList (L : Lib) (list : List String) (host : String) : Bool :=
  if list.length = 0 then false
  else
    let lowerHost := ToLower L host
    matchesListLoop L lowerHost list

/-- Function `isHostAllowed` of `proxy.go`; a nil `prefs` is `none`. -/
def isHostAllowed (L : Lib) (prefs : Option UserProxySettings) (host : String) : Bool :=
  match prefs with
  | none => true
  | some prefs =>
    if host = "" then true
    else if prefs.ProxyType = "whitelist" then matchesList L prefs.Whitelist host
    else if prefs.ProxyType = "blacklist" then !matchesList L prefs.Blacklist host
    else true

/-- The header loop of `handleHTTP`: every inbound header but
`Proxy-Authorization` and `Proxy-Connection` is added to the outbound ones. -/
def copyHeaders (L : Lib) (inbound : Header) : Header :=
  inbound.foldl (fun out kv =>
    if L.EqualFold kv.1 "Proxy-Authorization" || L.EqualFold kv.1 "Proxy-Connection" then out
    else kv.2.foldl (fun o v => o.Add kv.1 v) out) []

/-- Method `handleHTTP` of `ProxyServer`. -/
def handleHTTP (L : Lib) (net : Network) (db : Database) (now elapsedMs : Int) (r : Request)
    (claims : Claims) (prefs : UserProxySettings) : ProxyResult :=
  match L.NewRequest r.Method r.URL with
  | .error _ =>
    { reply := .response (httpError [] "Failed to create upstream request" 502)
      db := logRequest db now elapsedMs claims.UserID r.Method r.URL 502 0 0
      net := [] }
  | .ok created =>
    let out : OutboundRequest := { created with Header := copyHeaders L r.Header }
    let out : OutboundRequest := if out.URLScheme = "" then { out with URLScheme := "http" } else out
    let out : OutboundRequest := if out.Host = "" then { out with Host := out.URLHost } else out
    let targetHost := extractHost L out.URLHost
    if !isHostAllowed L (some prefs) targetHost then
      { reply := .response (httpError [] "Access to this host is not permitted" 403)
        db := logRequest db now elapsedMs claims.UserID r.Method r.URL 403 0 0
        net := [] }
    else
      let out : OutboundRequest :=
        match L.SplitHostPort r.RemoteAddr with
        | .ok (clientIP, _) =>
          let prior := out.Header.Get "X-Forwarded-For"
          if prior ≠ "" then
            { out with Header := out.Header.Set "X-Forwarded-For" (prior ++ ", " ++ clientIP) }
          else { out with Header := out.Header.Set "X-Forwarded-For" clientIP }
        | .error _ => out
      match net.Do out with
      | .error e =>
        { reply := .response (httpError [] e 502)
          db := logRequest db now elapsedMs claims.UserID r.Method r.URL 502 0 0
          net := [.roundTrip out] }
      | .ok resp =>
        let header : Header :=
          resp.Header.foldl (fun w kv => kv.2.foldl (fun o v => o.Add kv.1 v) w) []
        let bytesSent := resp.BodyBytes
        let requestSize : Int := if r.ContentLength > 0 then r.ContentLength else 0
        let db1 := logRequest db now elapsedMs claims.UserID r.Method r.URL resp.StatusCode
          requestSize bytesSent
        { reply := .response { Status := resp.StatusCode, Header := header, Body := .stream bytesSent }
          db := (db1.UpdateTrafficStats now claims.UserID requestSize bytesSent).2
          net := [.roundTrip out] }

/-- Method `handleHTTPS` of `ProxyServer`. -/
def handleHTTPS (L : Lib) (net : Network) (db : Database) (now elapsedMs : Int) (r : Request)
    (claims : Claims) (prefs : UserProxySettings) : ProxyResult :=
  let targetHost := extractHost L r.Host
  if !isHostAllowed L (some prefs) targetHost then
    { reply := .response (httpError [] "Access to this host is not permitted" 403)
      db := logRequest db now elapsedMs claims.UserID r.Method r.Host 403 0 0
      net := [] }
  else
    match net.Dial r.Host with
    | .error e =>
      { reply := .response (httpError [] e 503)
        db := logRequest db now elapsedMs claims.UserID r.Method r.Host 503 0 0
        net := [.dial r.Host] }
    | .ok _ =>
      match net.Hijack with
      | none =>
        { reply := .response (httpError [] "Hijacking not supported" 500)
          db := db
          net := [.dial r.Host] }
      | some (.error e) =>
        { reply := .response (httpError [] e 503), db := db, net := [.dial r.Host] }
      | some (.ok _) =>
        let bytesSent := net.TunnelSent
        let bytesReceived := net.TunnelReceived
        let db1 := logRequest db now elapsedMs claims.UserID r.Method r.Host 200
          bytesSent bytesReceived
        { reply := .hijacked "HTTP/1.1 200 Connection Established\r\n\r\n"
          db := (db1.UpdateTrafficStats now claims.UserID bytesSent bytesReceived).2
          net := [.dial r.Host] }

/-! ## The copy goroutines of a tunnel (`handleHTTPS`)

After the line `200 Connection Established` the handler starts two goroutines,
each running one `io.Copy`, assigning the byte count to a variable of the
handler and sending the error on `errChan`; the handler receives once from
`errChan` and then reads both variables.  The interleavings are the runs of a
step function over the shared state. -/

/-- Where one copy goroutine stands: inside `io.Copy` with `n` bytes moved so
far, back from `io.Copy` with its results `n, err`, past the assignment of `n`
to the variable of the handler, or past the send of `err` on `errChan`. -/
inductive CopyState where
  | copying (n : Int)
  | returned (n : Int) (err : Option String)
  | assigned (n : Int) (err : Option String)
  | sent (n : Int)
deriving DecidableEq, Repr

/-- Bytes the `io.Copy` of the goroutine has moved. -/
def CopyState.moved : CopyState → Int
  | .copying n => n
  | .returned n _ => n
  | .assigned n _ => n
  | .sent n => n

/-- Where the handler stands: blocked on `<-errChan`, past the receive, or
past `logRequest` and `UpdateTrafficStats` with the values it read from
`bytesSent` and `bytesReceived`. -/
inductive WaitState where
  | waiting
  | received
  | recorded (bytesSent bytesReceived : Int)
deriving DecidableEq, Repr

/-- Shared state of a tunnel: the variables `bytesSent` and `bytesReceived`,
the channel `errChan`, the goroutine of `io.Copy(destConn, clientConn)`
(`up`), the goroutine of `io.Copy(clientConn, destConn)` (`down`), and the
handler. -/
structure Tunnel where
  bytesSent : Int
  bytesReceived : Int
  errChan : List (Option String)
  up : CopyState
  down : CopyState
  handler : WaitState
deriving DecidableEq, Repr

/-- State at the two `go` statements: `var bytesSent, bytesReceived int64` are
zero, `errChan` is empty. -/
def Tunnel.start : Tunnel :=
  { bytesSent := 0, bytesReceived := 0, errChan := [], up := .copying 0, down := .copying 0,
    handler := .waiting }

/-- One move of one of the three threads.  `upCopy k` and `downCopy k`: the
`io.Copy` moves `k` more bytes; `upReturn err` and `downReturn err`: the
`io.Copy` returns; `upAssign`: `bytesSent = n`; `downAssign`:
`bytesReceived = n`; `upSend` and `downSend`: `errChan <- err`; `receive`:
`<-errChan`; `record`: the calls of `logRequest` and `UpdateTrafficStats`. -/
inductive TunnelStep where
  | upCopy (k : Nat)
  | upReturn (err : Option String)
  | upAssign
  | upSend
  | downCopy (k : Nat)
  | downReturn (err : Option String)
  | downAssign
  | downSend
  | receive
  | record
deriving DecidableEq, Repr

/-- The move of a thread from a state, `none` when the thread is not at that
statement; `errChan` has capacity 2, so the two sends never block, and the
receive blocks while the channel is empty. -/
def Tunnel.step (t : Tunnel) : TunnelStep → Option Tunnel
  | .upCopy k =>
    match t.up with
    | .copying n => some { t with up := .copying (n + k) }
    | _ => none
  | .upReturn err =>
    match t.up with
    | .copying n => some { t with up := .returned n err }
    | _ => none
  | .upAssign =>
    match t.up with
    | .returned n err => some { t with bytesSent := n, up := .assigned n err }
    | _ => none
  | .upSend =>
    match t.up with
    | .assigned n err => some { t with errChan := t.errChan ++ [err], up := .sent n }
    | _ => none
  | .downCopy k =>
    match t.down with
    | .copying n => some { t with down := .copying (n + k) }
    | _ => none
  | .downReturn err =>
    match t.down with
    | .copying n => some { t with down := .returned n err }
    | _ => none
  | .downAssign =>
    match t.down with
    | .returned n err => some { t with bytesReceived := n, down := .assigned n err }
    | _ => none
  | .downSend =>
    match t.down with
    | .assigned n err => some { t with errChan := t.errChan ++ [err], down := .sent n }
    | _ => none
  | .receive =>
    match t.handler, t.errChan with
    | .waiting, _ :: rest => some { t with errChan := rest, handler := .received }
    | _, _ => none
  | .record =>
    match t.handler with
    | .received => some { t with handler := .recorded t.bytesSent t.bytesReceived }
    | _ => none

/-- A variable is still zero while the goroutine that assigns it has not
reached its assignment. -/
def Tunnel.zeroBeforeAssign (t : Tunnel) : Bool :=
  (match t.up with
    | .copying _ => decide (t.bytesSent = 0)
    | .returned _ _ => decide (t.bytesSent = 0)
    | _ => true) &&
  (match t.down with
    | .copying _ => decide (t.bytesReceived = 0)
    | .returned _ _ => decide (t.bytesReceived = 0)
    | _ => true)

/-- A run: the moves of a schedule one after the other. -/
def Tunnel.run (t : Tunnel) : List TunnelStep → Option Tunnel
  | [] => some t
  | s :: rest =>
    match t.step s with
    | some t1 => t1.run rest
    | none => none

/-- Method `handleHTTPS` with the tunnel run by a schedule: the values the
handler records are those it reads in the run; `none` when the schedule is
not a run or does not reach the two calls. -/
def handleHTTPSTunnel (L : Lib) (net : Network) (db : Database) (now elapsedMs : Int)
    (r : Request) (claims : Claims) (prefs : UserProxySettings) (schedule : List TunnelStep) :
    Option ProxyResult :=
  match Tunnel.start.run schedule with
  | some t =>
    match t.handler with
    | .recorded bytesSent bytesReceived =>
      some (handleHTTPS L { net with TunnelSent := bytesSent, TunnelReceived := bytesReceived }
        db now elapsedMs r claims prefs)
    | _ => none
  | none => none

/-- Schedule of a tunnel to an echo server: the client writes `K` bytes, the
`K` echoed bytes reach the client, the client closes its connection so that
`io.Copy(destConn, clientConn)` returns, the goroutine assigns and sends, the
handler receives and records; the destination connection is still open and
`io.Copy(clientConn, destConn)` has not returned. -/
def echoSchedule (K : Nat) : List TunnelStep :=
  [.upCopy K, .downCopy K, .upReturn none, .upAssign, .upSend, .receive, .record]

/-- Method `handleProxy` of `ProxyServer`. -/
def handleProxy (L : Lib) (env : Env) (net : Network) (db : Database) (now elapsedMs : Int)
    (r : Request) : ProxyResult :=
  match authenticateRequest L env db now r with
  | .error _ =>
    { reply := .response
        (httpError (Header.Set [] "Proxy-Authenticate" "Basic realm=\"Proxy Server\"")
          "Proxy Authentication Required" 407)
      db := db
      net := [] }
  | .ok claims =>
    match db.GetUserProxySettings claims.UserID with
    | .error _ =>
      { reply := .response (httpError [] "Failed to load proxy settings" 500), db := db, net := [] }
    | .ok settings =>
      if r.Method = "CONNECT" then handleHTTPS L net db now elapsedMs r claims settings
      else handleHTTP L net db now elapsedMs r claims settings

/-! ## Two-factor handlers (`handlers/twofa.go`, `handlers/helpers.go`) -/

/-- Constant `twoFARateLimitAttempts`. -/
def twoFARateLimitAttempts : Int := 5

/-- Constant `twoFARateLimitWindow`, in seconds. -/
def twoFARateLimitWindow : Int := 5 * 60

/-- Constant `backupCodesCount`. -/
def backupCodesCount : Int := 10

/-- Outcome of an administrative handler: the response and the database
afterwards. -/
structure HandlerResult where
  resp : Response
  db : Database

/-- Function `respondWithJSON`. -/
def respondWithJSON (code : Int) (payload : Payload) : Response :=
  { Status := code, Header := Header.Set [] "Content-Type" "application/json", Body := payload }

/-- Function `respondWithError`. -/
def respondWithError (code : Int) (message : String) : Response :=
  respondWithJSON code (.error message)

/-- Function `getRequestIP`. -/
def getRequestIP (L : Lib) (r : Request) : String :=
  let forwarded := r.Header.Get "X-Forwarded-For"
  if forwarded ≠ "" then
    match cutAt ',' forwarded.data with
    | some (first, _) => TrimSpace (String.mk first)
    | none => TrimSpace forwarded
  else
    match L.SplitHostPort r.RemoteAddr with
    | .error _ => r.RemoteAddr
    | .ok (host, _) => host

/-- Function `extractToken`. -/
def extractToken (L : Lib) (r : Request) (fallback : String) : String :=
  let authHeader := r.Header.Get "Authorization"
  let bearer : Option String :=
    if authHeader ≠ "" then
      match SplitN2 authHeader ' ' with
      | [scheme, rest] => if L.EqualFold scheme "Bearer" then some rest else none
      | _ => none
    else none
  match bearer with
  | some token => token
  | none =>
    let headerToken := r.Header.Get "X-2FA-Token"
    if headerToken ≠ "" then headerToken else TrimSpace fallback

/-- Method `logTwoFAAttempt`; a failed insert is only printed. -/
def logTwoFAAttempt (db : Database) (now userID : Int) (ip event method : String)
    (success : Bool) (message : String) : Database :=
  (db.LogTwoFAAttempt now
    { UserID := userID, IP := ip, Event := event, Method := method, Success := success,
      Message := message }).2

/-- Method `isRateLimited`. -/
def isRateLimited (db : Database) (now userID : Int) (ip : String) : Bool :=
  match db.CountRecentTwoFAAttempts now userID ip twoFARateLimitWindow with
  | .error _ => false
  | .ok count => decide (count ≥ twoFARateLimitAttempts)

/-- Method `loadTwoFASecret`. -/
def loadTwoFASecret (L : Lib) (env : Env) (db : Database) (userID : Int) : Except String String :=
  match db.GetTwoFASecret userID with
  | .error e => .error e
  | .ok (secretEnc, _) =>
    if TrimSpace secretEnc = "" then .error "2FA secret missing"
    else DecryptSecret L env secretEnc

/-- Method `validateTwoFactorCode`: the method on success, the error otherwise
(the Go method then returns the empty method), and the database afterwards. -/
def validateTwoFactorCode (L : Lib) (env : Env) (db : Database) (now userID : Int)
    (code backupCode : String) : Except String String × Database :=
  match loadTwoFASecret L env db userID with
  | .error _ => (.error "2FA secret unavailable", db)
  | .ok secret =>
    let code := TrimSpace code
    if code ≠ "" && ValidateTOTP L secret code now then (.ok "totp", db)
    else
      let backupCode := TrimSpace backupCode
      if backupCode ≠ "" then
        match db.ConsumeBackupCode L now userID backupCode with
        | (.error e, db1) => (.error e, db1)
        | (.ok true, db1) => (.ok "backup", db1)
        | (.ok false, db1) => (.error "invalid verification code", db1)
      else (.error "invalid verification code", db)

/-- The hashing loop of the handlers; `salt i` is the salt bcrypt draws for
code `i`. -/
def hashCodes (L : Lib) (salt : Nat → Bytes) : Nat → List String → Except String (List String)
  | _, [] => .ok []
  | i, code :: rest =>
    match HashPassword L (salt i) code with
    | .error e => .error e
    | .ok hash =>
      match hashCodes L salt (i + 1) rest with
      | .error e => .error e
      | .ok hashes => .ok (hash :: hashes)

/-- Method `SetupTwoFA`; `rnd` is the random source of the secret, `draw`
that of the nonce. -/
def SetupTwoFA (L : Lib) (env : Env) (rnd draw : Nat → Except String Bytes) (db : Database)
    (now : Int) (r : Request) : HandlerResult :=
  match r.ContextUser with
  | none => { resp := respondWithError 401 "Unauthorized", db := db }
  | some user =>
    match GenerateKey L env rnd user.Username user.Email with
    | .error _ => { resp := respondWithError 500 "Failed to generate 2FA secret", db := db }
    | .ok (key, secret) =>
      match EncryptSecret L env draw secret with
      | .error _ => { resp := respondWithError 500 "Failed to secure 2FA secret", db := db }
      | .ok encryptedSecret =>
        match db.StoreTwoFASecret user.ID encryptedSecret with
        | (.error _, db1) =>
          { resp := respondWithError 500 "Failed to persist 2FA secret", db := db1 }
        | (.ok _, db1) =>
          match GenerateQRCodeBase64 L key with
          | .error _ => { resp := respondWithError 500 "Failed to render QR code", db := db1 }
          | .ok qr =>
            { resp := respondWithJSON 200 (.twoFASetup secret key qr)
              db := logTwoFAAttempt db1 now user.ID (getRequestIP L r) "setup_init" "totp" true
                "2FA setup initiated" }

/-- Method `VerifySetupTwoFA`. -/
def VerifySetupTwoFA (L : Lib) (env : Env) (draw : Nat → Except String Bytes) (salt : Nat → Bytes)
    (db : Database) (now : Int) (r : Request) : HandlerResult :=
  match r.ContextUser with
  | none => { resp := respondWithError 401 "Unauthorized", db := db }
  | some user =>
    match r.Body with
    | none => { resp := respondWithError 400 "Invalid request body", db := db }
    | some req =>
      if TrimSpace req.Code = "" then
        { resp := respondWithError 400 "Verification code is required", db := db }
      else
        let ip := getRequestIP L r
        if isRateLimited db now user.ID ip then
          { resp := respondWithError 429 "Too many attempts. Try again later."
            db := logTwoFAAttempt db now user.ID ip "setup_verify" "totp" false
              "Rate limit exceeded" }
        else
          match loadTwoFASecret L env db user.ID with
          | .error _ =>
            { resp := respondWithError 400 "2FA is not initialized for this account", db := db }
          | .ok secret =>
            if !ValidateTOTP L secret req.Code now then
              { resp := respondWithError 400 "Invalid verification code"
                db := logTwoFAAttempt db now user.ID ip "setup_verify" "totp" false
                  "Invalid TOTP code" }
            else
              match GenerateBackupCodes draw backupCodesCount with
              | .error _ =>
                { resp := respondWithError 500 "Failed to generate backup codes", db := db }
              | .ok codes =>
                match hashCodes L salt 0 codes with
                | .error _ =>
                  { resp := respondWithError 500 "Failed to secure backup codes", db := db }
                | .ok hashes =>
                  match db.ReplaceBackupCodes now user.ID hashes with
                  | (.error _, db1) =>
                    { resp := respondWithError 500 "Failed to persist backup codes", db := db1 }
                  | (.ok _, db1) =>
                    match db1.SetTwoFAEnabled user.ID true with
                    | (.error _, db2) =>
                      { resp := respondWithError 500 "Failed to enable 2FA", db := db2 }
                    | (.ok _, db2) =>
                      { resp := respondWithJSON 200
                          (.twoFAVerify "" none "Two-factor authentication activated" codes)
                        db := logTwoFAAttempt db2 now user.ID ip "setup_verify" "totp" true
                          "2FA activated" }

/-- Method `VerifyTwoFA`, the login challenge. -/
def VerifyTwoFA (L : Lib) (env : Env) (db : Database) (now : Int) (r : Request) :
    HandlerResult :=
  match r.Body with
  | none => { resp := respondWithError 400 "Invalid request body", db := db }
  | some req =>
    let token := extractToken L r req.TempToken
    if token = "" then { resp := respondWithError 401 "Missing verification token", db := db }
    else
      match ValidateToken L env now token with
      | .error _ => { resp := respondWithError 401 "Invalid verification token", db := db }
      | .ok claims =>
        if claims.TwoFactorVerified then
          { resp := respondWithError 400 "Token is already verified", db := db }
        else
          match db.GetUserByID claims.UserID with
          | .error _ => { resp := respondWithError 401 "User not found or inactive", db := db }
          | .ok user =>
            if !user.IsActive then
              { resp := respondWithError 401 "User not found or inactive", db := db }
            else
              let ip := getRequestIP L r
              if isRateLimited db now user.ID ip then
                { resp := respondWithError 429 "Too many attempts. Try again later."
                  db := logTwoFAAttempt db now user.ID ip "login" "totp" false
                    "Rate limit exceeded" }
              else
                match validateTwoFactorCode L env db now user.ID req.Code req.BackupCode with
                | (.error e, db1) =>
                  { resp := respondWithError 401 "Invalid authentication code"
                    db := logTwoFAAttempt db1 now user.ID ip "login" "" false e }
                | (.ok method, db1) =>
                  match GenerateToken L env now user.ID user.Username user.IsAdmin true with
                  | .error _ =>
                    { resp := respondWithError 500 "Failed to generate token", db := db1 }
                  | .ok tokenResp =>
                    let db2 :=
                      if user.IsAdmin then
                        db1.LogAdminAction now (some user.ID) "LOGIN_SUCCESS"
                          ("Admin login via 2FA (" ++ method ++ ")") (getRequestIP L r)
                      else db1
                    { resp := respondWithJSON 200
                        (.twoFAVerify tokenResp (some user) "Two-factor verification successful" [])
                      db := logTwoFAAttempt db2 now user.ID ip "login" method true
                        "2FA challenge passed" }

/-- Method `DisableTwoFA`. -/
def DisableTwoFA (L : Lib) (env : Env) (db : Database) (now : Int) (r : Request) :
    HandlerResult :=
  match r.ContextUser with
  | none => { resp := respondWithError 401 "Unauthorized", db := db }
  | some user =>
    match r.Body with
    | none => { resp := respondWithError 400 "Invalid request body", db := db }
    | some req =>
      if TrimSpace req.Code = "" && TrimSpace req.BackupCode = "" then
        { resp := respondWithError 400 "Provide either verification or backup code", db := db }
      else
        let ip := getRequestIP L r
        if isRateLimited db now user.ID ip then
          { resp := respondWithError 429 "Too many attempts. Try again later."
            db := logTwoFAAttempt db now user.ID ip "disable" "totp" false "Rate limit exceeded" }
        else
          match validateTwoFactorCode L env db now user.ID req.Code req.BackupCode with
          | (.error e, db1) =>
            { resp := respondWithError 401 "Invalid authentication code"
              db := logTwoFAAttempt db1 now user.ID ip "disable" "" false e }
          | (.ok method, db1) =>
            match db1.ClearTwoFAData user.ID with
            | (.error _, db2) => { resp := respondWithError 500 "Failed to disable 2FA", db := db2 }
            | (.ok _, db2) =>
              { resp := respondWithJSON 200 (.success "Two-factor authentication disabled")
                db := logTwoFAAttempt db2 now user.ID ip "disable" method true "2FA disabled" }

/-- Method `url.Values.Get`: first value of the query key, empty when absent. -/
def queryGet (q : List (String × String)) (key : String) : String :=
  match q.find? (fun kv => decide (kv.1 = key)) with
  | some (_, v) => v
  | none => ""

/-- Method `RegenerateBackupCodes`. -/
def RegenerateBackupCodes (L : Lib) (env : Env) (draw : Nat → Except String Bytes)
    (salt : Nat → Bytes) (db : Database) (now : Int) (r : Request) : HandlerResult :=
  match r.ContextUser with
  | none => { resp := respondWithError 401 "Unauthorized", db := db }
  | some user =>
    let code := TrimSpace (queryGet r.Query "code")
    let backup := TrimSpace (queryGet r.Query "backup_code")
    if code = "" && backup = "" then
      { resp := respondWithError 400 "Verification or backup code is required", db := db }
    else
      let ip := getRequestIP L r
      if isRateLimited db now user.ID ip then
        { resp := respondWithError 429 "Too many attempts. Try again later."
          db := logTwoFAAttempt db now user.ID ip "backup_regen" "totp" false
            "Rate limit exceeded" }
      else
        match validateTwoFactorCode L env db now user.ID code backup with
        | (.error e, db1) =>
          { resp := respondWithError 401 "Invalid authentication code"
            db := logTwoFAAttempt db1 now user.ID ip "backup_regen" "" false e }
        | (.ok method, db1) =>
          match GenerateBackupCodes draw backupCodesCount with
          | .error _ =>
            { resp := respondWithError 500 "Failed to generate backup codes", db := db1 }
          | .ok codes =>
            match hashCodes L salt 0 codes with
            | .error _ =>
              { resp := respondWithError 500 "Failed to secure backup codes", db := db1 }
            | .ok hashes =>
              match db1.ReplaceBackupCodes now user.ID hashes with
              | (.error _, db2) =>
                { resp := respondWithError 500 "Failed to persist backup codes", db := db2 }
              | (.ok _, db2) =>
                { resp := respondWithJSON 200 (.backupCodes codes)
                  db := logTwoFAAttempt db2 now user.ID ip "backup_regen" method true
                    "Backup codes regenerated" }

/-! ## Authentication middleware (`middleware/auth.go`) -/

/-- What the middleware does with a request: it answers itself, or it calls
the next handler with the request it built. -/
inductive MiddlewareResult where
  | rejected (resp : Response)
  | next (r : Request)
deriving DecidableEq, Repr

/-- Method `AuthMiddleware.Handler`, run at time `now`; the user is put into
the context of the request handed on. -/
def AuthMiddleware.Handler (L : Lib) (env : Env) (db : Database) (now : Int) (r : Request) :
    MiddlewareResult :=
  let authHeader := r.Header.Get "Authorization"
  if authHeader = "" then .rejected (respondWithError 401 "Missing authorization header")
  else
    match Split authHeader ' ' with
    | [scheme, token] =>
      if scheme ≠ "Bearer" then
        .rejected (respondWithError 401 "Invalid authorization header format")
      else
        match ValidateToken L env now token with
        | .error _ => .rejected (respondWithError 401 "Invalid token")
        | .ok claims =>
          match db.GetUserByID claims.UserID with
          | .error _ => .rejected (respondWithError 401 "User not found")
          | .ok user =>
            if !user.IsActive then .rejected (respondWithError 403 "User account is inactive")
            else if user.TwoFAEnabled && !claims.TwoFactorVerified then
              .rejected (respondWithError 403 "Two-factor authentication required")
            else .next { r with ContextUser := some user }
    | _ => .rejected (respondWithError 401 "Invalid authorization header format")

/-! ## Login handlers (`handlers/auth.go`) -/

/-- Method `logAuditEvent`. -/
def logAuditEvent (L : Lib) (db : Database) (now : Int) (userID : Option Int)
    (action details : String) (r : Request) : Database :=
  db.LogAdminAction now userID action details (getRequestIP L r)

/-- Method `InitSetup`; `body` is the outcome of decoding the JSON body into
`models.InitSetupRequest`, `salt` the salt bcrypt draws. -/
def InitSetup (L : Lib) (env : Env) (schema : UsersSchema) (salt : Bytes) (db : Database)
    (now : Int) (body : Option InitSetupRequest) : HandlerResult :=
  match db.IsInitialized with
  | .error _ => { resp := respondWithError 500 "Database error", db := db }
  | .ok initialized =>
    if initialized then { resp := respondWithError 400 "System already initialized", db := db }
    else
      match body with
      | none => { resp := respondWithError 400 "Invalid request body", db := db }
      | some req =>
        if req.Username = "" ∨ req.Password = "" then
          { resp := respondWithError 400 "Username and password are required", db := db }
        else
          match HashPassword L salt req.Password with
          | .error _ => { resp := respondWithError 500 "Failed to hash password", db := db }
          | .ok hashedPassword =>
            let userCreate : UserCreate :=
              { Username := req.Username, Password := req.Password, Email := req.Email,
                Comment := "Initial admin user", IsAdmin := true, ProxyType := "",
                Whitelist := [], Blacklist := [] }
            match db.CreateUser schema now userCreate hashedPassword with
            | (.error _, db1) =>
              { resp := respondWithError 500 "Failed to create user", db := db1 }
            | (.ok user, db1) =>
              match GenerateToken L env now user.ID user.Username user.IsAdmin true with
              | .error _ =>
                { resp := respondWithError 500 "Failed to generate token", db := db1 }
              | .ok token =>
                { resp := respondWithJSON 201
                    (.login token user "Admin user created successfully" false "")
                  db := db1 }

/-- Method `Login`; `body` is the outcome of decoding the JSON body into
`models.LoginRequest`. -/
def Login (L : Lib) (env : Env) (db : Database) (now : Int) (r : Request)
    (body : Option LoginRequest) : HandlerResult :=
  match body with
  | none => { resp := respondWithError 400 "Invalid request body", db := db }
  | some req =>
    match db.GetUserByUsername L req.Username with
    | .error _ =>
      { resp := respondWithError 401 "Invalid credentials"
        db := logAuditEvent L db now none "LOGIN_FAIL"
          ("username=" ++ TrimSpace req.Username ++ " reason=user_not_found") r }
    | .ok user =>
      if !user.IsActive then
        { resp := respondWithError 401 "User account is inactive"
          db := logAuditEvent L db now (some user.ID) "LOGIN_FAIL"
            ("username=" ++ user.Username ++ " reason=inactive") r }
      else if !CheckPasswordHash L req.Password user.PasswordHash then
        { resp := respondWithError 401 "Invalid credentials"
          db := logAuditEvent L db now (some user.ID) "LOGIN_FAIL"
            ("username=" ++ user.Username ++ " reason=invalid_password") r }
      else if !user.IsAdmin then
        { resp := respondWithError 401 "Admin access required"
          db := logAuditEvent L db now (some user.ID) "LOGIN_FAIL"
            ("username=" ++ user.Username ++ " reason=not_admin") r }
      else if user.TwoFAEnabled then
        match GenerateTempToken L env now user.ID user.Username user.IsAdmin with
        | .error _ => { resp := respondWithError 500 "Failed to generate 2FA token", db := db }
        | .ok tempToken =>
          { resp := respondWithJSON 200
              (.login "" user "Two-factor authentication required" true tempToken)
            db := db }
      else
        match GenerateToken L env now user.ID user.Username user.IsAdmin true with
        | .error _ => { resp := respondWithError 500 "Failed to generate token", db := db }
        | .ok token =>
          let db1 :=
            if user.IsAdmin then
              logAuditEvent L db now (some user.ID) "LOGIN_SUCCESS" "Admin login (password)" r
            else db
          { resp := respondWithJSON 200 (.login token user "" false ""), db := db1 }

/-! ## A reference library

A concrete `Lib` on which the embedding can be run.  Base64, base32 (on
canonical input), HMAC-SHA1 and `net.SplitHostPort` are the real algorithms;
bcrypt, SHA-256, AES-GCM, the JWT package, `http.NewRequest`, the URL escapers
and the QR code of a key are stand-ins that honour the contracts the calling
code relies on. -/

/-- Rotation of a 32-bit word to the left. -/
def rotl32 (x n : Nat) : Nat := ((x <<< n) ||| (x >>> (32 - n))) % 4294967296

/-- Big-endian value of a byte string. -/
def fromBigEndian (bs : Bytes) : Nat := bs.foldl (fun acc b => acc * 256 + b % 256) 0

/-- SHA-1 padding: the bit 1, zeros, and the bit length in 64 bits. -/
def sha1Pad (msg : Bytes) : Bytes :=
  msg ++ 0x80 :: List.replicate ((119 - msg.length % 64) % 64) 0 ++ bigEndian 8 (8 * msg.length)

/-- The first `fuel` chunks of `n` bytes of a byte string. -/
def chunks (n : Nat) : Nat → Bytes → List Bytes
  | 0, _ => []
  | fuel + 1, bs => if bs.length = 0 then [] else bs.take n :: chunks n fuel (bs.drop n)

/-- SHA-1 message schedule: `ws` holds the words so far, newest first. -/
def sha1Schedule : Nat → List Nat → List Nat
  | 0, ws => ws
  | k + 1, ws =>
    let w := rotl32 (ws.getD 2 0 ^^^ ws.getD 7 0 ^^^ ws.getD 13 0 ^^^ ws.getD 15 0) 1
    sha1Schedule k (w :: ws)

/-- The five working words of SHA-1. -/
structure Sha1State where
  a : Nat
  b : Nat
  c : Nat
  d : Nat
  e : Nat

/-- Round `t` of SHA-1 on the schedule word `w`. -/
def sha1Round (t : Nat) (w : Nat) (s : Sha1State) : Sha1State :=
  let fk : Nat × Nat :=
    if t < 20 then ((s.b &&& s.c) ||| ((s.b ^^^ 4294967295) &&& s.d), 0x5A827999)
    else if t < 40 then (s.b ^^^ s.c ^^^ s.d, 0x6ED9EBA1)
    else if t < 60 then ((s.b &&& s.c) ||| (s.b &&& s.d) ||| (s.c &&& s.d), 0x8F1BBCDC)
    else (s.b ^^^ s.c ^^^ s.d, 0xCA62C1D6)
  let temp := (rotl32 s.a 5 + fk.1 + s.e + fk.2 + w) % 4294967296
  ⟨temp, s.a, rotl32 s.b 30, s.c, s.d⟩

/-- The rounds of SHA-1 over the schedule, from round `t`. -/
def sha1Rounds : Nat → List Nat → Sha1State → Sha1State
  | _, [], s => s
  | t, w :: ws, s => sha1Rounds (t + 1) ws (sha1Round t w s)

/-- SHA-1 compression of one 64-byte block. -/
def sha1Block (h : Sha1State) (block : Bytes) : Sha1State :=
  let w16 := (chunks 4 16 block).map fromBigEndian
  let ws := (sha1Schedule 64 w16.reverse).reverse
  let s := sha1Rounds 0 ws h
  ⟨(h.a + s.a) % 4294967296, (h.b + s.b) % 4294967296, (h.c + s.c) % 4294967296,
   (h.d + s.d) % 4294967296, (h.e + s.e) % 4294967296⟩

/-- Digest SHA-1 (RFC 3174). -/
def sha1 (msg : Bytes) : Bytes :=
  let p := sha1Pad msg
  let h := (chunks 64 (p.length / 64) p).foldl sha1Block
    ⟨0x67452301, 0xEFCDAB89, 0x98BADCFE, 0x10325476, 0xC3D2E1F0⟩
  bigEndian 4 h.a ++ bigEndian 4 h.b ++ bigEndian 4 h.c ++ bigEndian 4 h.d ++ bigEndian 4 h.e

/-- Keyed hash HMAC-SHA1 (RFC 2104). -/
def hmacSHA1 (key msg : Bytes) : Bytes :=
  let k := if key.length > 64 then sha1 key else key
  let k := k ++ List.replicate (64 - k.length) 0
  sha1 (k.map (· ^^^ 0x5c) ++ sha1 (k.map (· ^^^ 0x36) ++ msg))

/-- Position of a character in an alphabet. -/
def alphabetIndex (alphabet : String) (c : Char) : Option Nat :=
  let i := alphabet.data.indexOf c
  if i < alphabet.data.length then some i else none

/-- The characters of an encoded text without line breaks and without the
trailing padding; `none` when more than `maxPad` padding characters end it. -/
def stripPadding (maxPad : Nat) (s : String) : Option (List Char × Nat) :=
  let cs := s.data.filter (fun c => c != '\r' && c != '\n')
  let body := (cs.reverse.dropWhile (fun c => c == '=')).reverse
  if cs.length - body.length ≤ maxPad then some (body, cs.length) else none

/-- Bytes of the bit string made of `width`-bit digits, trailing bits dropped. -/
def packDigits (width : Nat) (digits : List Nat) : Bytes :=
  let bits := width * digits.length
  let value := digits.foldl (fun acc v => acc * 2 ^ width + v) 0
  bigEndian (bits / 8) (value >>> (bits % 8))

/-- Decoder of standard base64 with padding. -/
def stdBase64Decode (s : String) : Option Bytes :=
  match stripPadding 2 s with
  | none => none
  | some (body, total) =>
    if total % 4 ≠ 0 ∨ body.length % 4 = 1 then none
    else
      match body.mapM (alphabetIndex
        "ABCDEFGHIJKLMNOPQRSTUVWXYZabcdefghijklmnopqrstuvwxyz0123456789+/") with
      | none => none
      | some digits => some (packDigits 6 digits)

/-- Base64 digits of a byte string, three bytes at a time. -/
def base64Digits : Bytes → List Char
  | [] => []
  | [a] =>
    let al := "ABCDEFGHIJKLMNOPQRSTUVWXYZabcdefghijklmnopqrstuvwxyz0123456789+/".data
    [al.getD (a / 4) 'A', al.getD (a % 4 * 16) 'A', '=', '=']
  | [a, b] =>
    let al := "ABCDEFGHIJKLMNOPQRSTUVWXYZabcdefghijklmnopqrstuvwxyz0123456789+/".data
    [al.getD (a / 4) 'A', al.getD (a % 4 * 16 + b / 16) 'A', al.getD (b % 16 * 4) 'A', '=']
  | a :: b :: c :: rest =>
    let al := "ABCDEFGHIJKLMNOPQRSTUVWXYZabcdefghijklmnopqrstuvwxyz0123456789+/".data
    al.getD (a / 4) 'A' :: al.getD (a % 4 * 16 + b / 16) 'A' ::
      al.getD (b % 16 * 4 + c / 64) 'A' :: al.getD (c % 64) 'A' :: base64Digits rest

/-- Encoder of standard base64 with padding. -/
def stdBase64Encode (b : Bytes) : String := String.mk (base64Digits b)

/-- Decoder of standard base32 with padding. -/
def stdBase32Decode (s : String) : Option Bytes :=
  match stripPadding 6 s with
  | none => none
  | some (body, total) =>
    if total % 8 ≠ 0 ∨ body.length % 8 = 1 ∨ body.length % 8 = 3 ∨ body.length % 8 = 6 then none
    else
      match body.mapM (alphabetIndex "ABCDEFGHIJKLMNOPQRSTUVWXYZ234567") with
      | none => none
      | some digits => some (packDigits 5 digits)

/-- Encoder of standard base32 without padding. -/
def stdBase32EncodeNoPad (b : Bytes) : String :=
  let bits := 8 * b.length
  let count := (bits + 4) / 5
  let value := fromBigEndian b <<< (5 * count - bits)
  String.mk ((List.range count).map (fun i =>
    "ABCDEFGHIJKLMNOPQRSTUVWXYZ234567".data.getD ((value >>> (5 * (count - 1 - i))) % 32) 'A'))

/-- Stand-in for the URL escapers: a space becomes the given text, every other
character stays. -/
def refEscape (space : String) (s : String) : String :=
  String.mk (s.data.flatMap (fun c => if c = ' ' then space.data else [c]))

/-- ASCII lower case of a string. -/
def asciiLower (s : String) : List Char :=
  s.data.map (fun c => if 0x41 ≤ c.toNat ∧ c.toNat ≤ 0x5A then Char.ofNat (c.toNat + 0x20) else c)

/-- Stand-in for the tag of the authenticated cipher: a checksum of key, nonce
and ciphertext, 16 bytes wide. -/
def refTag (key nonce ct : Bytes) : Bytes :=
  bigEndian 16 ((key ++ nonce ++ ct).foldl (fun acc b => (acc * 257 + b + 1) %
    340282366920938463463374607431768211456) 7)

/-- Stand-in for the key stream of the authenticated cipher. -/
def refStream (key nonce : Bytes) (data : Bytes) : Bytes :=
  (List.range data.length).map (fun i =>
    data.getD i 0 ^^^ key.getD (i % 32) 0 ^^^ nonce.getD (i % 12) 0)

/-- Stand-in for AES-GCM: a stream cipher followed by a 16-byte tag. -/
def refGCM (key : Bytes) : AEAD :=
  { NonceSize := 12
    Seal := fun nonce pt =>
      let ct := refStream key nonce pt
      ct ++ refTag key nonce ct
    Open := fun nonce data =>
      if data.length < 16 then .error "cipher: message authentication failed"
      else
        let ct := data.take (data.length - 16)
        if data.drop (data.length - 16) = refTag key nonce ct then .ok (refStream key nonce ct)
        else .error "cipher: message authentication failed" }

/-- Stand-in for the tokens the JWT package accepts: the token text, the parsed
token and the key it was signed with. -/
def refTokens : List (String × Token × String) :=
  [ ("temp.root",
      { Method := .hmac "HS256"
        Claims := { UserID := 1, Username := "root", IsAdmin := true,
                    TwoFactorVerified := false, ExpiresAt := some 1751696100,
                    IssuedAt := some 1751695800 }
        Valid := false },
      "s3cret"),
    ("session.root",
      { Method := .hmac "HS256"
        Claims := { UserID := 1, Username := "root", IsAdmin := true,
                    TwoFactorVerified := true, ExpiresAt := some 1751782200,
                    IssuedAt := some 1751695800 }
        Valid := false },
      "s3cret"),
    ("session.alice",
      { Method := .hmac "HS256"
        Claims := { UserID := 2, Username := "alice", IsAdmin := false,
                    TwoFactorVerified := false, ExpiresAt := some 1751782200,
                    IssuedAt := some 1751695800 }
        Valid := false },
      "s3cret"),
    ("signed.full.root.s3cret",
      { Method := .hmac "HS256"
        Claims := { UserID := 1, Username := "root", IsAdmin := true,
                    TwoFactorVerified := true, ExpiresAt := some 1751782200,
                    IssuedAt := some 1751695800 }
        Valid := false },
      "s3cret"),
    ("signed.full.dave.s3cret",
      { Method := .hmac "HS256"
        Claims := { UserID := 4, Username := "dave", IsAdmin := true,
                    TwoFactorVerified := true, ExpiresAt := some 1751782200,
                    IssuedAt := some 1751695800 }
        Valid := false },
      "s3cret") ]

/-- Stand-in for `jwt.ParseWithClaims`: known token, key accepted by the key
function, matching key, not expired. -/
def refParseWithClaims (tokenString : String) (keyFunc : Token → Except String String)
    (now : Int) : Except String Token :=
  match refTokens.find? (fun e => decide (e.1 = tokenString)) with
  | none => .error "token is malformed"
  | some (_, token, key) =>
    match keyFunc token with
    | .error e => .error e
    | .ok k =>
      if k ≠ key then .error "token signature is invalid"
      else
        match token.Claims.ExpiresAt with
        | some exp => if now < exp then .ok { token with Valid := true }
                      else .error "token is expired"
        | none => .ok { token with Valid := true }

/-- Go `net.SplitHostPort`: the port starts after the last colon; a host in
square brackets loses them; a colon in a host without brackets and a stray
bracket are errors.  The error carries the reason only, not the address. -/
def goSplitHostPort (hostport : String) : Except String (String × String) :=
  let s := hostport.data
  match cutAt ':' s.reverse with
  | none => .error "missing port in address"
  | some (portRev, hostRev) =>
    let i := hostRev.length
    if s.head? = some '[' then
      match cutAt ']' s with
      | none => .error "missing ']' in address"
      | some (before, after) =>
        let close := before.length
        if close + 1 = s.length then .error "missing port in address"
        else if close + 1 = i then
          if '[' ∈ s.drop 1 then .error "unexpected '[' in address"
          else if ']' ∈ s.drop (close + 1) then .error "unexpected ']' in address"
          else .ok (String.mk (before.drop 1), String.mk portRev.reverse)
        else if after.head? = some ':' then .error "too many colons in address"
        else .error "missing port in address"
    else
      let host := hostRev.reverse
      if ':' ∈ host then .error "too many colons in address"
      else if '[' ∈ s then .error "unexpected '[' in address"
      else if ']' ∈ s then .error "unexpected ']' in address"
      else .ok (String.mk host, String.mk portRev.reverse)

/-- Stand-in for `http.NewRequestWithContext` on URLs of the form
`scheme://host/path`. -/
def refNewRequest (method url : String) : Except String OutboundRequest :=
  if method = "" then .error "net/http: invalid method"
  else
    match cutAt ':' url.data with
    | some (scheme, '/' :: '/' :: rest) =>
      let host := rest.takeWhile (fun c => c != '/')
      .ok { Method := method, URLScheme := String.mk scheme, URLHost := String.mk host,
            URL := url, Host := String.mk host, Header := [] }
    | _ =>
      .ok { Method := method, URLScheme := "", URLHost := "", URL := url, Host := "",
            Header := [] }

/-- The reference library. -/
def refLib : Lib :=
  { caseTable := id
    upperTable := id
    EqualFold := fun a b => decide (asciiLower a = asciiLower b)
    stringOfBytes := fun b => String.mk (b.map Char.ofNat)
    bytesOfString := fun s => s.data.map Char.toNat
    base64Decode := stdBase64Decode
    base64Encode := stdBase64Encode
    base32Decode := stdBase32Decode
    hmacSHA1 := hmacSHA1
    sha256 := fun b => bigEndian 32 (b.foldl (fun acc x => acc * 257 + x + 1) 7)
    aesNewCipher := fun key =>
      if key.length = 16 ∨ key.length = 24 ∨ key.length = 32 then .ok key
      else .error "crypto/aes: invalid key size"
    cipherNewGCM := fun key => .ok (refGCM key)
    bcryptCompare := fun hash password => decide (hash = "$2a$10$" ++ password)
    bcryptGenerate := fun password _ =>
      if byteLen password > 72 then .error "bcrypt: password length exceeds 72 bytes"
      else .ok ("$2a$10$" ++ password)
    ParseWithClaims := refParseWithClaims
    SignedString := fun claims key =>
      .ok ("signed." ++ (if claims.TwoFactorVerified then "full." else "temp.") ++
        claims.Username ++ "." ++ key)
    sqlLower := fun s => String.mk (asciiLower s)
    SplitHostPort := goSplitHostPort
    NewRequest := refNewRequest
    base32EncodeNoPad := stdBase32EncodeNoPad
    PathEscape := refEscape "%20"
    QueryEscape := refEscape "+"
    NewKeyFromURL := fun url => .ok url
    keyImagePNG := fun key _ _ => .ok (key.data.map Char.toNat) }

/-! ## Example data -/

/-- Example environment: only `JWT_SECRET` is set. -/
def exampleEnv : Env := { JWT_SECRET := "s3cret", TWOFA_ENCRYPTION_KEY := "", APP_NAME := "" }

/-- Example database: the admin `root` with two-factor authentication enabled,
the proxy user `alice`, the inactive proxy user `carol`; five logged attempts
of `root` from one address. -/
def exampleDB : Database :=
  { users :=
      [ { id := 1, username := "root", password_hash := "$2a$10$toor", email := "", comment := "",
          is_admin := true, is_active := true, proxy_type := "default", twofa_enabled := true,
          twofa_secret := some "BwcHBwcHBwcHBwcHTUVUUF40Q1dCT1dMNFdfV2WnIh0IWGQcP9N+Wa2JxDE=",
          created_at := 0, updated_at := 0 },
        { id := 2, username := "alice", password_hash := "$2a$10$secret", email := "",
          comment := "", is_admin := false, is_active := true, proxy_type := "whitelist",
          twofa_enabled := false, twofa_secret := none, created_at := 0, updated_at := 0 },
        { id := 3, username := "carol", password_hash := "$2a$10$secret", email := "",
          comment := "", is_admin := false, is_active := false, proxy_type := "default",
          twofa_enabled := false, twofa_secret := none, created_at := 0, updated_at := 0 } ]
    whitelist := [{ id := 1, user_id := 2, value := "example.com" }]
    blacklist := []
    requestLogs := []
    trafficStats := []
    backupCodes := []
    twofaLogs :=
      [1751695700, 1751695710, 1751695720, 1751695730, 1751695740].map (fun t =>
        { user_id := 1, ip_address := "10.0.0.9", event := "login", method := "",
          success := false, message := "invalid verification code", created_at := t })
    auditLogs := []
    nextBackupCodeID := 1
    fails := fun _ => false }

/-- Example request carrying the given headers and JSON body. -/
def exampleRequest (method : String) (header : Header) (body : Option TwoFAVerifyRequest) :
    Request :=
  { Method := method, URL := "http://sub.example.com/index.html", Host := "sub.example.com:443",
    Header := header, RemoteAddr := "10.0.0.9:40000", ContentLength := 0, Body := body,
    Query := [], ContextUser := none }

/-- Example network: every upstream answers 200 with 5 body bytes. -/
def exampleNetwork : Network :=
  { Do := fun _ => .ok { StatusCode := 200, Header := [], BodyBytes := 5 }
    Dial := fun _ => .ok ()
    Hijack := some (.ok ())
    TunnelSent := 3
    TunnelReceived := 4 }

/-- The count of the specification: the attempt-log rows of `(userID, ip)`
whose timestamp lies within the trailing five minutes of `now`. -/
def recentAttempts (db : Database) (now userID : Int) (ip : String) : Nat :=
  (db.twofaLogs.filter (fun row =>
    decide (row.user_id = userID ∧ row.ip_address = ip ∧ now - 300 ≤ row.created_at))).length

/-- The request with the submitted codes replaced. -/
def Request.withCodes (r : Request) (code backupCode : String) : Request :=
  { r with
    Body := r.Body.map (fun req => { req with Code := code, BackupCode := backupCode })
    Query := [("code", code), ("backup_code", backupCode)] }

/-- The outcome the specification asks of a rate-limited two-factor request:
status 429 with the rate-limit error as body (so no token), the `users` table
(secrets and enabled flags) and the backup codes as before. -/
def RateLimited (db : Database) (res : HandlerResult) : Prop :=
  res.resp = respondWithError 429 "Too many attempts. Try again later." ∧
  res.db.users = db.users ∧ res.db.backupCodes = db.backupCodes

/-- The example database while the count query on `twofa_logs` fails. -/
def exampleDBCountDown : Database :=
  { exampleDB with fails := fun s => decide (s = Stmt.countTwoFALogs) }

/-- Example login challenge of `root`: the temp token as bearer, the given
codes in the body. -/
def exampleChallenge (code backupCode : String) : Request :=
  exampleRequest "POST" [("Authorization", ["Bearer temp.root"])]
    (some { Code := code, BackupCode := backupCode, TempToken := "" })

/-- Example login challenge of `root` with one token in the header
`X-2FA-Token`, which `net/http` stores under the name `X-2fa-Token`, and
another token in the body. -/
def exampleHeaderChallenge (headerToken bodyToken code : String) : Request :=
  exampleRequest "POST" [("X-2fa-Token", [headerToken])]
    (some { Code := code, BackupCode := "", TempToken := bodyToken })

/-- A run of later `ConsumeBackupCode` calls, each with its time, user and
candidate. -/
def consumeAll (L : Lib) : List (Int × Int × String) → Database → Database
  | [], d => d
  | (now, userID, candidate) :: rest, d =>
    consumeAll L rest (d.ConsumeBackupCode L now userID candidate).2

/-- Every stored code of the user that the candidate verifies against is
marked used. -/
def Spent (L : Lib) (d : Database) (userID : Int) (candidate : String) : Prop :=
  ∀ row ∈ d.backupCodes, row.user_id = userID →
    L.bcryptCompare row.code_hash candidate = true → row.used = true

/-- Example verify-setup request of `root` from the address `10.0.0.7`. -/
def exampleSetupVerify (code : String) : Request :=
  { exampleRequest "POST" [("X-Forwarded-For", ["10.0.0.7"])]
      (some { Code := code, BackupCode := "", TempToken := "" }) with
    ContextUser := some (UserRow.toUser ⟨1, "root", "$2a$10$toor", "", "", true, true, "default",
      true, some "BwcHBwcHBwcHBwcHTUVUUF40Q1dCT1dMNFdfV2WnIh0IWGQcP9N+Wa2JxDE=", 0, 0⟩) }

/-- The example database after two backup codes were stored for `root`. -/
def exampleDBWithCodes : Database :=
  (exampleDB.ReplaceBackupCodes 1751695800 1 ["$2a$10$2Z23Z9AB", "$2a$10$3Z23Z9AB"]).2

/-- The example environment after the encryption key was changed. -/
def exampleEnvRotated : Env := { exampleEnv with TWOFA_ENCRYPTION_KEY := "rotated" }

/-- The example database with a second admin, `dave`, who has not set up
two-factor authentication. -/
def exampleDBDave : Database :=
  { exampleDB with
    users := exampleDB.users ++
      [ { id := 4, username := "dave", password_hash := "$2a$10$hunter2", email := "",
          comment := "", is_admin := true, is_active := true, proxy_type := "default",
          twofa_enabled := false, twofa_secret := none, created_at := 0, updated_at := 0 } ] }

/-- Example setup request of `root`. -/
def exampleSetup : Request :=
  { exampleRequest "POST" [] none with
    ContextUser := some (UserRow.toUser ⟨1, "root", "$2a$10$toor", "", "", true, true, "default",
      true, some "BwcHBwcHBwcHBwcHTUVUUF40Q1dCT1dMNFdfV2WnIh0IWGQcP9N+Wa2JxDE=", 0, 0⟩) }

/-- No user leaves Enabled and no stored secret is replaced: the rows of
`users` before and after correspond one to one, each keeping its id and its
secret, and its enabled flag when that was set. -/
def KeepsTwoFA (before after : List UserRow) : Prop :=
  List.Forall₂ (fun a b => b.id = a.id ∧ (a.twofa_enabled = true → b.twofa_enabled = true) ∧
    b.twofa_secret = a.twofa_secret) before after

/-- The outbound request `handleHTTP` hands to `client.Do` once the host
policy has allowed the target: the request `http.NewRequestWithContext`
created, with the copied headers, the default scheme and host, and the client
address appended to `X-Forwarded-For`. -/
def forwardedRequest (L : Lib) (r : Request) (created : OutboundRequest) : OutboundRequest :=
  let out : OutboundRequest := { created with Header := copyHeaders L r.Header }
  let out : OutboundRequest := if out.URLScheme = "" then { out with URLScheme := "http" } else out
  let out : OutboundRequest := if out.Host = "" then { out with Host := out.URLHost } else out
  match L.SplitHostPort r.RemoteAddr with
  | .ok (clientIP, _) =>
    let prior := out.Header.Get "X-Forwarded-For"
    if prior ≠ "" then
      { out with Header := out.Header.Set "X-Forwarded-For" (prior ++ ", " ++ clientIP) }
    else { out with Header := out.Header.Set "X-Forwarded-For" clientIP }
  | .error _ => out

/-- The string has no leading and no trailing white space. -/
def Trimmed (s : String) : Bool :=
  s.data.head?.all (fun c => !isSpace c) && s.data.getLast?.all (fun c => !isSpace c)

/-- The rule of the specification for a listed entry: the lower-cased host
contains the lower-cased trimmed entry as a substring. -/
def entryMatches (L : Lib) (host entry : String) : Prop :=
  (ToLower L (TrimSpace entry)).data <:+: (ToLower L host).data


/-! # Theorems -/

/-! ## Access policy evaluator -/

/-- `Contains` is the sublist-as-a-block relation on the characters. -/
theorem Contains_iff (s sub : String) : Contains s sub = true ↔ sub.data <:+: s.data := by
  unfold Contains
  rw [List.any_eq_true]
  constructor
  · rintro ⟨t, ht, hp⟩
    rw [List.mem_tails] at ht
    rw [List.isPrefixOf_iff_prefix] at hp
    exact List.infix_iff_prefix_suffix.mpr ⟨t, hp, ht⟩
  · intro h
    obtain ⟨t, hp, hs⟩ := List.infix_iff_prefix_suffix.mp h
    exact ⟨t, (List.mem_tails _ _).mpr hs, List.isPrefixOf_iff_prefix.mpr hp⟩

/-- Lower-casing keeps a string empty or non-empty. -/
theorem ToLower_eq_empty (L : Lib) (s : String) : ToLower L s = "" ↔ s = "" := by
  unfold ToLower
  constructor
  · intro h
    have h2 := congrArg String.data h
    simp at h2
    exact String.ext h2
  · intro h
    subst h
    rfl

/-- The loop of `matchesList` finds a match iff some entry is non-empty after trimming and its lower-cased trimmed form occurs in the host. -/
theorem matchesListLoop_iff (L : Lib) (lh : String) (list : List String) :
    matchesListLoop L lh list = true ↔
      ∃ e ∈ list, TrimSpace e ≠ "" ∧ (ToLower L (TrimSpace e)).data <:+: lh.data := by
  induction list with
  | nil => simp [matchesListLoop]
  | cons e rest ih =>
    simp only [matchesListLoop, List.mem_cons, exists_eq_or_imp]
    by_cases he : ToLower L (TrimSpace e) = ""
    · have he2 : TrimSpace e = "" := (ToLower_eq_empty L _).mp he
      rw [if_pos he, ih]
      constructor
      · intro h
        exact Or.inr h
      · rintro (⟨h, _⟩ | h)
        · exact absurd he2 h
        · exact h
    · have he2 : TrimSpace e ≠ "" := fun h => he ((ToLower_eq_empty L _).mpr h)
      rw [if_neg he]
      by_cases hc : Contains lh (ToLower L (TrimSpace e)) = true
      · rw [if_pos hc]
        exact ⟨fun _ => Or.inl ⟨he2, (Contains_iff _ _).mp hc⟩, fun _ => rfl⟩
      · rw [if_neg hc, ih]
        constructor
        · intro h
          exact Or.inr h
        · rintro (⟨_, h⟩ | h)
          · exact absurd ((Contains_iff _ _).mpr h) hc
          · exact h

/-- Claim C2, amended: for every policy snapshot whose list entries are
non-empty after trimming and every non-empty host, `isHostAllowed` follows the
reference rule: type `default` allows; type `whitelist` allows iff the
lower-cased host contains the lower-cased trimmed form of some whitelist
entry; type `blacklist` denies iff it contains the form of some blacklist
entry, so an empty blacklist allows everything.  The five examples of the
specification hold. -/
theorem isHostAllowed_reference_rule (L : Lib) (prefs : UserProxySettings) (host : String)
    (hhost : host ≠ "")
    (hentries : ∀ e ∈ prefs.Whitelist ++ prefs.Blacklist, TrimSpace e ≠ "") :
    (prefs.ProxyType = "default" → isHostAllowed L (some prefs) host = true) ∧
    (prefs.ProxyType = "whitelist" →
      (isHostAllowed L (some prefs) host = true ↔
        ∃ e ∈ prefs.Whitelist, entryMatches L host e)) ∧
    (prefs.ProxyType = "blacklist" →
      (isHostAllowed L (some prefs) host = false ↔
        ∃ e ∈ prefs.Blacklist, entryMatches L host e)) ∧
    (prefs.ProxyType = "blacklist" → prefs.Blacklist = [] →
      isHostAllowed L (some prefs) host = true) ∧
    isHostAllowed L (some ⟨"whitelist", ["example.com"], []⟩) "sub.example.com" = true ∧
    isHostAllowed L (some ⟨"whitelist", ["example.com"], []⟩) "example.com.evil.net" = true ∧
    isHostAllowed L (some ⟨"whitelist", ["example.com"], []⟩) "other.org" = false ∧
    isHostAllowed L (some ⟨"blacklist", [], ["bad.com"]⟩) "really-bad.com" = false ∧
    isHostAllowed L (some ⟨"blacklist", [], ["bad.com"]⟩) "good.com" = true := by
  have key : ∀ list : List String, (∀ e ∈ list, TrimSpace e ≠ "") →
      (matchesList L list host = true ↔ ∃ e ∈ list, entryMatches L host e) := by
    intro list hl
    unfold matchesList entryMatches
    by_cases hlen : list.length = 0
    · have : list = [] := List.length_eq_zero.mp hlen
      subst this
      simp
    · rw [if_neg hlen]
      simp only []
      rw [matchesListLoop_iff]
      constructor
      · rintro ⟨e, he, _, hi⟩
        exact ⟨e, he, hi⟩
      · rintro ⟨e, he, hi⟩
        exact ⟨e, he, hl e he, hi⟩
  refine ⟨?_, ?_, ?_, ?_, rfl, rfl, rfl, rfl, rfl⟩
  · intro ht
    simp [isHostAllowed, hhost, ht]
  · intro ht
    simp only [isHostAllowed, if_neg hhost, ht, if_true]
    exact key _ (fun e he => hentries e (List.mem_append_left _ he))
  · intro ht
    have hne : ¬ ("blacklist" = "whitelist") := by decide
    simp only [isHostAllowed, if_neg hhost, ht, if_true, if_neg hne]
    rw [← key _ (fun e he => hentries e (List.mem_append_right _ he))]
    cases matchesList L prefs.Blacklist host <;> simp
  · intro ht hb
    have hne : ¬ ("blacklist" = "whitelist") := by decide
    simp [isHostAllowed, hhost, ht, hb, matchesList]


/-- Claim C2 as stated fails: the entry `" "` is non-empty, its trimmed form is
the empty string, which every host contains, yet the whitelist `[" "]` denies
the host `"a"` because `matchesList` skips entries that are empty after
trimming. -/
theorem isHostAllowed_blank_entry_counterexample :
    (∀ e ∈ [" "] ++ ([] : List String), e ≠ "") ∧ "a" ≠ "" ∧
    ∀ L : Lib, isHostAllowed L (some ⟨"whitelist", [" "], []⟩) "a" = false ∧
      ∃ e ∈ [" "], entryMatches L "a" e := by
  refine ⟨by decide, by decide, fun L => ⟨rfl, " ", by simp, ?_⟩⟩
  show ([] : List Char) <:+: _
  exact List.nil_infix

/-- Witness of C2 on the whitelist `["example.com"]` and the host
`"sub.example.com"`. -/
theorem isHostAllowed_reference_rule_witness :
    (isHostAllowed refLib (some ⟨"whitelist", ["example.com"], []⟩) "sub.example.com" = true ↔
      ∃ e ∈ ["example.com"], entryMatches refLib "sub.example.com" e) :=
  (isHostAllowed_reference_rule refLib ⟨"whitelist", ["example.com"], []⟩ "sub.example.com"
    (by decide) (by decide)).2.1 rfl

/-- Claim C3 as stated fails for the empty host: `isHostAllowed` allows it
before it looks at the policy type, also under an empty whitelist. -/
theorem isHostAllowed_empty_whitelist_counterexample :
    isHostAllowed refLib (some ⟨"whitelist", [], []⟩) "" = true ∧
    isHostAllowed refLib (some ⟨"whitelist", [], []⟩) (extractHost refLib ":443") = true :=
  ⟨rfl, rfl⟩

/-- Claim C3, amended: under a whitelist policy whose whitelist is empty,
`isHostAllowed` returns false for every non-empty host. -/
theorem isHostAllowed_empty_whitelist (L : Lib) (prefs : UserProxySettings) (host : String)
    (htype : prefs.ProxyType = "whitelist") (hlist : prefs.Whitelist = [])
    (hhost : host ≠ "") : isHostAllowed L (some prefs) host = false := by
  simp [isHostAllowed, hhost, htype, hlist, matchesList]

/-- Witness of C3 on the host `"example.com"`. -/
theorem isHostAllowed_empty_whitelist_witness :
    isHostAllowed refLib (some ⟨"whitelist", [], ["x"]⟩) "example.com" = false :=
  isHostAllowed_empty_whitelist refLib ⟨"whitelist", [], ["x"]⟩ "example.com" rfl rfl (by decide)

/-! ## Proxy authentication -/

/-- `cutAt` cuts at the first separator. -/
theorem cutAt_eq_some_iff (sep : Char) (l a b : List Char) :
    cutAt sep l = some (a, b) ↔ l = a ++ sep :: b ∧ sep ∉ a := by
  induction l generalizing a b with
  | nil => simp [cutAt]
  | cons c cs ih =>
    unfold cutAt
    by_cases hc : c = sep
    · subst hc
      rw [if_pos rfl]
      constructor
      · intro h
        simp only [Option.some.injEq, Prod.mk.injEq] at h
        obtain ⟨rfl, rfl⟩ := h
        simp
      · rintro ⟨h, hn⟩
        cases a with
        | nil => simp at h; simp [h]
        | cons x xs =>
          simp only [List.cons_append, List.cons.injEq] at h
          exact absurd (by simp [h.1]) hn
    · rw [if_neg hc]
      cases hrec : cutAt sep cs with
      | none =>
        simp only [reduceCtorEq, false_iff]
        rintro ⟨h, hn⟩
        cases a with
        | nil => simp at h; exact hc h.1
        | cons x xs =>
          simp only [List.cons_append, List.cons.injEq] at h
          have := (ih xs b).mpr ⟨h.2, fun hm => hn (List.mem_cons_of_mem _ hm)⟩
          rw [hrec] at this
          cases this
      | some p =>
        obtain ⟨a', b'⟩ := p
        have hab := (ih a' b').mp hrec
        simp only [Option.some.injEq, Prod.mk.injEq]
        constructor
        · rintro ⟨rfl, rfl⟩
          refine ⟨by simp [hab.1], ?_⟩
          simp only [List.mem_cons, not_or]
          exact ⟨fun h => hc h.symm, hab.2⟩
        · rintro ⟨h, hn⟩
          cases a with
          | nil => simp at h; exact absurd h.1 hc
          | cons x xs =>
            simp only [List.cons_append, List.cons.injEq] at h
            have := (ih xs b).mpr ⟨h.2, fun hm => hn (List.mem_cons_of_mem _ hm)⟩
            rw [hrec] at this
            simp only [Option.some.injEq, Prod.mk.injEq] at this
            exact ⟨by rw [h.1, this.1], this.2⟩

/-- `SplitN2` yields two pieces exactly on `u ++ sep ++ p` with no separator in `u`. -/
theorem SplitN2_eq_pair_iff (s u p : String) (sep : Char) :
    SplitN2 s sep = [u, p] ↔ s = u ++ String.singleton sep ++ p ∧ sep ∉ u.data := by
  unfold SplitN2
  cases h : cutAt sep s.data with
  | none =>
    simp only [List.cons.injEq, and_false, reduceCtorEq, false_iff]
    rintro ⟨hs, hn⟩
    have := (cutAt_eq_some_iff sep s.data u.data p.data).mpr ⟨by rw [hs]; simp [String.singleton], hn⟩
    rw [h] at this
    cases this
  | some ab =>
    obtain ⟨a, b⟩ := ab
    have hab := (cutAt_eq_some_iff sep s.data a b).mp h
    simp only [List.cons.injEq, and_true]
    constructor
    · rintro ⟨rfl, rfl⟩
      refine ⟨?_, hab.2⟩
      apply String.ext
      simp [String.singleton, hab.1]
    · rintro ⟨hs, hn⟩
      have := (cutAt_eq_some_iff sep s.data u.data p.data).mpr ⟨by rw [hs]; simp [String.singleton], hn⟩
      rw [h] at this
      simp only [Option.some.injEq, Prod.mk.injEq] at this
      exact ⟨String.ext this.1, String.ext this.2⟩

/-- A header `scheme rest` splits into its scheme and the rest. -/
theorem SplitN2_scheme (scheme rest : String) (h : ' ' ∉ scheme.data) :
    SplitN2 (scheme ++ " " ++ rest) ' ' = [scheme, rest] :=
  (SplitN2_eq_pair_iff _ _ _ _).mpr ⟨rfl, h⟩

/-- What `authenticateRequest` does with a header `Basic <payload>`. -/
theorem authenticateRequest_basic (L : Lib) (env : Env) (db : Database) (now : Int)
    (r : Request) (payload : String)
    (hdr : r.Header.Get "Proxy-Authorization" = "Basic" ++ " " ++ payload) :
    authenticateRequest L env db now r =
      match L.base64Decode payload with
      | none => .error "invalid base64 encoding"
      | some decoded =>
        match SplitN2 (L.stringOfBytes decoded) ':' with
        | [username, password] =>
          match db.GetUserByUsername L username with
          | .error _ => .error "user not found"
          | .ok user =>
            if !user.IsActive then .error "user is inactive"
            else if user.IsAdmin then .error "admin accounts cannot use proxy"
            else if !CheckPasswordHash L password user.PasswordHash then
              .error "invalid password"
            else .ok { UserID := user.ID, Username := user.Username, IsAdmin := user.IsAdmin,
                       TwoFactorVerified := false, ExpiresAt := none, IssuedAt := none }
        | _ => .error "invalid credentials format" := by
  have hne : ¬ ("Basic" ++ " " ++ payload = "") := by
    intro h
    have := congrArg String.length h
    simp [String.length_append] at this
    exact absurd this.1 (by decide)
  unfold authenticateRequest
  simp only [hdr, if_neg hne, SplitN2_scheme "Basic" payload (by decide), if_true]

/-- What `authenticateRequest` does with a header `Bearer <token>`. -/
theorem authenticateRequest_bearer (L : Lib) (env : Env) (db : Database) (now : Int)
    (r : Request) (token : String)
    (hdr : r.Header.Get "Proxy-Authorization" = "Bearer" ++ " " ++ token) :
    authenticateRequest L env db now r =
      match ValidateToken L env now token with
      | .error _ => .error "invalid token"
      | .ok claims =>
        if claims.IsAdmin then .error "admin accounts cannot use proxy" else .ok claims := by
  have hne : ¬ ("Bearer" ++ " " ++ token = "") := by
    intro h
    have := congrArg String.length h
    simp [String.length_append] at this
    exact absurd this.1 (by decide)
  have hb : ¬ ("Bearer" = "Basic") := by decide
  unfold authenticateRequest
  simp only [hdr, if_neg hne, SplitN2_scheme "Bearer" token (by decide), if_neg hb, if_true]

/-- Claim C1: whenever `authenticateRequest` succeeds, on the Basic or on the
Bearer path, the returned claims have `IsAdmin = false`; a Basic credential of
an admin user is rejected whatever the password, and a Bearer token that
validates with `is_admin` true is rejected. -/
theorem authenticateRequest_never_admin (L : Lib) (env : Env) (db : Database) (now : Int)
    (r : Request) :
    (∀ claims, authenticateRequest L env db now r = .ok claims → claims.IsAdmin = false) ∧
    (∀ payload decoded username password user,
      r.Header.Get "Proxy-Authorization" = "Basic" ++ " " ++ payload →
      L.base64Decode payload = some decoded →
      SplitN2 (L.stringOfBytes decoded) ':' = [username, password] →
      db.GetUserByUsername L username = .ok user → user.IsAdmin = true →
      ∃ e, authenticateRequest L env db now r = .error e) ∧
    (∀ token claims,
      r.Header.Get "Proxy-Authorization" = "Bearer" ++ " " ++ token →
      ValidateToken L env now token = .ok claims → claims.IsAdmin = true →
      authenticateRequest L env db now r = .error "admin accounts cannot use proxy") := by
  refine ⟨?_, ?_, ?_⟩
  · intro claims h
    unfold authenticateRequest at h
    dsimp only at h
    repeat' split at h
    all_goals (cases h <;> simp_all)
  · intro payload decoded username password user hdr hdec hsplit huser hadmin
    rw [authenticateRequest_basic L env db now r payload hdr]
    simp only [hdec, hsplit, huser, hadmin]
    cases user.IsActive <;> simp
  · intro token claims hdr hval hadmin
    rw [authenticateRequest_bearer L env db now r token hdr]
    simp only [hval, hadmin, if_true]

/-- Witness of C1: the proxy user `alice` is let in with `IsAdmin = false`; the
admin `root` is rejected with the right password and with a valid token. -/
theorem authenticateRequest_never_admin_witness :
    authenticateRequest refLib exampleEnv exampleDB 1751695800
      (exampleRequest "GET" [("Proxy-Authorization", ["Basic YWxpY2U6c2VjcmV0"])] none) =
        .ok ⟨2, "alice", false, false, none, none⟩ ∧
    (⟨2, "alice", false, false, none, none⟩ : Claims).IsAdmin = false ∧
    (∃ e, authenticateRequest refLib exampleEnv exampleDB 1751695800
      (exampleRequest "GET" [("Proxy-Authorization", ["Basic cm9vdDp0b29y"])] none) = .error e) ∧
    authenticateRequest refLib exampleEnv exampleDB 1751695800
      (exampleRequest "GET" [("Proxy-Authorization", ["Bearer session.root"])] none) =
        .error "admin accounts cannot use proxy" :=
  ⟨rfl,
   (authenticateRequest_never_admin refLib exampleEnv exampleDB 1751695800
      (exampleRequest "GET" [("Proxy-Authorization", ["Basic YWxpY2U6c2VjcmV0"])] none)).1 _ rfl,
   (authenticateRequest_never_admin refLib exampleEnv exampleDB 1751695800
      (exampleRequest "GET" [("Proxy-Authorization", ["Basic cm9vdDp0b29y"])] none)).2.1
      "cm9vdDp0b29y" [114, 111, 111, 116, 58, 116, 111, 111, 114] "root" "toor"
      (UserRow.toUser ⟨1, "root", "$2a$10$toor", "", "", true, true, "default", true,
        some "BwcHBwcHBwcHBwcHTUVUUF40Q1dCT1dMNFdfV2WnIh0IWGQcP9N+Wa2JxDE=", 0, 0⟩)
      rfl rfl rfl rfl rfl,
   (authenticateRequest_never_admin refLib exampleEnv exampleDB 1751695800
      (exampleRequest "GET" [("Proxy-Authorization", ["Bearer session.root"])] none)).2.2
      "session.root" ⟨1, "root", true, true, some 1751782200, some 1751695800⟩ rfl rfl rfl⟩

/-- Claim C4: on every request on which `authenticateRequest` fails,
`handleProxy` answers 407 with the header `Proxy-Authenticate: Basic
realm="Proxy Server"`, leaves the database as it was (no request-log row, no
traffic-counter upsert) and makes no outbound connection attempt. -/
theorem handleProxy_auth_failure (L : Lib) (env : Env) (net : Network) (db : Database)
    (now elapsedMs : Int) (r : Request) (e : String)
    (hfail : authenticateRequest L env db now r = .error e) :
    (∃ resp, (handleProxy L env net db now elapsedMs r).reply = .response resp ∧
      resp.Status = 407 ∧
      resp.Header.Get "Proxy-Authenticate" = "Basic realm=\"Proxy Server\"") ∧
    (handleProxy L env net db now elapsedMs r).db = db ∧
    (handleProxy L env net db now elapsedMs r).db.requestLogs = db.requestLogs ∧
    (handleProxy L env net db now elapsedMs r).db.trafficStats = db.trafficStats ∧
    (handleProxy L env net db now elapsedMs r).net = [] := by
  unfold handleProxy
  rw [hfail]
  exact ⟨⟨_, rfl, rfl, rfl⟩, rfl, rfl, rfl, rfl⟩

/-- Witness of C4: a request without `Proxy-Authorization`. -/
theorem handleProxy_auth_failure_witness :
    authenticateRequest refLib exampleEnv exampleDB 1751695800 (exampleRequest "GET" [] none) =
      .error "missing proxy authorization" ∧
    (∃ resp, (handleProxy refLib exampleEnv exampleNetwork exampleDB 1751695800 12
        (exampleRequest "GET" [] none)).reply = .response resp ∧
      resp.Status = 407 ∧
      resp.Header.Get "Proxy-Authenticate" = "Basic realm=\"Proxy Server\"") :=
  ⟨rfl, (handleProxy_auth_failure refLib exampleEnv exampleNetwork exampleDB 1751695800 12
    (exampleRequest "GET" [] none) "missing proxy authorization" rfl).1⟩

/-- The ways `authenticateRequest` fails, each with its message: a missing
header, a header without a space, a scheme other than Basic and
Bearer, a Basic payload that is no base64 or holds no colon, an unknown,
inactive or admin user, a wrong password, an invalid token. -/
theorem authenticateRequest_failures (L : Lib) (env : Env) (db : Database) (now : Int)
    (r : Request) :
    (r.Header.Get "Proxy-Authorization" = "" →
      authenticateRequest L env db now r = .error "missing proxy authorization") ∧
    (r.Header.Get "Proxy-Authorization" ≠ "" →
      ' ' ∉ (r.Header.Get "Proxy-Authorization").data →
      authenticateRequest L env db now r = .error "invalid authorization format") ∧
    (∀ scheme rest, r.Header.Get "Proxy-Authorization" = scheme ++ " " ++ rest →
      ' ' ∉ scheme.data → scheme ≠ "Basic" → scheme ≠ "Bearer" →
      authenticateRequest L env db now r = .error "unsupported authorization method") ∧
    (∀ payload, r.Header.Get "Proxy-Authorization" = "Basic" ++ " " ++ payload →
      (L.base64Decode payload = none →
        authenticateRequest L env db now r = .error "invalid base64 encoding") ∧
      (∀ decoded, L.base64Decode payload = some decoded →
        (':' ∉ (L.stringOfBytes decoded).data →
          authenticateRequest L env db now r = .error "invalid credentials format") ∧
        (∀ username password, SplitN2 (L.stringOfBytes decoded) ':' = [username, password] →
          (∀ err, db.GetUserByUsername L username = .error err →
            authenticateRequest L env db now r = .error "user not found") ∧
          (∀ user, db.GetUserByUsername L username = .ok user →
            (user.IsActive = false →
              authenticateRequest L env db now r = .error "user is inactive") ∧
            (user.IsActive = true → user.IsAdmin = true →
              authenticateRequest L env db now r = .error "admin accounts cannot use proxy") ∧
            (user.IsActive = true → user.IsAdmin = false →
              CheckPasswordHash L password user.PasswordHash = false →
              authenticateRequest L env db now r = .error "invalid password"))))) ∧
    (∀ token err, r.Header.Get "Proxy-Authorization" = "Bearer" ++ " " ++ token →
      ValidateToken L env now token = .error err →
      authenticateRequest L env db now r = .error "invalid token") := by
  refine ⟨?_, ?_, ?_, ?_, ?_⟩
  · intro h
    unfold authenticateRequest
    simp [h]
  · intro hne hsp
    have hcut : cutAt ' ' (r.Header.Get "Proxy-Authorization").data = none := by
      cases hc : cutAt ' ' (r.Header.Get "Proxy-Authorization").data with
      | none => rfl
      | some ab =>
        obtain ⟨a, b⟩ := ab
        have := (cutAt_eq_some_iff _ _ _ _).mp hc
        exact absurd (by rw [this.1]; simp) hsp
    unfold authenticateRequest
    simp [hne, SplitN2, hcut]
  · intro scheme rest hdr hsp h1 h2
    have hne : ¬ (scheme ++ " " ++ rest = "") := by
      intro h
      have := congrArg String.length h
      simp [String.length_append] at this
      exact absurd this.1.2 (by decide)
    unfold authenticateRequest
    simp only [hdr, if_neg hne, SplitN2_scheme scheme rest hsp, if_neg h1, if_neg h2]
  · intro payload hdr
    rw [authenticateRequest_basic L env db now r payload hdr]
    refine ⟨fun h => by simp [h], fun decoded hdec => ⟨?_, ?_⟩⟩
    · intro hcolon
      have hcut : cutAt ':' (L.stringOfBytes decoded).data = none := by
        cases hc : cutAt ':' (L.stringOfBytes decoded).data with
        | none => rfl
        | some ab =>
          obtain ⟨a, b⟩ := ab
          have := (cutAt_eq_some_iff _ _ _ _).mp hc
          exact absurd (by rw [this.1]; simp) hcolon
      simp [hdec, SplitN2, hcut]
    · intro username password hsplit
      refine ⟨fun err h => by simp [hdec, hsplit, h], fun user h => ⟨?_, ?_, ?_⟩⟩
      · intro ha
        simp [hdec, hsplit, h, ha]
      · intro ha hadm
        simp [hdec, hsplit, h, ha, hadm]
      · intro ha hadm hpw
        simp [hdec, hsplit, h, ha, hadm, hpw]
  · intro token err hdr hval
    rw [authenticateRequest_bearer L env db now r token hdr]
    simp [hval]

/-- Claim C5: with a header of scheme `Basic`, `authenticateRequest` succeeds
iff the payload decodes as standard base64 to a string `user:password` (cut at
the first colon), the lookup of that username finds a user, the user is active
and no admin, and `CheckPasswordHash` accepts the password against the stored
hash; the claims returned carry the ID and the username of that user. -/
theorem authenticateRequest_basic_iff (L : Lib) (env : Env) (db : Database) (now : Int)
    (r : Request) (payload : String) (claims : Claims)
    (hdr : r.Header.Get "Proxy-Authorization" = "Basic" ++ " " ++ payload) :
    authenticateRequest L env db now r = .ok claims ↔
      ∃ decoded username password user,
        L.base64Decode payload = some decoded ∧
        L.stringOfBytes decoded = username ++ ":" ++ password ∧ ':' ∉ username.data ∧
        db.GetUserByUsername L username = .ok user ∧
        user.IsActive = true ∧ user.IsAdmin = false ∧
        CheckPasswordHash L password user.PasswordHash = true ∧
        claims = { UserID := user.ID, Username := user.Username, IsAdmin := false,
                   TwoFactorVerified := false, ExpiresAt := none, IssuedAt := none } := by
  rw [authenticateRequest_basic L env db now r payload hdr]
  constructor
  · intro h
    split at h
    · cases h
    · rename_i decoded hdec
      split at h
      · rename_i username password hsplit
        split at h
        · cases h
        · rename_i user huser
          split_ifs at h with h1 h2 h3
          cases h
          refine ⟨decoded, username, password, user, hdec, ?_, ?_, huser, ?_, ?_, ?_, ?_⟩
          · exact ((SplitN2_eq_pair_iff _ _ _ _).mp hsplit).1
          · exact ((SplitN2_eq_pair_iff _ _ _ _).mp hsplit).2
          · simpa using h1
          · simpa using h2
          · simpa using h3
          · simp at h2
            simp [h2]
      · cases h
  · rintro ⟨decoded, username, password, user, hdec, hstr, hcolon, huser, hact, hadm, hpw, rfl⟩
    have hsplit : SplitN2 (L.stringOfBytes decoded) ':' = [username, password] :=
      (SplitN2_eq_pair_iff _ _ _ _).mpr ⟨hstr, hcolon⟩
    simp [hdec, hsplit, huser, hact, hadm, hpw]

/-- Witness of C5: `alice:secret` in base64. -/
theorem authenticateRequest_basic_iff_witness :
    authenticateRequest refLib exampleEnv exampleDB 1751695800
      (exampleRequest "GET" [("Proxy-Authorization", ["Basic YWxpY2U6c2VjcmV0"])] none) =
        .ok ⟨2, "alice", false, false, none, none⟩ ∧
    ∃ decoded username password user,
      refLib.base64Decode "YWxpY2U6c2VjcmV0" = some decoded ∧
      refLib.stringOfBytes decoded = username ++ ":" ++ password ∧ ':' ∉ username.data ∧
      exampleDB.GetUserByUsername refLib username = .ok user ∧
      user.IsActive = true ∧ user.IsAdmin = false ∧
      CheckPasswordHash refLib password user.PasswordHash = true ∧
      (⟨2, "alice", false, false, none, none⟩ : Claims) =
        { UserID := user.ID, Username := user.Username, IsAdmin := false,
          TwoFactorVerified := false, ExpiresAt := none, IssuedAt := none } :=
  ⟨rfl, (authenticateRequest_basic_iff refLib exampleEnv exampleDB 1751695800
    (exampleRequest "GET" [("Proxy-Authorization", ["Basic YWxpY2U6c2VjcmV0"])] none)
    "YWxpY2U6c2VjcmV0" ⟨2, "alice", false, false, none, none⟩ rfl).mp rfl⟩

/-! ## Rate limit of the two-factor handlers -/

/-- A count query that does not fail returns the number of recent rows. -/
theorem CountRecentTwoFAAttempts_eq (db : Database) (now userID : Int) (ip : String)
    (hok : db.fails .countTwoFALogs = false) :
    db.CountRecentTwoFAAttempts now userID ip twoFARateLimitWindow =
      .ok (recentAttempts db now userID ip : Int) := by
  unfold Database.CountRecentTwoFAAttempts recentAttempts twoFARateLimitWindow
  simp only [hok, Bool.false_eq_true, if_false]
  congr 3
  apply List.filter_congr
  intro row _
  simp only [ge_iff_le, Bool.decide_and, Bool.and_assoc]
  norm_num

/-- With the count query succeeding and five recent rows the limit is hit. -/
theorem isRateLimited_eq_true (db : Database) (now userID : Int) (ip : String)
    (hok : db.fails .countTwoFALogs = false) (hcount : 5 ≤ recentAttempts db now userID ip) :
    isRateLimited db now userID ip = true := by
  unfold isRateLimited
  rw [CountRecentTwoFAAttempts_eq db now userID ip hok]
  simp only [twoFARateLimitAttempts, ge_iff_le, decide_eq_true_eq]
  exact_mod_cast hcount

/-- Logging an attempt touches neither the users nor the backup codes. -/
theorem logTwoFAAttempt_frame (db : Database) (now userID : Int) (ip event method : String)
    (success : Bool) (message : String) :
    (logTwoFAAttempt db now userID ip event method success message).users = db.users ∧
    (logTwoFAAttempt db now userID ip event method success message).backupCodes =
      db.backupCodes := by
  unfold logTwoFAAttempt Database.LogTwoFAAttempt
  split <;> exact ⟨rfl, rfl⟩

/-! ## Header lookup and the challenge token -/

/-- Canonical forms of header names: the literal `X-2FA-Token` of
`extractToken` is looked up as `X-2fa-Token`, the name under which `net/http`
stores that header; the other literals of the handlers are in canonical form
already; a name in another letter case is folded; a name with a space is left
as it is. -/
theorem CanonicalMIMEHeaderKey_names :
    CanonicalMIMEHeaderKey "X-2FA-Token" = "X-2fa-Token" ∧
    CanonicalMIMEHeaderKey "Authorization" = "Authorization" ∧
    CanonicalMIMEHeaderKey "Proxy-Authorization" = "Proxy-Authorization" ∧
    CanonicalMIMEHeaderKey "X-Forwarded-For" = "X-Forwarded-For" ∧
    CanonicalMIMEHeaderKey "proxy-AUTHORIZATION" = "Proxy-Authorization" ∧
    CanonicalMIMEHeaderKey "X 2FA" = "X 2FA" := by
  decide

/-- The token `extractToken` finds: the bearer of the `Authorization` header
when there is one; else the value of the header `X-2FA-Token` when it is not
empty; else the trimmed token of the body. -/
theorem extractToken_sources (L : Lib) (r : Request) (fallback : String) :
    (∀ scheme rest, r.Header.Get "Authorization" = scheme ++ " " ++ rest →
      ' ' ∉ scheme.data → L.EqualFold scheme "Bearer" = true →
      extractToken L r fallback = rest) ∧
    (r.Header.Get "Authorization" = "" → r.Header.Get "X-2FA-Token" ≠ "" →
      extractToken L r fallback = r.Header.Get "X-2FA-Token") ∧
    (r.Header.Get "Authorization" = "" → r.Header.Get "X-2FA-Token" = "" →
      extractToken L r fallback = TrimSpace fallback) := by
  refine ⟨?_, ?_, ?_⟩
  · intro scheme rest hdr hsp hfold
    have hne : r.Header.Get "Authorization" ≠ "" := by
      rw [hdr]
      intro h
      have := congrArg String.length h
      simp [String.length_append] at this
      exact absurd this.1.2 (by decide)
    unfold extractToken
    simp only [ne_eq, hne, not_false_eq_true, if_true]
    rw [hdr, SplitN2_scheme scheme rest hsp]
    simp only [hfold, if_true]
  · intro hauth htok
    unfold extractToken
    simp only [hauth, ne_eq, not_true_eq_false, if_false, htok, not_false_eq_true, if_true]
  · intro hauth htok
    unfold extractToken
    simp only [hauth, ne_eq, not_true_eq_false, if_false, htok]

/-- A challenge that carries the temp token of `root` in the header
`X-2FA-Token` and the full session token in the body: `extractToken` returns
the token of the header. -/
theorem extractToken_header_example :
    (exampleHeaderChallenge "temp.root" "session.root" "113636").Header.Get "X-2FA-Token" =
      "temp.root" ∧
    extractToken refLib (exampleHeaderChallenge "temp.root" "session.root" "113636")
      "session.root" = "temp.root" ∧
    extractToken refLib (exampleRequest "POST" [] none) " session.root " = "session.root" := by
  decide

/-- The outcome of a rate-limited login challenge. -/
theorem VerifyTwoFA_limited (L : Lib) (env : Env) (db : Database) (now : Int) (r : Request)
    (req : TwoFAVerifyRequest) (claims : Claims) (user : User) (ip : String)
    (hbody : r.Body = some req) (htok : extractToken L r req.TempToken ≠ "")
    (hval : ValidateToken L env now (extractToken L r req.TempToken) = .ok claims)
    (htfv : claims.TwoFactorVerified = false) (huser : db.GetUserByID claims.UserID = .ok user)
    (hact : user.IsActive = true) (hip : getRequestIP L r = ip)
    (hlim : isRateLimited db now user.ID ip = true) :
    VerifyTwoFA L env db now r =
      { resp := respondWithError 429 "Too many attempts. Try again later."
        db := logTwoFAAttempt db now user.ID ip "login" "totp" false "Rate limit exceeded" } := by
  unfold VerifyTwoFA
  simp only [hbody, if_neg htok, hval, htfv, huser, hact, hip, hlim, Bool.false_eq_true,
    if_false, if_true, Bool.not_true]

/-- The outcome of a rate-limited verify-setup. -/
theorem VerifySetupTwoFA_limited (L : Lib) (env : Env) (draw : Nat → Except String Bytes)
    (salt : Nat → Bytes) (db : Database) (now : Int) (r : Request)
    (req : TwoFAVerifyRequest) (user : User) (ip : String)
    (hctx : r.ContextUser = some user) (hbody : r.Body = some req)
    (hcode : TrimSpace req.Code ≠ "") (hip : getRequestIP L r = ip)
    (hlim : isRateLimited db now user.ID ip = true) :
    VerifySetupTwoFA L env draw salt db now r =
      { resp := respondWithError 429 "Too many attempts. Try again later."
        db := logTwoFAAttempt db now user.ID ip "setup_verify" "totp" false
          "Rate limit exceeded" } := by
  unfold VerifySetupTwoFA
  simp only [hctx, hbody, if_neg hcode, hip, hlim, if_true]

/-- The outcome of a rate-limited disable. -/
theorem DisableTwoFA_limited (L : Lib) (env : Env) (db : Database) (now : Int) (r : Request)
    (req : TwoFAVerifyRequest) (user : User) (ip : String)
    (hctx : r.ContextUser = some user) (hbody : r.Body = some req)
    (hcode : TrimSpace req.Code ≠ "" ∨ TrimSpace req.BackupCode ≠ "")
    (hip : getRequestIP L r = ip) (hlim : isRateLimited db now user.ID ip = true) :
    DisableTwoFA L env db now r =
      { resp := respondWithError 429 "Too many attempts. Try again later."
        db := logTwoFAAttempt db now user.ID ip "disable" "totp" false "Rate limit exceeded" } := by
  have hpre : (decide (TrimSpace req.Code = "") && decide (TrimSpace req.BackupCode = "")) =
      false := by
    rcases hcode with h | h <;> simp [h]
  unfold DisableTwoFA
  simp only [hctx, hbody, hpre, Bool.false_eq_true, if_false, hip, hlim, if_true]

/-- The outcome of a rate-limited regeneration. -/
theorem RegenerateBackupCodes_limited (L : Lib) (env : Env) (draw : Nat → Except String Bytes)
    (salt : Nat → Bytes) (db : Database) (now : Int) (r : Request) (user : User) (ip : String)
    (hctx : r.ContextUser = some user)
    (hcode : TrimSpace (queryGet r.Query "code") ≠ "" ∨
      TrimSpace (queryGet r.Query "backup_code") ≠ "")
    (hip : getRequestIP L r = ip) (hlim : isRateLimited db now user.ID ip = true) :
    RegenerateBackupCodes L env draw salt db now r =
      { resp := respondWithError 429 "Too many attempts. Try again later."
        db := logTwoFAAttempt db now user.ID ip "backup_regen" "totp" false
          "Rate limit exceeded" } := by
  have hpre : (decide (TrimSpace (queryGet r.Query "code") = "") &&
      decide (TrimSpace (queryGet r.Query "backup_code") = "")) = false := by
    rcases hcode with h | h <;> simp [h]
  unfold RegenerateBackupCodes
  simp only [hctx, hpre, Bool.false_eq_true, if_false, hip, hlim, if_true]

/-- The rate-limited outcome meets `RateLimited`. -/
theorem RateLimited_of_eq (db : Database) (res : HandlerResult) (userID now : Int)
    (ip event : String)
    (h : res = { resp := respondWithError 429 "Too many attempts. Try again later."
                 db := logTwoFAAttempt db now userID ip event "totp" false
                   "Rate limit exceeded" }) :
    RateLimited db res := by
  subst h
  exact ⟨rfl, (logTwoFAAttempt_frame _ _ _ _ _ _ _ _).1, (logTwoFAAttempt_frame _ _ _ _ _ _ _ _).2⟩

/-- Claim C6, amended: whenever the windowed count query succeeds and the
attempt log holds at least 5 rows for `(userID, ip)` within the trailing 5
minutes, a request that has reached the rate-limit check of `VerifyTwoFA`,
`VerifySetupTwoFA`, `DisableTwoFA` or `RegenerateBackupCodes` is answered with
429 before the submitted code is looked at: the body is the rate-limit error
(no token), the `users` table and the backup codes are unchanged, and the
outcome is the same whatever codes are submitted. -/
theorem rateLimited_before_validation (L : Lib) (env : Env) (draw : Nat → Except String Bytes)
    (salt : Nat → Bytes) (db : Database) (now : Int) (r : Request)
    (hok : db.fails .countTwoFALogs = false) :
    (∀ req claims user, r.Body = some req → extractToken L r req.TempToken ≠ "" →
      ValidateToken L env now (extractToken L r req.TempToken) = .ok claims →
      claims.TwoFactorVerified = false → db.GetUserByID claims.UserID = .ok user →
      user.IsActive = true → 5 ≤ recentAttempts db now user.ID (getRequestIP L r) →
      RateLimited db (VerifyTwoFA L env db now r) ∧
      ∀ code backup, VerifyTwoFA L env db now (r.withCodes code backup) =
        VerifyTwoFA L env db now r) ∧
    (∀ user, r.ContextUser = some user →
      5 ≤ recentAttempts db now user.ID (getRequestIP L r) →
      (∀ req, r.Body = some req → TrimSpace req.Code ≠ "" →
        RateLimited db (VerifySetupTwoFA L env draw salt db now r) ∧
        ∀ code backup, TrimSpace code ≠ "" →
          VerifySetupTwoFA L env draw salt db now (r.withCodes code backup) =
            VerifySetupTwoFA L env draw salt db now r) ∧
      (∀ req, r.Body = some req → TrimSpace req.Code ≠ "" ∨ TrimSpace req.BackupCode ≠ "" →
        RateLimited db (DisableTwoFA L env db now r) ∧
        ∀ code backup, TrimSpace code ≠ "" ∨ TrimSpace backup ≠ "" →
          DisableTwoFA L env db now (r.withCodes code backup) = DisableTwoFA L env db now r) ∧
      (TrimSpace (queryGet r.Query "code") ≠ "" ∨
          TrimSpace (queryGet r.Query "backup_code") ≠ "" →
        RateLimited db (RegenerateBackupCodes L env draw salt db now r) ∧
        ∀ code backup, TrimSpace code ≠ "" ∨ TrimSpace backup ≠ "" →
          RegenerateBackupCodes L env draw salt db now (r.withCodes code backup) =
            RegenerateBackupCodes L env draw salt db now r)) := by
  refine ⟨?_, ?_⟩
  · intro req claims user hbody htok hval htfv huser hact hcount
    have hlim := isRateLimited_eq_true db now user.ID (getRequestIP L r) hok hcount
    have hres := VerifyTwoFA_limited L env db now r req claims user _ hbody htok hval htfv
      huser hact rfl hlim
    refine ⟨RateLimited_of_eq _ _ _ _ _ _ hres, fun code backup => ?_⟩
    rw [hres]
    exact VerifyTwoFA_limited L env db now (r.withCodes code backup)
      { req with Code := code, BackupCode := backup } claims user _
      (by simp [Request.withCodes, hbody]) htok hval htfv huser hact rfl hlim
  · intro user hctx hcount
    have hlim := isRateLimited_eq_true db now user.ID (getRequestIP L r) hok hcount
    refine ⟨?_, ?_, ?_⟩
    · intro req hbody hcode
      have hres := VerifySetupTwoFA_limited L env draw salt db now r req user _ hctx hbody hcode
        rfl hlim
      refine ⟨RateLimited_of_eq _ _ _ _ _ _ hres, fun code backup hc => ?_⟩
      rw [hres]
      exact VerifySetupTwoFA_limited L env draw salt db now (r.withCodes code backup)
        { req with Code := code, BackupCode := backup } user _ hctx
        (by simp [Request.withCodes, hbody]) hc rfl hlim
    · intro req hbody hcode
      have hres := DisableTwoFA_limited L env db now r req user _ hctx hbody hcode rfl hlim
      refine ⟨RateLimited_of_eq _ _ _ _ _ _ hres, fun code backup hc => ?_⟩
      rw [hres]
      exact DisableTwoFA_limited L env db now (r.withCodes code backup)
        { req with Code := code, BackupCode := backup } user _ hctx
        (by simp [Request.withCodes, hbody]) hc rfl hlim
    · intro hcode
      have hres := RegenerateBackupCodes_limited L env draw salt db now r user _ hctx hcode
        rfl hlim
      refine ⟨RateLimited_of_eq _ _ _ _ _ _ hres, fun code backup hc => ?_⟩
      rw [hres]
      exact RegenerateBackupCodes_limited L env draw salt db now (r.withCodes code backup)
        user _ hctx (by simpa [Request.withCodes, queryGet] using hc) rfl hlim

set_option maxRecDepth 100000 in
/-- Witness of C6: the example log holds five recent rows for `root` at
`10.0.0.9`; the challenge is answered 429 although the submitted code is the
TOTP code of the moment, with the temp token as bearer and with the temp token
in the header `X-2FA-Token` (the body then holding another token). -/
theorem rateLimited_before_validation_witness :
    exampleDB.fails .countTwoFALogs = false ∧
    5 ≤ recentAttempts exampleDB 1751695800 1 "10.0.0.9" ∧
    ValidateTOTP refLib "JBSWY3DPEHPK3PXP" "619585" 1751695800 = true ∧
    RateLimited exampleDB
      (VerifyTwoFA refLib exampleEnv exampleDB 1751695800 (exampleChallenge "619585" "")) ∧
    RateLimited exampleDB
      (VerifyTwoFA refLib exampleEnv exampleDB 1751695800
        (exampleHeaderChallenge "temp.root" "session.root" "619585")) :=
  ⟨rfl, by decide, by decide!,
   ((rateLimited_before_validation refLib exampleEnv (fun _ => .ok []) (fun _ => []) exampleDB
      1751695800 (exampleChallenge "619585" "") rfl).1
      { Code := "619585", BackupCode := "", TempToken := "" }
      ⟨1, "root", true, false, some 1751696100, some 1751695800⟩
      (UserRow.toUser ⟨1, "root", "$2a$10$toor", "", "", true, true, "default", true,
        some "BwcHBwcHBwcHBwcHTUVUUF40Q1dCT1dMNFdfV2WnIh0IWGQcP9N+Wa2JxDE=", 0, 0⟩)
      rfl (by decide) rfl rfl rfl rfl (by decide)).1,
   ((rateLimited_before_validation refLib exampleEnv (fun _ => .ok []) (fun _ => []) exampleDB
      1751695800 (exampleHeaderChallenge "temp.root" "session.root" "619585") rfl).1
      { Code := "619585", BackupCode := "", TempToken := "session.root" }
      ⟨1, "root", true, false, some 1751696100, some 1751695800⟩
      (UserRow.toUser ⟨1, "root", "$2a$10$toor", "", "", true, true, "default", true,
        some "BwcHBwcHBwcHBwcHTUVUUF40Q1dCT1dMNFdfV2WnIh0IWGQcP9N+Wa2JxDE=", 0, 0⟩)
      rfl (by decide) (by decide) rfl rfl rfl (by decide)).1⟩

set_option maxRecDepth 100000 in
/-- Claim C6 as stated fails in two ways.  When the count query fails,
`isRateLimited` answers false: the attempt log holds five rows of the last
five minutes for `root` at `10.0.0.9`, the count query fails, and the
challenge with the right TOTP code is answered 200 with a session token.  And
a request that does not reach the rate-limit check is answered by the check it
fails: with the same five rows and the count query working, a verify-setup
with a blank code is answered 400. -/
theorem VerifyTwoFA_count_failure_counterexample :
    5 ≤ recentAttempts exampleDBCountDown 1751695800 1 "10.0.0.9" ∧
    getRequestIP refLib (exampleChallenge "619585" "") = "10.0.0.9" ∧
    isRateLimited exampleDBCountDown 1751695800 1 "10.0.0.9" = false ∧
    (VerifyTwoFA refLib exampleEnv exampleDBCountDown 1751695800
      (exampleChallenge "619585" "")).resp =
      respondWithJSON 200 (.twoFAVerify "signed.full.root.s3cret"
        (some (UserRow.toUser ⟨1, "root", "$2a$10$toor", "", "", true, true, "default", true,
          some "BwcHBwcHBwcHBwcHTUVUUF40Q1dCT1dMNFdfV2WnIh0IWGQcP9N+Wa2JxDE=", 0, 0⟩))
        "Two-factor verification successful" []) ∧
    5 ≤ recentAttempts exampleDB 1751695800 1 "10.0.0.9" ∧
    isRateLimited exampleDB 1751695800 1 "10.0.0.9" = true ∧
    getRequestIP refLib { exampleSetupVerify " " with Header := [] } = "10.0.0.9" ∧
    (VerifySetupTwoFA refLib exampleEnv (fun _ => .ok []) (fun _ => []) exampleDB 1751695800
      { exampleSetupVerify " " with Header := [] }).resp =
      respondWithError 400 "Verification code is required" := by
  refine ⟨by decide, by decide!, by decide!, by decide!, by decide, by decide!, by decide!,
    by decide!⟩

/-! ## Backup codes -/

/-- The codes read for a user are the rows of that user. -/
theorem mem_GetBackupCodes (d : Database) (userID : Int) (codes : List TwoFABackupCode)
    (h : d.GetBackupCodes userID = .ok codes) (e : TwoFABackupCode) :
    e ∈ codes ↔ ∃ row ∈ d.backupCodes, row.user_id = userID ∧ row.toCode = e := by
  unfold Database.GetBackupCodes at h
  split_ifs at h
  cases h
  simp only [List.mem_map]
  constructor
  · rintro ⟨row, hrow, rfl⟩
    have := (List.perm_insertionSort _ _).mem_iff.mp hrow
    simp only [List.mem_filter, decide_eq_true_eq] at this
    exact ⟨row, this.1, this.2, rfl⟩
  · rintro ⟨row, hrow, huid, rfl⟩
    refine ⟨row, (List.perm_insertionSort _ _).mem_iff.mpr ?_, rfl⟩
    simp only [List.mem_filter, decide_eq_true_eq]
    exact ⟨hrow, huid⟩

/-- With every matching code used the loop consumes nothing. -/
theorem consumeLoop_false (L : Lib) (d : Database) (now : Int) (c : String)
    (codes : List TwoFABackupCode)
    (h : ∀ e ∈ codes, L.bcryptCompare e.CodeHash c = true → e.Used = true) :
    consumeLoop L d now c codes = (.ok false, d) := by
  induction codes with
  | nil => rfl
  | cons e rest ih =>
    unfold consumeLoop
    by_cases hu : e.Used = true
    · rw [if_pos hu]
      exact ih (fun e' he' => h e' (List.mem_cons_of_mem _ he'))
    · rw [if_neg hu]
      have hc : ¬ L.bcryptCompare e.CodeHash c = true := fun hc =>
        hu (h e (List.mem_cons_self _ _) hc)
      rw [if_neg hc]
      exact ih (fun e' he' => h e' (List.mem_cons_of_mem _ he'))

/-- With an unused matching code, all of them of one id, the loop marks that id. -/
theorem consumeLoop_true (L : Lib) (d : Database) (now : Int) (c : String) (id : Int)
    (codes : List TwoFABackupCode) (hok : d.fails .updateBackupCodeUsed = false)
    (hid : ∀ e ∈ codes, e.Used = false → L.bcryptCompare e.CodeHash c = true → e.ID = id)
    (hex : ∃ e ∈ codes, e.Used = false ∧ L.bcryptCompare e.CodeHash c = true) :
    consumeLoop L d now c codes =
      (.ok true, { d with backupCodes := d.backupCodes.map (fun r =>
        if r.id = id then { r with used := true, used_at := some now } else r) }) := by
  induction codes with
  | nil =>
    obtain ⟨e, he, _⟩ := hex
    cases he
  | cons e rest ih =>
    unfold consumeLoop
    by_cases hu : e.Used = true
    · rw [if_pos hu]
      refine ih (fun e' he' => hid e' (List.mem_cons_of_mem _ he')) ?_
      obtain ⟨e', he', hu', hc'⟩ := hex
      rcases List.mem_cons.mp he' with rfl | hr
      · rw [hu] at hu'
        cases hu'
      · exact ⟨e', hr, hu', hc'⟩
    · rw [if_neg hu]
      have hu' : e.Used = false := by simpa using hu
      by_cases hc : L.bcryptCompare e.CodeHash c = true
      · rw [if_pos hc]
        simp only [hok, Bool.false_eq_true, if_false]
        rw [hid e (List.mem_cons_self _ _) hu' hc]
      · rw [if_neg hc]
        refine ih (fun e' he' => hid e' (List.mem_cons_of_mem _ he')) ?_
        obtain ⟨e', he', hu'', hc'⟩ := hex
        rcases List.mem_cons.mp he' with rfl | hr
        · exact absurd hc' hc
        · exact ⟨e', hr, hu'', hc'⟩

/-- A spent candidate is refused and the database stays as it is. -/
theorem ConsumeBackupCode_spent (L : Lib) (d : Database) (now userID : Int) (c : String)
    (hsel : d.fails .selectBackupCodes = false) (h : Spent L d userID c) :
    d.ConsumeBackupCode L now userID c = (.ok false, d) := by
  unfold Database.ConsumeBackupCode
  cases hg : d.GetBackupCodes userID with
  | error e =>
    unfold Database.GetBackupCodes at hg
    simp [hsel] at hg
  | ok codes =>
    simp only []
    apply consumeLoop_false
    intro e he hc
    obtain ⟨row, hrow, huid, rfl⟩ := (mem_GetBackupCodes d userID codes hg e).mp he
    exact h row hrow huid hc

/-- The loop leaves the database as it is or marks the rows of one id. -/
theorem consumeLoop_shape (L : Lib) (d : Database) (now : Int) (c : String)
    (codes : List TwoFABackupCode) :
    (consumeLoop L d now c codes).2 = d ∨
    ∃ id, (consumeLoop L d now c codes).2 =
      { d with backupCodes := d.backupCodes.map (fun r =>
        if r.id = id then { r with used := true, used_at := some now } else r) } := by
  induction codes with
  | nil => exact Or.inl rfl
  | cons e rest ih =>
    unfold consumeLoop
    split_ifs
    · exact ih
    · exact Or.inl rfl
    · exact Or.inr ⟨e.ID, rfl⟩
    · exact ih

/-- `ConsumeBackupCode` leaves the database as it is or marks the rows of one id. -/
theorem ConsumeBackupCode_shape (L : Lib) (d : Database) (now userID : Int) (c : String) :
    (d.ConsumeBackupCode L now userID c).2 = d ∨
    ∃ id, (d.ConsumeBackupCode L now userID c).2 =
      { d with backupCodes := d.backupCodes.map (fun r =>
        if r.id = id then { r with used := true, used_at := some now } else r) } := by
  unfold Database.ConsumeBackupCode
  cases d.GetBackupCodes userID with
  | error e => exact Or.inl rfl
  | ok codes => exact consumeLoop_shape L d now c codes

/-- Marking rows keeps a candidate spent. -/
theorem Spent_mark (L : Lib) (d : Database) (now id userID : Int) (c : String)
    (h : Spent L d userID c) :
    Spent L { d with backupCodes := d.backupCodes.map (fun r =>
      if r.id = id then { r with used := true, used_at := some now } else r) } userID c := by
  intro row hrow huid hc
  simp only [List.mem_map] at hrow
  obtain ⟨row0, hrow0, rfl⟩ := hrow
  by_cases hid : row0.id = id
  · simp [hid]
  · simp only [hid, if_false] at huid hc ⊢
    exact h row0 hrow0 huid hc

/-- A run of consume calls keeps a candidate spent and the failing statements the same. -/
theorem consumeAll_spent (L : Lib) (calls : List (Int × Int × String)) (d : Database)
    (userID : Int) (c : String) (h : Spent L d userID c) :
    Spent L (consumeAll L calls d) userID c ∧ (consumeAll L calls d).fails = d.fails := by
  induction calls generalizing d with
  | nil => exact ⟨h, rfl⟩
  | cons call rest ih =>
    obtain ⟨now, uid, cand⟩ := call
    unfold consumeAll
    rcases ConsumeBackupCode_shape L d now uid cand with heq | ⟨id, heq⟩
    · rw [heq]
      exact ih d h
    · rw [heq]
      exact ih _ (Spent_mark L d now id userID c h)

/-- The first use of a candidate that matches one unused row of the user. -/
theorem ConsumeBackupCode_first (L : Lib) (d : Database) (now userID : Int) (c : String)
    (row : BackupCodeRow) (hsel : d.fails .selectBackupCodes = false)
    (hupd : d.fails .updateBackupCodeUsed = false) (hrow : row ∈ d.backupCodes)
    (huid : row.user_id = userID) (hunused : row.used = false)
    (hmatch : L.bcryptCompare row.code_hash c = true)
    (huniq : ∀ row' ∈ d.backupCodes, row'.user_id = userID →
      L.bcryptCompare row'.code_hash c = true → row'.id = row.id) :
    d.ConsumeBackupCode L now userID c =
      (.ok true, { d with backupCodes := d.backupCodes.map (fun r =>
        if r.id = row.id then { r with used := true, used_at := some now } else r) }) := by
  unfold Database.ConsumeBackupCode
  cases hg : d.GetBackupCodes userID with
  | error e =>
    unfold Database.GetBackupCodes at hg
    simp [hsel] at hg
  | ok codes =>
    simp only []
    apply consumeLoop_true L d now c row.id codes hupd
    · intro e he _ hc
      obtain ⟨row', hrow', huid', rfl⟩ := (mem_GetBackupCodes d userID codes hg e).mp he
      exact huniq row' hrow' huid' hc
    · exact ⟨row.toCode, (mem_GetBackupCodes d userID codes hg _).mpr ⟨row, hrow, huid, rfl⟩,
        hunused, hmatch⟩

/-- After the rows of the matching id are marked the candidate is spent. -/
theorem Spent_after_first (L : Lib) (d : Database) (now userID : Int) (c : String) (id : Int)
    (huniq : ∀ row' ∈ d.backupCodes, row'.user_id = userID →
      L.bcryptCompare row'.code_hash c = true → row'.id = id) :
    Spent L { d with backupCodes := d.backupCodes.map (fun r =>
      if r.id = id then { r with used := true, used_at := some now } else r) } userID c := by
  intro row hrow huid hc
  simp only [List.mem_map] at hrow
  obtain ⟨row0, hrow0, rfl⟩ := hrow
  by_cases hid : row0.id = id
  · simp [hid]
  · simp only [hid, if_false] at huid hc
    exact absurd (huniq row0 hrow0 huid hc) hid

/-- The rows inserted by a replacement: one per hash, ids in sequence. -/
theorem mem_newBackupCodeRows (now userID : Int) (hashes : List String) (id : Int)
    (row : BackupCodeRow) :
    row ∈ newBackupCodeRows now userID id hashes ↔
      ∃ (k : Nat) (hash : String), hashes[k]? = some hash ∧
        row = { id := id + (k : Int), user_id := userID, code_hash := hash, used := false,
                created_at := now, used_at := none } := by
  induction hashes generalizing id with
  | nil => simp [newBackupCodeRows]
  | cons h rest ih =>
    simp only [newBackupCodeRows, List.mem_cons, ih]
    constructor
    · rintro (rfl | ⟨k, hash, hk, rfl⟩)
      · exact ⟨0, h, by simp, by simp⟩
      · refine ⟨k + 1, hash, by simpa using hk, ?_⟩
        simp only [BackupCodeRow.mk.injEq, and_true, true_and]
        push_cast
        ring
    · rintro ⟨k, hash, hk, rfl⟩
      cases k with
      | zero =>
        simp only [List.getElem?_cons_zero, Option.some.injEq] at hk
        subst hk
        exact Or.inl (by simp)
      | succ k =>
        refine Or.inr ⟨k, hash, by simpa using hk, ?_⟩
        simp only [BackupCodeRow.mk.injEq, and_true, true_and]
        push_cast
        ring

/-- Each hash of the hashing loop comes from the code at its position. -/
theorem hashCodes_getElem (L : Lib) (salt : Nat → Bytes) (i : Nat) (codes hashes : List String)
    (h : hashCodes L salt i codes = .ok hashes) (k : Nat) (hash : String)
    (hk : hashes[k]? = some hash) :
    ∃ code, codes[k]? = some code ∧ L.bcryptGenerate code (salt (i + k)) = .ok hash := by
  induction codes generalizing i hashes k with
  | nil =>
    simp only [hashCodes, Except.ok.injEq] at h
    subst h
    simp at hk
  | cons code rest ih =>
    unfold hashCodes HashPassword at h
    split at h
    · cases h
    · rename_i hash0 hgen
      split at h
      · cases h
      · rename_i hashes0 hrest
        cases h
        cases k with
        | zero =>
          simp only [List.getElem?_cons_zero, Option.some.injEq] at hk
          subst hk
          exact ⟨code, by simp, hgen⟩
        | succ k =>
          simp only [List.getElem?_cons_succ] at hk
          obtain ⟨code', hc', hg'⟩ := ih (i + 1) hashes0 hrest k hk
          refine ⟨code', by simpa using hc', ?_⟩
          rw [← hg']
          congr 2
          omega

/-- A code that occurs once sits at one position. -/
theorem count_eq_one_index (c : String) (cs : List String) (h : cs.count c = 1) (i j : Nat)
    (hi : cs[i]? = some c) (hj : cs[j]? = some c) : i = j := by
  induction cs generalizing i j with
  | nil => simp at h
  | cons x xs ih =>
    by_cases hx : x = c
    · subst hx
      have h0 : xs.count x = 0 := by simpa using h
      have hnot : x ∉ xs := List.count_eq_zero.mp h0
      cases i with
      | zero =>
        cases j with
        | zero => rfl
        | succ j =>
          simp only [List.getElem?_cons_succ] at hj
          exact absurd (List.getElem?_mem hj) hnot
      | succ i =>
        simp only [List.getElem?_cons_succ] at hi
        exact absurd (List.getElem?_mem hi) hnot
    · have h1 : xs.count c = 1 := by
        rw [List.count_cons_of_ne (Ne.symm hx)] at h
        exact h
      cases i with
      | zero =>
        simp only [List.getElem?_cons_zero, Option.some.injEq] at hi
        exact absurd hi hx
      | succ i =>
        cases j with
        | zero =>
          simp only [List.getElem?_cons_zero, Option.some.injEq] at hj
          exact absurd hj hx
        | succ j =>
          simp only [List.getElem?_cons_succ] at hi hj
          rw [ih h1 i j hi hj]

/-- Claim C7, amended: for every user and every backup-code set stored by one
setup or regeneration, a generated code that occurs once in the set verifies
exactly once: the first `ConsumeBackupCode` call with that code returns true
and marks its row used, and after any run of later `ConsumeBackupCode` calls a
call with the same code returns false.  The storage statements are taken to
succeed and bcrypt to accept a hash for the password it was made from and for
none of the other generated codes. -/
theorem backupCode_consumed_once (L : Lib) (db : Database) (now userID : Int)
    (salt : Nat → Bytes) (codes hashes : List String) (c : String) (now1 : Int)
    (hrep : db.fails .replaceBackupCodes = false) (hsel : db.fails .selectBackupCodes = false)
    (hupd : db.fails .updateBackupCodeUsed = false)
    (hhash : hashCodes L salt 0 codes = .ok hashes)
    (hbcrypt : ∀ p s h q, p ∈ codes → q ∈ codes → L.bcryptGenerate p s = .ok h →
      (L.bcryptCompare h q = true ↔ p = q))
    (hc : codes.count c = 1) :
    ((db.ReplaceBackupCodes now userID hashes).2.ConsumeBackupCode L now1 userID c).1 =
      .ok true ∧
    (∃ row ∈ ((db.ReplaceBackupCodes now userID hashes).2.ConsumeBackupCode L now1
        userID c).2.backupCodes,
      row.user_id = userID ∧ L.bcryptCompare row.code_hash c = true ∧ row.used = true ∧
        row.used_at = some now1) ∧
    ∀ (later : List (Int × Int × String)) (now2 : Int),
      (consumeAll L later ((db.ReplaceBackupCodes now userID hashes).2.ConsumeBackupCode L now1
        userID c).2).ConsumeBackupCode L now2 userID c =
      (.ok false, consumeAll L later ((db.ReplaceBackupCodes now userID hashes).2.ConsumeBackupCode
        L now1 userID c).2) := by
  have hcmem : c ∈ codes := List.count_pos_iff.mp (by omega)
  obtain ⟨i, hi⟩ := List.mem_iff_getElem?.mp hcmem
  -- the stored hash of `c`
  have hlen : ∀ (k : Nat) (code : String), codes[k]? = some code →
      ∃ hash : String, hashes[k]? = some hash := by
    intro k code hk
    clear hi hc hcmem hbcrypt
    revert hhash
    generalize (0 : Nat) = i0
    intro hhash
    induction codes generalizing i0 hashes k with
    | nil => simp at hk
    | cons x xs ih =>
      unfold hashCodes at hhash
      split at hhash
      · cases hhash
      · split at hhash
        · cases hhash
        · rename_i hs hrest
          cases hhash
          cases k with
          | zero => exact ⟨_, List.getElem?_cons_zero⟩
          | succ k =>
            simp only [List.getElem?_cons_succ] at hk ⊢
            exact ih hs k hk (i0 + 1) hrest
  obtain ⟨hash, hhi⟩ := hlen i c hi
  obtain ⟨code, hci, hgen⟩ := hashCodes_getElem L salt 0 codes hashes hhash i hash hhi
  have hcode : code = c := by
    rw [hi] at hci
    exact (Option.some.inj hci).symm
  subst hcode
  -- the database after the replacement
  have hdb0 : (db.ReplaceBackupCodes now userID hashes).2 =
      { db with
        backupCodes := db.backupCodes.filter (fun r => !decide (r.user_id = userID)) ++
          newBackupCodeRows now userID db.nextBackupCodeID hashes
        nextBackupCodeID := db.nextBackupCodeID + hashes.length } := by
    unfold Database.ReplaceBackupCodes
    simp [hrep]
  rw [hdb0]
  set db0 : Database :=
    { db with
      backupCodes := db.backupCodes.filter (fun r => !decide (r.user_id = userID)) ++
        newBackupCodeRows now userID db.nextBackupCodeID hashes
      nextBackupCodeID := db.nextBackupCodeID + hashes.length } with hdb0def
  let row : BackupCodeRow :=
    { id := db.nextBackupCodeID + (i : Int), user_id := userID, code_hash := hash, used := false,
      created_at := now, used_at := none }
  have hrow : row ∈ db0.backupCodes := by
    simp only [hdb0def, List.mem_append]
    exact Or.inr ((mem_newBackupCodeRows _ _ _ _ _).mpr ⟨i, hash, hhi, rfl⟩)
  have hmatch : L.bcryptCompare row.code_hash code = true :=
    (hbcrypt code (salt (0 + i)) hash code hcmem hcmem hgen).mpr rfl
  have huniq : ∀ row' ∈ db0.backupCodes, row'.user_id = userID →
      L.bcryptCompare row'.code_hash code = true → row'.id = row.id := by
    intro row' hrow' huid' hm'
    simp only [hdb0def, List.mem_append, List.mem_filter] at hrow'
    rcases hrow' with ⟨_, hne⟩ | hnew
    · simp [huid'] at hne
    · obtain ⟨k, hash', hk, rfl⟩ := (mem_newBackupCodeRows _ _ _ _ _).mp hnew
      obtain ⟨code', hck, hgen'⟩ := hashCodes_getElem L salt 0 codes hashes hhash k hash' hk
      have hcode' : code' = code :=
        (hbcrypt code' (salt (0 + k)) hash' code (List.getElem?_mem hck) hcmem hgen').mp hm'
      subst hcode'
      have : k = i := count_eq_one_index code' codes hc k i hck hi
      subst this
      rfl
  have hfirst := ConsumeBackupCode_first L db0 now1 userID code row hsel hupd hrow rfl rfl
    hmatch huniq
  rw [hfirst]
  refine ⟨rfl, ?_, ?_⟩
  · refine ⟨{ row with used := true, used_at := some now1 }, ?_, rfl, hmatch, rfl, rfl⟩
    simp only [List.mem_map]
    exact ⟨row, hrow, by simp⟩
  · intro later now2
    have hspent := Spent_after_first L db0 now1 userID code row.id huniq
    have hall := consumeAll_spent L later _ userID code hspent
    exact ConsumeBackupCode_spent L _ now2 userID code (by rw [hall.2]; exact hsel) hall.1

/-- The bcrypt stand-in accepts a hash exactly for its password. -/
theorem refLib_bcrypt (p : String) (s : Bytes) (h q : String)
    (hgen : refLib.bcryptGenerate p s = .ok h) : refLib.bcryptCompare h q = true ↔ p = q := by
  simp only [refLib] at hgen ⊢
  split_ifs at hgen
  cases hgen
  simp only [decide_eq_true_eq]
  constructor
  · intro heq
    have := congrArg String.data heq
    simp only [String.data_append, List.append_cancel_left_eq] at this
    exact String.ext this
  · rintro rfl
    rfl

/-- Witness of C7: three distinct codes drawn for `alice`; the second one
verifies once. -/
theorem backupCode_consumed_once_witness :
    GenerateBackupCodes (fun i => .ok [i, 31, 32, 33, 255, 7, 8, 9]) 3 =
      .ok ["2Z23Z9AB", "3Z23Z9AB", "4Z23Z9AB"] ∧
    ((exampleDB.ReplaceBackupCodes 1751695800 2
        ["$2a$10$2Z23Z9AB", "$2a$10$3Z23Z9AB", "$2a$10$4Z23Z9AB"]).2.ConsumeBackupCode refLib
        1751695900 2 "3Z23Z9AB").1 = .ok true ∧
    ∀ (later : List (Int × Int × String)) (now2 : Int),
      (consumeAll refLib later ((exampleDB.ReplaceBackupCodes 1751695800 2
        ["$2a$10$2Z23Z9AB", "$2a$10$3Z23Z9AB", "$2a$10$4Z23Z9AB"]).2.ConsumeBackupCode refLib
        1751695900 2 "3Z23Z9AB").2).ConsumeBackupCode refLib now2 2 "3Z23Z9AB" =
      (.ok false, consumeAll refLib later ((exampleDB.ReplaceBackupCodes 1751695800 2
        ["$2a$10$2Z23Z9AB", "$2a$10$3Z23Z9AB", "$2a$10$4Z23Z9AB"]).2.ConsumeBackupCode refLib
        1751695900 2 "3Z23Z9AB").2) :=
  have h := backupCode_consumed_once refLib exampleDB 1751695800 2 (fun _ => [])
    ["2Z23Z9AB", "3Z23Z9AB", "4Z23Z9AB"]
    ["$2a$10$2Z23Z9AB", "$2a$10$3Z23Z9AB", "$2a$10$4Z23Z9AB"] "3Z23Z9AB" 1751695900 rfl rfl rfl
    rfl (fun p s h q _ _ hgen => refLib_bcrypt p s h q hgen) (by decide)
  ⟨rfl, h.1, h.2.2⟩

set_option maxRecDepth 100000 in
/-- Claim C7 as stated fails for a set with a repeated code: the codes are
drawn independently and never compared.  When every read of the random source
returns eight zero bytes, the verify-setup of `root` yields ten times the code
`22222222`, and `ConsumeBackupCode` accepts that code a second time. -/
theorem backupCode_repeated_counterexample :
    (VerifySetupTwoFA refLib exampleEnv (fun _ => .ok [0, 0, 0, 0, 0, 0, 0, 0]) (fun _ => [])
      exampleDB 1751695800 (exampleSetupVerify "619585")).resp =
      respondWithJSON 200 (.twoFAVerify "" none "Two-factor authentication activated"
        (List.replicate 10 "22222222")) ∧
    ((VerifySetupTwoFA refLib exampleEnv (fun _ => .ok [0, 0, 0, 0, 0, 0, 0, 0]) (fun _ => [])
      exampleDB 1751695800 (exampleSetupVerify "619585")).db.ConsumeBackupCode refLib
        1751695900 1 "22222222").1 = .ok true ∧
    (((VerifySetupTwoFA refLib exampleEnv (fun _ => .ok [0, 0, 0, 0, 0, 0, 0, 0]) (fun _ => [])
      exampleDB 1751695800 (exampleSetupVerify "619585")).db.ConsumeBackupCode refLib
        1751695900 1 "22222222").2.ConsumeBackupCode refLib 1751696000 1 "22222222").1 =
      .ok true := by
  refine ⟨by decide!, by decide!, by decide!⟩

/-! ## One-time passwords -/

/-- A digit is no white space and one byte long. -/
theorem digitChar_props : ∀ d : Fin 10,
    isSpace (digitChar d.val) = false ∧ (digitChar d.val).utf8Size = 1 := by decide

/-- `formatSix` yields six digits. -/
theorem formatSix_data (n : Nat) : ∃ d1 d2 d3 d4 d5 d6 : Fin 10,
    formatSix n = String.mk [digitChar d1.val, digitChar d2.val, digitChar d3.val,
      digitChar d4.val, digitChar d5.val, digitChar d6.val] :=
  ⟨⟨n / 100000 % 10, Nat.mod_lt _ (by decide)⟩, ⟨n / 10000 % 10, Nat.mod_lt _ (by decide)⟩,
   ⟨n / 1000 % 10, Nat.mod_lt _ (by decide)⟩, ⟨n / 100 % 10, Nat.mod_lt _ (by decide)⟩,
   ⟨n / 10 % 10, Nat.mod_lt _ (by decide)⟩, ⟨n / 1 % 10, Nat.mod_lt _ (by decide)⟩, rfl⟩

/-- A formatted code is stable under trimming and six bytes long. -/
theorem formatSix_trim (n : Nat) :
    TrimSpace (formatSix n) = formatSix n ∧ byteLen (formatSix n) = 6 := by
  obtain ⟨d1, d2, d3, d4, d5, d6, h⟩ := formatSix_data n
  rw [h]
  have h1 := digitChar_props d1
  have h2 := digitChar_props d2
  have h3 := digitChar_props d3
  have h4 := digitChar_props d4
  have h5 := digitChar_props d5
  have h6 := digitChar_props d6
  constructor
  · unfold TrimSpace
    simp [List.dropWhile, h1.1, h6.1]
  · unfold byteLen
    simp [h1.2, h2.2, h3.2, h4.2, h5.2, h6.2]

/-- A generated code is a formatted number, and generation succeeds for every counter once it does for one. -/
theorem hotpGenerateCode_shape (L : Lib) (secret : String) (counter : Nat) (code : String)
    (h : hotpGenerateCode L secret counter = .ok code) :
    (∃ n, code = formatSix n) ∧
    ∀ counter', ∃ code', hotpGenerateCode L secret counter' = .ok code' := by
  unfold hotpGenerateCode at h ⊢
  dsimp only at h ⊢
  split at h
  · cases h
  · rename_i secretBytes hdec
    cases h
    exact ⟨⟨_, rfl⟩, fun counter' => ⟨_, rfl⟩⟩

/-- Validation of a generated code against a counter compares it with the code of that counter. -/
theorem hotpValidate_code (L : Lib) (secret code : String) (counter counter' : Nat)
    (h : hotpGenerateCode L secret counter = .ok code) :
    hotpValidate L code counter' secret =
      .ok (decide (hotpGenerateCode L secret counter' = .ok code)) := by
  obtain ⟨⟨n, rfl⟩, hall⟩ := hotpGenerateCode_shape L secret counter code h
  obtain ⟨code', hc'⟩ := hall counter'
  unfold hotpValidate
  simp only [(formatSix_trim n).1, (formatSix_trim n).2, ne_eq, not_true_eq_false, if_false, hc',
    Except.ok.injEq]

/-- The loop over the counters accepts a generated code iff it is the code of one of them. -/
theorem totpTryCounters_code (L : Lib) (secret code : String) (counter : Nat)
    (h : hotpGenerateCode L secret counter = .ok code) (counters : List Nat) :
    totpTryCounters L code secret counters =
      .ok (decide (∃ k ∈ counters, hotpGenerateCode L secret k = .ok code)) := by
  induction counters with
  | nil => simp [totpTryCounters]
  | cons k rest ih =>
    unfold totpTryCounters
    rw [hotpValidate_code L secret code counter k h]
    by_cases hk : hotpGenerateCode L secret k = .ok code
    · simp [hk]
    · simp [hk, ih]

/-- What `ValidateTOTP` does with a generated code: it accepts at time `t`
exactly when the code is the code of the step of `t`, of the next step or of
the step before. -/
theorem ValidateTOTP_code (L : Lib) (secret code : String) (counter : Nat) (t : Int)
    (h : hotpGenerateCode L secret counter = .ok code) :
    ValidateTOTP L secret code t = true ↔
      hotpGenerateCode L secret (uint64 (t / 30)) = .ok code ∨
      hotpGenerateCode L secret (uint64 (t / 30 + 1)) = .ok code ∨
      hotpGenerateCode L secret (uint64 (t / 30 - 1)) = .ok code := by
  obtain ⟨⟨n, rfl⟩, _⟩ := hotpGenerateCode_shape L secret counter _ h
  unfold ValidateTOTP totpValidateCustom
  simp only [(formatSix_trim n).1, (formatSix_trim n).2, defaultTotpPeriod, totpValidationSkew]
  rw [totpTryCounters_code L secret _ counter h]
  simp [List.range_succ]

/-- Claim C8: for every secret and every time `t`, the six-digit code of the
30-second step of `t` is accepted by `ValidateTOTP` at every time that lies in
the step before, in the same step or in the step after. -/
theorem ValidateTOTP_accepts_adjacent (L : Lib) (secret code : String) (t t' : Int)
    (hcode : totpGenerateCode L secret t = .ok code)
    (hstep : t' / 30 = t / 30 - 1 ∨ t' / 30 = t / 30 ∨ t' / 30 = t / 30 + 1) :
    ValidateTOTP L secret code t' = true := by
  unfold totpGenerateCode at hcode
  rw [ValidateTOTP_code L secret code _ t' hcode]
  rcases hstep with h | h | h
  · refine Or.inr (Or.inl ?_)
    rw [h]
    simpa using hcode
  · exact Or.inl (by rw [h]; exact hcode)
  · refine Or.inr (Or.inr ?_)
    rw [h]
    simpa using hcode

set_option maxRecDepth 100000 in
/-- Witness of C8: the code of step 0 is accepted at second 45, in step 1. -/
theorem ValidateTOTP_accepts_adjacent_witness :
    totpGenerateCode refLib "JBSWY3DPEHPK3PXP" 0 = .ok "282760" ∧
    ValidateTOTP refLib "JBSWY3DPEHPK3PXP" "282760" 45 = true :=
  ⟨by decide!, ValidateTOTP_accepts_adjacent refLib "JBSWY3DPEHPK3PXP" "282760" 0 45
    (by decide!) (by decide)⟩

set_option maxRecDepth 100000 in
/-- Claim C9 as stated fails where two six-digit codes coincide.  For the
secret `JBSWY3DPEHPK3PXP` the code of second 1751695800 (step 58389860) is
`619585`, and so is the code two steps later: `ValidateTOTP` accepts the code
at second 1751695860, which lies in step 58389862. -/
theorem ValidateTOTP_two_steps_counterexample :
    (1751695800 : Int) / 30 = 58389860 ∧ (1751695860 : Int) / 30 = 58389860 + 2 ∧
    totpGenerateCode refLib "JBSWY3DPEHPK3PXP" 1751695800 = .ok "619585" ∧
    ValidateTOTP refLib "JBSWY3DPEHPK3PXP" "619585" 1751695860 = true := by
  refine ⟨by decide, by decide, by decide!, by decide!⟩

/-- Claim C9, amended: for every secret and every step `n`, the code generated
for step `n` is rejected by `ValidateTOTP` at a time lying in step `n + 2`
unless it is also the code of step `n + 1`, `n + 2` or `n + 3`, and at a time
lying in step `n - 2` unless it is also the code of step `n - 3`, `n - 2` or
`n - 1`: the steps a validation compares with are the step of its time and
the two next to it. -/
theorem ValidateTOTP_rejects_two_steps_away (L : Lib) (secret code : String) (t t' : Int)
    (hcode : totpGenerateCode L secret t = .ok code) :
    (t' / 30 = t / 30 + 2 →
      (ValidateTOTP L secret code t' = false ↔
        hotpGenerateCode L secret (uint64 (t / 30 + 1)) ≠ .ok code ∧
        hotpGenerateCode L secret (uint64 (t / 30 + 2)) ≠ .ok code ∧
        hotpGenerateCode L secret (uint64 (t / 30 + 3)) ≠ .ok code)) ∧
    (t' / 30 = t / 30 - 2 →
      (ValidateTOTP L secret code t' = false ↔
        hotpGenerateCode L secret (uint64 (t / 30 - 3)) ≠ .ok code ∧
        hotpGenerateCode L secret (uint64 (t / 30 - 2)) ≠ .ok code ∧
        hotpGenerateCode L secret (uint64 (t / 30 - 1)) ≠ .ok code)) := by
  unfold totpGenerateCode at hcode
  have key := ValidateTOTP_code L secret code _ t' hcode
  have hfalse : ValidateTOTP L secret code t' = false ↔ ¬ ValidateTOTP L secret code t' = true := by
    cases ValidateTOTP L secret code t' <;> simp
  constructor
  · intro h
    rw [hfalse, key, h]
    have e1 : t / 30 + 2 + 1 = t / 30 + 3 := by ring
    have e2 : t / 30 + 2 - 1 = t / 30 + 1 := by ring
    rw [e1, e2]
    simp only [not_or, ne_eq]
    exact ⟨fun ⟨a, b, c⟩ => ⟨c, a, b⟩, fun ⟨a, b, c⟩ => ⟨b, c, a⟩⟩
  · intro h
    rw [hfalse, key, h]
    have e1 : t / 30 - 2 + 1 = t / 30 - 1 := by ring
    have e2 : t / 30 - 2 - 1 = t / 30 - 3 := by ring
    rw [e1, e2]
    simp only [not_or, ne_eq]
    exact ⟨fun ⟨a, b, c⟩ => ⟨c, a, b⟩, fun ⟨a, b, c⟩ => ⟨b, c, a⟩⟩

set_option maxRecDepth 100000 in
/-- Witness of C9: the code of step 0 differs from the codes of steps 1, 2
and 3 and is rejected at second 60, in step 2. -/
theorem ValidateTOTP_rejects_two_steps_away_witness :
    totpGenerateCode refLib "JBSWY3DPEHPK3PXP" 0 = .ok "282760" ∧
    ValidateTOTP refLib "JBSWY3DPEHPK3PXP" "282760" 60 = false :=
  ⟨by decide!, ((ValidateTOTP_rejects_two_steps_away refLib "JBSWY3DPEHPK3PXP" "282760" 0 60
    (by decide!)).1 (by decide)).mpr ⟨by decide!, by decide!, by decide!⟩⟩

set_option maxRecDepth 100000 in
/-- The reference HMAC-SHA1 and truncation on the test vectors of RFC 3174 and
RFC 4226: the digest of `abc`, and the codes of counters 0 and 1 for the
secret `12345678901234567890`. -/
theorem refLib_test_vectors :
    sha1 [0x61, 0x62, 0x63] =
      [0xa9, 0x99, 0x3e, 0x36, 0x47, 0x06, 0x81, 0x6a, 0xba, 0x3e,
       0x25, 0x71, 0x78, 0x50, 0xc2, 0x6c, 0x9c, 0xd0, 0xd8, 0x9d] ∧
    refLib.base32Decode "GEZDGNBVGY3TQOJQGEZDGNBVGY3TQOJQ" =
      some ("12345678901234567890".data.map Char.toNat) ∧
    hotpGenerateCode refLib "GEZDGNBVGY3TQOJQGEZDGNBVGY3TQOJQ" 0 = .ok "755224" ∧
    hotpGenerateCode refLib "GEZDGNBVGY3TQOJQGEZDGNBVGY3TQOJQ" 1 = .ok "287082" := by
  refine ⟨by decide!, by decide!, by decide!, by decide!⟩

/-! ## Encrypted secrets -/

/-- Claim C10: for every secret string, every configured encryption key and
every nonce drawn, `EncryptSecret` succeeds and `DecryptSecret` of its result
returns exactly the secret, the libraries keeping their contracts on the
values in play: base64 decoding inverts encoding, `Open` inverts `Seal` under
the same nonce, and `string([]byte(s)) = s`. -/
theorem DecryptSecret_EncryptSecret (L : Lib) (env : Env) (draw : Nat → Except String Bytes)
    (plaintext : String) (key block : Bytes) (gcm : AEAD) (nonce : Bytes)
    (hkey : getEncryptionKey L env = .ok key)
    (hblock : L.aesNewCipher key = .ok block) (hgcm : L.cipherNewGCM block = .ok gcm)
    (hdraw : draw gcm.NonceSize = .ok nonce) (hlen : nonce.length = gcm.NonceSize)
    (hb64 : L.base64Decode (L.base64Encode (nonce ++ gcm.Seal nonce (L.bytesOfString plaintext))) =
      some (nonce ++ gcm.Seal nonce (L.bytesOfString plaintext)))
    (hopen : gcm.Open nonce (gcm.Seal nonce (L.bytesOfString plaintext)) =
      .ok (L.bytesOfString plaintext))
    (hstr : L.stringOfBytes (L.bytesOfString plaintext) = plaintext) :
    EncryptSecret L env draw plaintext =
      .ok (L.base64Encode (nonce ++ gcm.Seal nonce (L.bytesOfString plaintext))) ∧
    DecryptSecret L env (L.base64Encode (nonce ++ gcm.Seal nonce (L.bytesOfString plaintext))) =
      .ok plaintext := by
  constructor
  · unfold EncryptSecret
    simp only [hkey, hblock, hgcm, hdraw]
  · unfold DecryptSecret
    have hnot : ¬ (nonce ++ gcm.Seal nonce (L.bytesOfString plaintext)).length < gcm.NonceSize := by
      rw [List.length_append, hlen]
      omega
    simp only [hkey, hb64, hblock, hgcm, if_neg hnot]
    rw [← hlen, List.take_left' rfl, List.drop_left' rfl, hopen]
    simp only [hstr]

set_option maxRecDepth 100000 in
/-- Witness of C10: the secret `JBSWY3DPEHPK3PXP` under the key derived from
`JWT_SECRET=s3cret` and the nonce of twelve bytes 7. -/
theorem DecryptSecret_EncryptSecret_witness :
    EncryptSecret refLib exampleEnv (fun n => .ok (List.replicate n 7)) "JBSWY3DPEHPK3PXP" =
      .ok "BwcHBwcHBwcHBwcHTUVUUF40Q1dCT1dMNFdfV2WnIh0IWGQcP9N+Wa2JxDE=" ∧
    DecryptSecret refLib exampleEnv
      "BwcHBwcHBwcHBwcHTUVUUF40Q1dCT1dMNFdfV2WnIh0IWGQcP9N+Wa2JxDE=" = .ok "JBSWY3DPEHPK3PXP" :=
  DecryptSecret_EncryptSecret refLib exampleEnv (fun n => .ok (List.replicate n 7))
    "JBSWY3DPEHPK3PXP"
    (refLib.sha256 (refLib.bytesOfString "s3cret")) (refLib.sha256 (refLib.bytesOfString "s3cret"))
    (refGCM (refLib.sha256 (refLib.bytesOfString "s3cret"))) (List.replicate 12 7)
    (by decide!) (by decide!) rfl rfl (by decide) (by decide!) (by decide!) (by decide!)

/-! ## Password check -/

/-- Claim C19 as stated fails for the empty stored value: it equals the empty
password byte for byte, yet `CheckPasswordHash` refuses an empty stored value
before it makes either comparison. -/
theorem CheckPasswordHash_empty_counterexample :
    ("" : String) = "" ∧ CheckPasswordHash refLib "" "" = false ∧
    refLib.bcryptCompare "" "" = false :=
  ⟨rfl, rfl, by decide⟩

/-- Claim C19, amended: for every password `p` and every stored value `h`,
`CheckPasswordHash p h` is true iff `h` is not empty and either bcrypt
verifies `p` against `h` or `h` equals `p`. -/
theorem CheckPasswordHash_iff (L : Lib) (p h : String) :
    CheckPasswordHash L p h = true ↔ h ≠ "" ∧ (L.bcryptCompare h p = true ∨ h = p) := by
  unfold CheckPasswordHash
  by_cases hh : h = ""
  · simp [hh]
  · by_cases hb : L.bcryptCompare h p = true
    · simp [hh, hb]
    · by_cases he : h = p
      · simp [hh, hb, he]
      · simp [hh, hb, he]

/-! ## Backup code generation -/

theorem fillBuffer_length (n : Nat) (bytes : Bytes) : (fillBuffer n bytes).length = n := by
  simp [fillBuffer]

theorem backupCodeOf_shape (buf : Bytes) :
    (backupCodeOf buf).length = buf.length ∧ byteLen (backupCodeOf buf) = buf.length ∧
    ∀ ch ∈ (backupCodeOf buf).data, ch ∈ backupCodeAlphabet.data := by
  have hmem : ∀ b : Nat,
      backupCodeAlphabet.data.getD (b % backupCodeAlphabet.data.length) '2' ∈
        backupCodeAlphabet.data := by
    intro b
    have hlt : b % backupCodeAlphabet.data.length < backupCodeAlphabet.data.length :=
      Nat.mod_lt _ (by decide)
    rw [List.getD_eq_getElem _ _ hlt]
    exact List.getElem_mem _
  have hsize : ∀ ch ∈ backupCodeAlphabet.data, ch.utf8Size = 1 := by decide
  refine ⟨by simp only [backupCodeOf, String.length, List.length_map], ?_, ?_⟩
  · simp only [byteLen, backupCodeOf, List.map_map]
    induction buf with
    | nil => rfl
    | cons b rest ih =>
      simp only [List.map_cons, List.sum_cons, List.length_cons, Function.comp_apply, ih,
        hsize _ (hmem b)]
      omega
  · intro ch hch
    simp only [backupCodeOf, List.mem_map] at hch
    obtain ⟨b, _, rfl⟩ := hch
    exact hmem b

theorem generateBackupCodesFrom_ok (draw : Nat → Except String Bytes) :
    ∀ (n i : Nat) (codes : List String), generateBackupCodesFrom draw i n = .ok codes →
      codes.length = n ∧ ∀ c ∈ codes, c.length = 8 ∧ byteLen c = 8 ∧
        ∀ ch ∈ c.data, ch ∈ backupCodeAlphabet.data := by
  intro n
  induction n with
  | zero =>
    intro i codes h
    simp only [generateBackupCodesFrom, Except.ok.injEq] at h
    subst h
    simp
  | succ n ih =>
    intro i codes h
    simp only [generateBackupCodesFrom] at h
    split at h
    · cases h
    · split at h
      · cases h
      · rename_i _ bytes _ _ rest hrest
        simp only [Except.ok.injEq] at h
        subst h
        obtain ⟨hl, hs⟩ := ih (i + 1) rest hrest
        refine ⟨by simp [hl], ?_⟩
        intro c hc
        rcases List.mem_cons.mp hc with rfl | hc
        · have := backupCodeOf_shape (fillBuffer backupCodeLength bytes)
          rw [fillBuffer_length] at this
          exact this
        · exact hs c hc

theorem generateBackupCodesFrom_total (draw : Nat → Except String Bytes) :
    ∀ (n i : Nat), (∀ j, i ≤ j → j < i + n → ∃ b, draw j = .ok b) →
      ∃ codes, generateBackupCodesFrom draw i n = .ok codes := by
  intro n
  induction n with
  | zero => intro i _; exact ⟨[], rfl⟩
  | succ n ih =>
    intro i h
    obtain ⟨b, hb⟩ := h i (le_refl _) (by omega)
    obtain ⟨rest, hrest⟩ := ih (i + 1) (fun j h1 h2 => h j (by omega) (by omega))
    exact ⟨backupCodeOf (fillBuffer backupCodeLength b) :: rest,
      by simp only [generateBackupCodesFrom, hb, hrest]⟩

theorem GenerateBackupCodes_ok (draw : Nat → Except String Bytes) (count : Int)
    (codes : List String) (h : GenerateBackupCodes draw count = .ok codes) :
    0 < count ∧ (codes.length : Int) = count ∧ ∀ c ∈ codes, c.length = 8 ∧ byteLen c = 8 ∧
        ∀ ch ∈ c.data, ch ∈ backupCodeAlphabet.data := by
  unfold GenerateBackupCodes at h
  split at h
  · cases h
  · rename_i hc
    obtain ⟨hl, hs⟩ := generateBackupCodesFrom_ok draw _ _ _ h
    refine ⟨by omega, ?_, hs⟩
    rw [hl]
    omega

theorem VerifySetupTwoFA_codes (L : Lib) (env : Env) (draw : Nat → Except String Bytes)
    (salt : Nat → Bytes) (db : Database) (now : Int) (r : Request) (tok : String)
    (u : Option User) (msg : String) (cs : List String)
    (h : (VerifySetupTwoFA L env draw salt db now r).resp.Body = .twoFAVerify tok u msg cs) :
    GenerateBackupCodes draw backupCodesCount = .ok cs := by
  unfold VerifySetupTwoFA at h
  dsimp only at h
  repeat' split at h
  all_goals first
    | (simp only [respondWithError, respondWithJSON] at h; cases h; assumption)
    | (simp only [respondWithError, respondWithJSON] at h; cases h)

theorem RegenerateBackupCodes_codes (L : Lib) (env : Env) (draw : Nat → Except String Bytes)
    (salt : Nat → Bytes) (db : Database) (now : Int) (r : Request) (cs : List String)
    (h : (RegenerateBackupCodes L env draw salt db now r).resp.Body = .backupCodes cs) :
    GenerateBackupCodes draw backupCodesCount = .ok cs := by
  unfold RegenerateBackupCodes at h
  dsimp only at h
  repeat' split at h
  all_goals first
    | (simp only [respondWithError, respondWithJSON] at h; cases h; assumption)
    | (simp only [respondWithError, respondWithJSON] at h; cases h)

/-- Claim C20: for every count > 0 and every outcome of the reads of the random
source, `GenerateBackupCodes count` returns exactly `count` codes, each 8
characters (and 8 bytes) long with every character taken from the alphabet
`23456789ABCDEFGHJKLMNPQRSTUVWXYZ`, which has 32 symbols and none of 0, 1, I,
O; for every count <= 0 it returns the error "invalid count"; and the codes a
verify-setup or a regeneration response carries are those of a call with
count 10, so there are 10 of them. -/
theorem GenerateBackupCodes_spec (draw : Nat → Except String Bytes) (count : Int)
    (hcount : 0 < count) (hdraw : ∀ i : Nat, (i : Int) < count → ∃ b, draw i = .ok b) :
    (∃ codes, GenerateBackupCodes draw count = .ok codes ∧ (codes.length : Int) = count ∧
      ∀ c ∈ codes, c.length = 8 ∧ byteLen c = 8 ∧
        ∀ ch ∈ c.data, ch ∈ "23456789ABCDEFGHJKLMNPQRSTUVWXYZ".data) ∧
    (∀ n : Int, n ≤ 0 → GenerateBackupCodes draw n = .error "invalid count") ∧
    (backupCodeAlphabet = "23456789ABCDEFGHJKLMNPQRSTUVWXYZ" ∧
      backupCodeAlphabet.length = 32 ∧
      ∀ ch ∈ ['0', '1', 'I', 'O'], ch ∉ backupCodeAlphabet.data) ∧
    (∀ (L : Lib) (env : Env) (rnd : Nat → Except String Bytes) (salt : Nat → Bytes)
      (db : Database) (now : Int) (r : Request) (tok : String) (u : Option User) (msg : String)
      (cs : List String),
      (VerifySetupTwoFA L env rnd salt db now r).resp.Body = .twoFAVerify tok u msg cs →
        GenerateBackupCodes rnd 10 = .ok cs ∧ cs.length = 10) ∧
    (∀ (L : Lib) (env : Env) (rnd : Nat → Except String Bytes) (salt : Nat → Bytes)
      (db : Database) (now : Int) (r : Request) (cs : List String),
      (RegenerateBackupCodes L env rnd salt db now r).resp.Body = .backupCodes cs →
        GenerateBackupCodes rnd 10 = .ok cs ∧ cs.length = 10) := by
  refine ⟨?_, ?_, ⟨rfl, by decide, by decide⟩, ?_, ?_⟩
  · have htot : ∃ codes, GenerateBackupCodes draw count = .ok codes := by
      unfold GenerateBackupCodes
      rw [if_neg (by omega)]
      exact generateBackupCodesFrom_total draw _ 0 (fun j _ hj => hdraw j (by omega))
    obtain ⟨codes, hc⟩ := htot
    obtain ⟨_, hl, hs⟩ := GenerateBackupCodes_ok draw count codes hc
    exact ⟨codes, hc, hl, hs⟩
  · intro n hn
    unfold GenerateBackupCodes
    rw [if_pos hn]
  · intro L env rnd salt db now r tok u msg cs h
    have hg := VerifySetupTwoFA_codes L env rnd salt db now r tok u msg cs h
    have hl := (GenerateBackupCodes_ok rnd _ cs hg).2.1
    exact ⟨hg, by simp only [backupCodesCount] at hl; exact_mod_cast hl⟩
  · intro L env rnd salt db now r cs h
    have hg := RegenerateBackupCodes_codes L env rnd salt db now r cs h
    have hl := (GenerateBackupCodes_ok rnd _ cs hg).2.1
    exact ⟨hg, by simp only [backupCodesCount] at hl; exact_mod_cast hl⟩

/-- Witness of `GenerateBackupCodes_spec`: three codes from a source whose read
`i` gives the bytes `i, 31, 32, 33, 255, 7, 8, 9`. -/
theorem GenerateBackupCodes_spec_witness :
    GenerateBackupCodes (fun i => .ok [i, 31, 32, 33, 255, 7, 8, 9]) 3 =
      .ok ["2Z23Z9AB", "3Z23Z9AB", "4Z23Z9AB"] ∧
    ∃ codes, GenerateBackupCodes (fun i => .ok [i, 31, 32, 33, 255, 7, 8, 9]) 3 = .ok codes ∧
      (codes.length : Int) = 3 :=
  ⟨by decide,
   let ⟨codes, h, hl, _⟩ :=
     (GenerateBackupCodes_spec (fun i => .ok [i, 31, 32, 33, 255, 7, 8, 9]) 3 (by decide)
       (fun i _ => ⟨_, rfl⟩)).1
   ⟨codes, h, hl⟩⟩

/-! ## Session tokens -/

/-- Claim C15: for every userID, username and isAdmin, the claims
`GenerateTempToken` signs have `TwoFactorVerified = false` and expire 5 minutes
(300 seconds) after the time of issuance, and the claims `GenerateToken` signs
expire 24 hours (86400 seconds) after issuance and carry the twoFactorVerified
argument unchanged; both are signed with the configured secret. -/
theorem GenerateToken_claims (L : Lib) (env : Env) (now userID : Int) (username : String)
    (isAdmin twoFactorVerified : Bool) :
    (∃ claims : Claims,
      GenerateTempToken L env now userID username isAdmin =
        L.SignedString claims (jwtSecret env) ∧
      claims.TwoFactorVerified = false ∧ claims.IssuedAt = some now ∧
      claims.ExpiresAt = some (now + 300) ∧
      claims.UserID = userID ∧ claims.Username = username ∧ claims.IsAdmin = isAdmin) ∧
    (∃ claims : Claims,
      GenerateToken L env now userID username isAdmin twoFactorVerified =
        L.SignedString claims (jwtSecret env) ∧
      claims.TwoFactorVerified = twoFactorVerified ∧ claims.IssuedAt = some now ∧
      claims.ExpiresAt = some (now + 86400) ∧
      claims.UserID = userID ∧ claims.Username = username ∧ claims.IsAdmin = isAdmin) :=
  ⟨⟨⟨userID, username, isAdmin, false, some (now + 5 * 60), some now⟩,
      rfl, rfl, rfl, rfl, rfl, rfl, rfl⟩,
   ⟨⟨userID, username, isAdmin, twoFactorVerified, some (now + 24 * 3600), some now⟩,
      rfl, rfl, rfl, rfl, rfl, rfl, rfl⟩⟩

/-- Claim C14: for every userID, username, isAdmin and twoFactorVerified, when
`GenerateToken` returned the token at time `now`, the signing secret is
unchanged and the time `later` is before the expiry `now + 24h`, then
`ValidateToken` of that token succeeds and returns claims with exactly those
four field values.  The JWT package is assumed to parse the string it signed:
handed a key function that yields the signing key for the HS256 token with the
signed claims, before the expiry, it returns that token marked valid. -/
theorem ValidateToken_GenerateToken (L : Lib) (env : Env) (now later userID : Int)
    (username : String) (isAdmin twoFactorVerified : Bool) (tok : String)
    (hsign : GenerateToken L env now userID username isAdmin twoFactorVerified = .ok tok)
    (hbefore : later < now + 86400)
    (hjwt : L.SignedString
        ⟨userID, username, isAdmin, twoFactorVerified, some (now + 86400), some now⟩
        (jwtSecret env) = .ok tok →
      later < now + 86400 →
      ∀ kf : Token → Except String String,
        kf ⟨.hmac "HS256",
            ⟨userID, username, isAdmin, twoFactorVerified, some (now + 86400), some now⟩,
            false⟩ = .ok (jwtSecret env) →
        L.ParseWithClaims tok kf later =
          .ok ⟨.hmac "HS256",
            ⟨userID, username, isAdmin, twoFactorVerified, some (now + 86400), some now⟩,
            true⟩) :
    ∃ claims : Claims, ValidateToken L env later tok = .ok claims ∧
      claims.UserID = userID ∧ claims.Username = username ∧ claims.IsAdmin = isAdmin ∧
      claims.TwoFactorVerified = twoFactorVerified := by
  refine ⟨⟨userID, username, isAdmin, twoFactorVerified, some (now + 86400), some now⟩,
    ?_, rfl, rfl, rfl, rfl⟩
  have hp := hjwt hsign hbefore (keyFunc (jwtSecret env)) rfl
  simp only [ValidateToken, hp, if_true]

set_option maxRecDepth 100000 in
/-- Witness of `ValidateToken_GenerateToken`: the session token of `root`
issued on the reference library is accepted an hour later. -/
theorem ValidateToken_GenerateToken_witness :
    GenerateToken refLib exampleEnv 1751695800 1 "root" true true = .ok "signed.full.root.s3cret" ∧
    ∃ claims : Claims, ValidateToken refLib exampleEnv 1751699400 "signed.full.root.s3cret" =
        .ok claims ∧
      claims.UserID = 1 ∧ claims.Username = "root" ∧ claims.IsAdmin = true ∧
      claims.TwoFactorVerified = true :=
  ⟨by decide,
   ValidateToken_GenerateToken refLib exampleEnv 1751695800 1751699400 1 "root" true true
     "signed.full.root.s3cret" (by decide) (by decide) (by
       intro _ _ kf hk
       have hk2 : kf ⟨.hmac "HS256", ⟨1, "root", true, true, some 1751782200, some 1751695800⟩,
           false⟩ = .ok "s3cret" := hk
       simp only [refLib, refParseWithClaims, refTokens, List.find?, String.reduceEq,
         decide_False, decide_True, hk2]
       decide)⟩

/-- Claim C16: for every request whose token `ValidateToken` accepts (validly
signed, unexpired) with a true twoFactorVerified claim, `VerifyTwoFA` rejects
the request, with status 400 "Token is already verified" when the token text
is not empty (an empty text is refused with 401 before it is parsed): the
response carries an error and no session token, and the database is left as it
was, so no backup code is consumed and no attempt-log entry is appended.  The
token of the request is the one `extractToken` finds: the bearer of
`Authorization`, else the header `X-2FA-Token`, else the token of the body. -/
theorem VerifyTwoFA_verified_token (L : Lib) (env : Env) (db : Database) (now : Int)
    (r : Request) (req : TwoFAVerifyRequest) (claims : Claims)
    (hbody : r.Body = some req)
    (hvalid : ValidateToken L env now (extractToken L r req.TempToken) = .ok claims)
    (hverified : claims.TwoFactorVerified = true) :
    (VerifyTwoFA L env db now r).db = db ∧
    (VerifyTwoFA L env db now r).db.backupCodes = db.backupCodes ∧
    (VerifyTwoFA L env db now r).db.twofaLogs = db.twofaLogs ∧
    (∃ msg, (VerifyTwoFA L env db now r).resp.Body = .error msg) ∧
    ((VerifyTwoFA L env db now r).resp.Status = 400 ∨
      (VerifyTwoFA L env db now r).resp.Status = 401) ∧
    (extractToken L r req.TempToken ≠ "" →
      (VerifyTwoFA L env db now r).resp =
        respondWithError 400 "Token is already verified") := by
  by_cases hpresent : extractToken L r req.TempToken = ""
  · have h : VerifyTwoFA L env db now r =
        { resp := respondWithError 401 "Missing verification token", db := db } := by
      unfold VerifyTwoFA
      simp only [hbody, hpresent, if_true]
    rw [h]
    exact ⟨rfl, rfl, rfl, ⟨_, rfl⟩, Or.inr rfl, fun hne => absurd hpresent hne⟩
  · have h : VerifyTwoFA L env db now r =
        { resp := respondWithError 400 "Token is already verified", db := db } := by
      unfold VerifyTwoFA
      simp only [hbody, hpresent, hvalid, hverified, if_true, if_false]
    rw [h]
    exact ⟨rfl, rfl, rfl, ⟨_, rfl⟩, Or.inl rfl, fun _ => rfl⟩

set_option maxRecDepth 100000 in
/-- Witness of `VerifyTwoFA_verified_token`: the full session token of `root`
presented to the login challenge, in the body, and in the header `X-2FA-Token`
while the body holds the temp token. -/
theorem VerifyTwoFA_verified_token_witness :
    ValidateToken refLib exampleEnv 1751695900 "session.root" =
      .ok ⟨1, "root", true, true, some 1751782200, some 1751695800⟩ ∧
    (VerifyTwoFA refLib exampleEnv exampleDB 1751695900
      (exampleRequest "POST" []
        (some { Code := "123456", BackupCode := "", TempToken := "session.root" }))).resp =
      respondWithError 400 "Token is already verified" ∧
    extractToken refLib (exampleHeaderChallenge "session.root" "temp.root" "123456")
      "temp.root" = "session.root" ∧
    (VerifyTwoFA refLib exampleEnv exampleDB 1751695900
      (exampleHeaderChallenge "session.root" "temp.root" "123456")).db.twofaLogs =
      exampleDB.twofaLogs ∧
    (VerifyTwoFA refLib exampleEnv exampleDB 1751695900
      (exampleHeaderChallenge "session.root" "temp.root" "123456")).resp =
      respondWithError 400 "Token is already verified" :=
  ⟨by decide,
   (VerifyTwoFA_verified_token refLib exampleEnv exampleDB 1751695900
      (exampleRequest "POST" []
        (some { Code := "123456", BackupCode := "", TempToken := "session.root" }))
      { Code := "123456", BackupCode := "", TempToken := "session.root" }
      ⟨1, "root", true, true, some 1751782200, some 1751695800⟩
      rfl (by decide) rfl).2.2.2.2.2 (by decide),
   by decide,
   (VerifyTwoFA_verified_token refLib exampleEnv exampleDB 1751695900
      (exampleHeaderChallenge "session.root" "temp.root" "123456")
      { Code := "123456", BackupCode := "", TempToken := "temp.root" }
      ⟨1, "root", true, true, some 1751782200, some 1751695800⟩
      rfl (by decide) rfl).2.2.1,
   (VerifyTwoFA_verified_token refLib exampleEnv exampleDB 1751695900
      (exampleHeaderChallenge "session.root" "temp.root" "123456")
      { Code := "123456", BackupCode := "", TempToken := "temp.root" }
      ⟨1, "root", true, true, some 1751782200, some 1751695800⟩
      rfl (by decide) rfl).2.2.2.2.2 (by decide)⟩

/-! ## Corrupted secrets -/

set_option maxRecDepth 100000 in
/-- Claim C11 as stated fails in two ways.  The stored value of the secret
`JBSWY3DPEHPK3PXP` with its last base64 digit altered from `E` to `F`, or
with a line break appended, differs from the stored value, yet
`DecryptSecret` returns the secret and no error: the standard decoder skips
line breaks and ignores the bits of the last digit that fill no byte.  And the
stored value with the bytes after the nonce altered into those of the stored
value of the secret `GEZDGNBVGY3TQOJQ` under the same key and nonce is
authenticated by the cipher: `DecryptSecret` returns no error but a plaintext
other than the secret. -/
theorem DecryptSecret_altered_text_counterexample :
    EncryptSecret refLib exampleEnv (fun n => .ok (List.replicate n 7)) "JBSWY3DPEHPK3PXP" =
      .ok "BwcHBwcHBwcHBwcHTUVUUF40Q1dCT1dMNFdfV2WnIh0IWGQcP9N+Wa2JxDE=" ∧
    "BwcHBwcHBwcHBwcHTUVUUF40Q1dCT1dMNFdfV2WnIh0IWGQcP9N+Wa2JxDF=" ≠
      "BwcHBwcHBwcHBwcHTUVUUF40Q1dCT1dMNFdfV2WnIh0IWGQcP9N+Wa2JxDE=" ∧
    DecryptSecret refLib exampleEnv
      "BwcHBwcHBwcHBwcHTUVUUF40Q1dCT1dMNFdfV2WnIh0IWGQcP9N+Wa2JxDF=" = .ok "JBSWY3DPEHPK3PXP" ∧
    "BwcHBwcHBwcHBwcHTUVUUF40Q1dCT1dMNFdfV2WnIh0IWGQcP9N+Wa2JxDE=\n" ≠
      "BwcHBwcHBwcHBwcHTUVUUF40Q1dCT1dMNFdfV2WnIh0IWGQcP9N+Wa2JxDE=" ∧
    DecryptSecret refLib exampleEnv
      "BwcHBwcHBwcHBwcHTUVUUF40Q1dCT1dMNFdfV2WnIh0IWGQcP9N+Wa2JxDE=\n" =
      .ok "JBSWY3DPEHPK3PXP" ∧
    EncryptSecret refLib exampleEnv (fun n => .ok (List.replicate n 7)) "GEZDGNBVGY3TQOJQ" =
      .ok "BwcHBwcHBwcHBwcHQEJdQ0BJRVFAXjRTVkhNVlfblBDXjrcuZStp/8Y/CQE=" ∧
    "BwcHBwcHBwcHBwcHQEJdQ0BJRVFAXjRTVkhNVlfblBDXjrcuZStp/8Y/CQE=" ≠
      "BwcHBwcHBwcHBwcHTUVUUF40Q1dCT1dMNFdfV2WnIh0IWGQcP9N+Wa2JxDE=" ∧
    DecryptSecret refLib exampleEnv
      "BwcHBwcHBwcHBwcHQEJdQ0BJRVFAXjRTVkhNVlfblBDXjrcuZStp/8Y/CQE=" = .ok "GEZDGNBVGY3TQOJQ" ∧
    ("GEZDGNBVGY3TQOJQ" : String) ≠ "JBSWY3DPEHPK3PXP" :=
  ⟨by decide!, by decide, by decide!, by decide, by decide!, by decide!, by decide, by decide!,
    by decide⟩

/-- Claim C11, amended: let `c` be a stored value, produced by `EncryptSecret`
from the secret `s` and decrypting to it, whose base64 text decodes to the
bytes `data`, and let `c'` be any text.  If `c'` is not valid base64,
`DecryptSecret c'` returns an error; if it decodes to fewer bytes than the
nonce size, it returns the error "invalid ciphertext"; otherwise it returns
what the cipher makes of the decoded nonce and remainder under the configured
key: the error of `Open` when the cipher refuses them, the plaintext `Open`
returns when the cipher authenticates them.  If `c'` decodes to `data` itself,
it returns `s`.  Hence `DecryptSecret c'` returns a plaintext other than `s`
only when `c'` decodes to bytes other than `data`, at least a nonce long, that
the cipher authenticates under the key. -/
theorem DecryptSecret_corrupted (L : Lib) (env : Env) (draw : Nat → Except String Bytes)
    (s c c' : String) (key block : Bytes) (gcm : AEAD) (data : Bytes)
    (henc : EncryptSecret L env draw s = .ok c)
    (hkey : getEncryptionKey L env = .ok key)
    (hblock : L.aesNewCipher key = .ok block) (hgcm : L.cipherNewGCM block = .ok gcm)
    (hdata : L.base64Decode c = some data)
    (hround : EncryptSecret L env draw s = .ok c → DecryptSecret L env c = .ok s) :
    (L.base64Decode c' = none → DecryptSecret L env c' = .error "illegal base64 data") ∧
    (∀ other, L.base64Decode c' = some other → other.length < gcm.NonceSize →
      DecryptSecret L env c' = .error "invalid ciphertext") ∧
    (∀ other e, L.base64Decode c' = some other → gcm.NonceSize ≤ other.length →
      gcm.Open (other.take gcm.NonceSize) (other.drop gcm.NonceSize) = .error e →
      DecryptSecret L env c' = .error e) ∧
    (∀ other opened, L.base64Decode c' = some other → gcm.NonceSize ≤ other.length →
      gcm.Open (other.take gcm.NonceSize) (other.drop gcm.NonceSize) = .ok opened →
      DecryptSecret L env c' = .ok (L.stringOfBytes opened)) ∧
    (L.base64Decode c' = some data → DecryptSecret L env c' = .ok s) ∧
    (∀ p, DecryptSecret L env c' = .ok p → p ≠ s →
      ∃ other opened, L.base64Decode c' = some other ∧ other ≠ data ∧
        gcm.NonceSize ≤ other.length ∧
        gcm.Open (other.take gcm.NonceSize) (other.drop gcm.NonceSize) = .ok opened ∧
        p = L.stringOfBytes opened) := by
  have hs := hround henc
  have hsame : ∀ t, L.base64Decode t = some data → DecryptSecret L env t = .ok s := by
    intro t ht
    unfold DecryptSecret at hs ⊢
    simp only [hkey, hdata, hblock, hgcm, ht] at hs ⊢
    exact hs
  have hshort : ∀ other, L.base64Decode c' = some other → other.length < gcm.NonceSize →
      DecryptSecret L env c' = .error "invalid ciphertext" := by
    intro other ho hlt
    unfold DecryptSecret
    simp only [hkey, ho, hblock, hgcm, if_pos hlt]
  have hopen : ∀ other, L.base64Decode c' = some other → gcm.NonceSize ≤ other.length →
      DecryptSecret L env c' =
        match gcm.Open (other.take gcm.NonceSize) (other.drop gcm.NonceSize) with
        | .error e => .error e
        | .ok opened => .ok (L.stringOfBytes opened) := by
    intro other ho hle
    unfold DecryptSecret
    simp only [hkey, ho, hblock, hgcm, if_neg (by omega : ¬ other.length < gcm.NonceSize)]
  refine ⟨?_, hshort, ?_, ?_, hsame c', ?_⟩
  · intro hnone
    unfold DecryptSecret
    simp only [hkey, hnone]
  · intro other e ho hle he
    rw [hopen other ho hle, he]
  · intro other opened ho hle he
    rw [hopen other ho hle, he]
  · intro p hp hne
    cases hd : L.base64Decode c' with
    | none =>
      unfold DecryptSecret at hp
      simp only [hkey, hd] at hp
      cases hp
    | some other =>
      have hdiff : other ≠ data := by
        intro heq
        subst heq
        rw [hsame c' hd] at hp
        cases hp
        exact hne rfl
      by_cases hlt : other.length < gcm.NonceSize
      · rw [hshort other hd hlt] at hp
        cases hp
      · have hle : gcm.NonceSize ≤ other.length := by omega
        rw [hopen other hd hle] at hp
        cases ho : gcm.Open (other.take gcm.NonceSize) (other.drop gcm.NonceSize) with
        | error e =>
          rw [ho] at hp
          cases hp
        | ok opened =>
          rw [ho] at hp
          cases hp
          exact ⟨other, opened, rfl, hdiff, hle, ho, rfl⟩

set_option maxRecDepth 100000 in
/-- Witness of `DecryptSecret_corrupted`: the stored value of the secret
`JBSWY3DPEHPK3PXP` with its first base64 digit altered, which changes the first
byte of the nonce, is refused by the cipher of the reference library, and
`DecryptSecret` returns that error. -/
theorem DecryptSecret_corrupted_witness :
    refLib.base64Decode "CwcHBwcHBwcHBwcHTUVUUF40Q1dCT1dMNFdfV2WnIh0IWGQcP9N+Wa2JxDE=" =
      some [11, 7, 7, 7, 7, 7, 7, 7, 7, 7, 7, 7, 77, 69, 84, 80, 94, 52, 67, 87, 66, 79, 87, 76,
        52, 87, 95, 87, 101, 167, 34, 29, 8, 88, 100, 28, 63, 211, 126, 89, 173, 137, 196, 49] ∧
    DecryptSecret refLib exampleEnv
      "CwcHBwcHBwcHBwcHTUVUUF40Q1dCT1dMNFdfV2WnIh0IWGQcP9N+Wa2JxDE=" =
      .error "cipher: message authentication failed" :=
  have hd : refLib.base64Decode "CwcHBwcHBwcHBwcHTUVUUF40Q1dCT1dMNFdfV2WnIh0IWGQcP9N+Wa2JxDE=" =
      some [11, 7, 7, 7, 7, 7, 7, 7, 7, 7, 7, 7, 77, 69, 84, 80, 94, 52, 67, 87, 66, 79, 87, 76,
        52, 87, 95, 87, 101, 167, 34, 29, 8, 88, 100, 28, 63, 211, 126, 89, 173, 137, 196, 49] := by
    decide!
  ⟨hd,
   (DecryptSecret_corrupted refLib exampleEnv (fun n => .ok (List.replicate n 7))
      "JBSWY3DPEHPK3PXP" "BwcHBwcHBwcHBwcHTUVUUF40Q1dCT1dMNFdfV2WnIh0IWGQcP9N+Wa2JxDE="
      "CwcHBwcHBwcHBwcHTUVUUF40Q1dCT1dMNFdfV2WnIh0IWGQcP9N+Wa2JxDE="
      (refLib.sha256 (refLib.bytesOfString "s3cret"))
      (refLib.sha256 (refLib.bytesOfString "s3cret"))
      (refGCM (refLib.sha256 (refLib.bytesOfString "s3cret")))
      [7, 7, 7, 7, 7, 7, 7, 7, 7, 7, 7, 7, 77, 69, 84, 80, 94, 52, 67, 87, 66, 79, 87, 76,
        52, 87, 95, 87, 101, 167, 34, 29, 8, 88, 100, 28, 63, 211, 126, 89, 173, 137, 196, 49]
      (by decide!) (by decide!) (by decide!) rfl (by decide!) (fun _ => by decide!)).2.2.1
      _ "cipher: message authentication failed" hd (by decide) (by decide!)⟩

/-! ## Validation of a submitted code -/

/-- Marking by an id no row carries changes nothing. -/
theorem mark_absent (now id : Int) (rows : List BackupCodeRow)
    (h : id ∉ rows.map (fun r => r.id)) :
    rows.map (fun r => if r.id = id then { r with used := true, used_at := some now } else r) =
      rows := by
  induction rows with
  | nil => rfl
  | cons a t ih =>
    simp only [List.map_cons, List.mem_cons, not_or] at h
    simp only [List.map_cons, if_neg (Ne.symm h.1), ih h.2]

/-- Marking an unused row of a table with distinct ids raises the number of
used rows by one. -/
theorem mark_count (now : Int) (row : BackupCodeRow) (rows : List BackupCodeRow)
    (hrow : row ∈ rows) (hunused : row.used = false)
    (hids : (rows.map (fun r => r.id)).Nodup) :
    ((rows.map (fun r =>
        if r.id = row.id then { r with used := true, used_at := some now } else r)).filter
      (fun r => r.used)).length = (rows.filter (fun r => r.used)).length + 1 := by
  induction rows with
  | nil => cases hrow
  | cons a t ih =>
    simp only [List.map_cons, List.nodup_cons] at hids
    rcases List.mem_cons.mp hrow with rfl | hmem
    · have habs := mark_absent now row.id t hids.1
      simp only [List.map_cons, if_true, habs, List.filter_cons, hunused, Bool.false_eq_true,
        if_false, List.length_cons]
    · have hne : a.id ≠ row.id := by
        intro heq
        exact hids.1 (heq ▸ List.mem_map_of_mem (fun r => r.id) hmem)
      simp only [List.map_cons, if_neg hne, List.filter_cons]
      by_cases hu : a.used = true
      · simp only [hu, if_true, List.length_cons, ih hmem hids.2]
      · simp only [hu, if_false]
        exact ih hmem hids.2

/-- The loop marks the first unused code that matches. -/
theorem consumeLoop_match (L : Lib) (d : Database) (now : Int) (c : String)
    (codes : List TwoFABackupCode) (hok : d.fails .updateBackupCodeUsed = false)
    (hex : ∃ e ∈ codes, e.Used = false ∧ L.bcryptCompare e.CodeHash c = true) :
    ∃ e ∈ codes, e.Used = false ∧ L.bcryptCompare e.CodeHash c = true ∧
      consumeLoop L d now c codes =
        (.ok true, { d with backupCodes := d.backupCodes.map (fun r =>
          if r.id = e.ID then { r with used := true, used_at := some now } else r) }) := by
  induction codes with
  | nil =>
    obtain ⟨e, he, _⟩ := hex
    cases he
  | cons a rest ih =>
    have hrest : (a.Used = true ∨ L.bcryptCompare a.CodeHash c ≠ true) →
        ∃ e ∈ rest, e.Used = false ∧ L.bcryptCompare e.CodeHash c = true := by
      intro ha
      obtain ⟨e, he, hu, hm⟩ := hex
      rcases List.mem_cons.mp he with rfl | he
      · rcases ha with ha | ha
        · rw [hu] at ha
          cases ha
        · exact absurd hm ha
      · exact ⟨e, he, hu, hm⟩
    unfold consumeLoop
    by_cases hu : a.Used = true
    · rw [if_pos hu]
      obtain ⟨e, he, h1, h2, h3⟩ := ih (hrest (Or.inl hu))
      exact ⟨e, List.mem_cons_of_mem _ he, h1, h2, h3⟩
    · rw [if_neg hu]
      by_cases hm : L.bcryptCompare a.CodeHash c = true
      · rw [if_pos hm]
        simp only [hok, Bool.false_eq_true, if_false]
        exact ⟨a, List.mem_cons_self _ _, by simpa using hu, hm, rfl⟩
      · rw [if_neg hm]
        obtain ⟨e, he, h1, h2, h3⟩ := ih (hrest (Or.inr hm))
        exact ⟨e, List.mem_cons_of_mem _ he, h1, h2, h3⟩

/-- A candidate that matches an unused row of the user is consumed: one such
row is marked used. -/
theorem ConsumeBackupCode_match (L : Lib) (d : Database) (now userID : Int) (c : String)
    (hsel : d.fails .selectBackupCodes = false)
    (hupd : d.fails .updateBackupCodeUsed = false)
    (hex : ∃ row ∈ d.backupCodes, row.user_id = userID ∧ row.used = false ∧
      L.bcryptCompare row.code_hash c = true) :
    ∃ row ∈ d.backupCodes, row.user_id = userID ∧ row.used = false ∧
      L.bcryptCompare row.code_hash c = true ∧
      d.ConsumeBackupCode L now userID c =
        (.ok true, { d with backupCodes := d.backupCodes.map (fun r =>
          if r.id = row.id then { r with used := true, used_at := some now } else r) }) := by
  unfold Database.ConsumeBackupCode
  cases hg : d.GetBackupCodes userID with
  | error e =>
    unfold Database.GetBackupCodes at hg
    simp [hsel] at hg
  | ok codes =>
    simp only []
    obtain ⟨row, hrow, huid, hunused, hmatch⟩ := hex
    obtain ⟨e, he, h1, h2, h3⟩ := consumeLoop_match L d now c codes hupd
      ⟨row.toCode, (mem_GetBackupCodes d userID codes hg _).mpr ⟨row, hrow, huid, rfl⟩,
        hunused, hmatch⟩
    obtain ⟨row1, hrow1, huid1, rfl⟩ := (mem_GetBackupCodes d userID codes hg e).mp he
    exact ⟨row1, hrow1, huid1, h1, h2, h3⟩

set_option maxRecDepth 100000 in
/-- Claim C17 as stated fails when the stored secret cannot be loaded: after
the encryption key was changed, `root` submits no TOTP code and a backup code
that matches an unused stored code, and `validateTwoFactorCode` fails with
"2FA secret unavailable" (not an invalid-code error) without trying the backup
code, which the same call accepts under the key the secret was stored with. -/
theorem validateTwoFactorCode_secret_unavailable_counterexample :
    (∃ row ∈ exampleDBWithCodes.backupCodes, row.user_id = 1 ∧ row.used = false ∧
      refLib.bcryptCompare row.code_hash "3Z23Z9AB" = true) ∧
    validateTwoFactorCode refLib exampleEnvRotated exampleDBWithCodes 1751695800 1 ""
      "3Z23Z9AB" = (.error "2FA secret unavailable", exampleDBWithCodes) ∧
    (validateTwoFactorCode refLib exampleEnv exampleDBWithCodes 1751695800 1 ""
      "3Z23Z9AB").1 = .ok "backup" :=
  ⟨⟨⟨2, 1, "$2a$10$3Z23Z9AB", false, 1751695800, none⟩, by decide, rfl, rfl, by decide⟩,
   by rfl, by decide!⟩

/-- Claim C17, amended: when the stored secret of the user can be loaded,
`validateTwoFactorCode` tries the TOTP code first and the backup code second.
A valid TOTP code gives method "totp" and leaves the database as it was, also
when a valid backup code came with it.  When the TOTP code is blank or invalid
and the trimmed backup code matches an unused stored code of the user, the
method is "backup" and one such row is marked used, the number of used rows
growing by exactly one (row ids being distinct).  When the TOTP code is blank
or invalid and the backup code is blank or matches no unused code of the user,
the call fails with "invalid verification code" and the database is as it was.
The statements on `user_twofa_backup_codes` are assumed to succeed. -/
theorem validateTwoFactorCode_paths (L : Lib) (env : Env) (db : Database) (now userID : Int)
    (code backupCode secret : String)
    (hsecret : loadTwoFASecret L env db userID = .ok secret) :
    (TrimSpace code ≠ "" → ValidateTOTP L secret (TrimSpace code) now = true →
      validateTwoFactorCode L env db now userID code backupCode = (.ok "totp", db)) ∧
    ((TrimSpace code = "" ∨ ValidateTOTP L secret (TrimSpace code) now = false) →
      TrimSpace backupCode ≠ "" →
      db.fails .selectBackupCodes = false → db.fails .updateBackupCodeUsed = false →
      (∃ row ∈ db.backupCodes, row.user_id = userID ∧ row.used = false ∧
        L.bcryptCompare row.code_hash (TrimSpace backupCode) = true) →
      ∃ row ∈ db.backupCodes, row.user_id = userID ∧ row.used = false ∧
        L.bcryptCompare row.code_hash (TrimSpace backupCode) = true ∧
        validateTwoFactorCode L env db now userID code backupCode =
          (.ok "backup", { db with backupCodes := db.backupCodes.map (fun r =>
            if r.id = row.id then { r with used := true, used_at := some now } else r) }) ∧
        ((db.backupCodes.map (fun r => r.id)).Nodup →
          ((validateTwoFactorCode L env db now userID code backupCode).2.backupCodes.filter
            (fun r => r.used)).length = (db.backupCodes.filter (fun r => r.used)).length + 1)) ∧
    ((TrimSpace code = "" ∨ ValidateTOTP L secret (TrimSpace code) now = false) →
      (TrimSpace backupCode = "" ∨
        (db.fails .selectBackupCodes = false ∧ Spent L db userID (TrimSpace backupCode))) →
      validateTwoFactorCode L env db now userID code backupCode =
        (.error "invalid verification code", db)) := by
  have hno : (TrimSpace code = "" ∨ ValidateTOTP L secret (TrimSpace code) now = false) →
      validateTwoFactorCode L env db now userID code backupCode =
        if TrimSpace backupCode ≠ "" then
          match db.ConsumeBackupCode L now userID (TrimSpace backupCode) with
          | (.error e, db1) => (.error e, db1)
          | (.ok true, db1) => (.ok "backup", db1)
          | (.ok false, db1) => (.error "invalid verification code", db1)
        else (.error "invalid verification code", db) := by
    intro h
    unfold validateTwoFactorCode
    simp only [hsecret]
    rcases h with h | h
    · simp only [h, ne_eq, not_true_eq_false, decide_False, Bool.false_and, Bool.false_eq_true,
        if_false]
    · simp only [h, Bool.and_false, Bool.false_eq_true, if_false]
  refine ⟨?_, ?_, ?_⟩
  · intro hc hv
    unfold validateTwoFactorCode
    simp only [hsecret, hc, hv, ne_eq, not_false_eq_true, decide_True, Bool.and_self, if_true]
  · intro h hb hsel hupd hex
    obtain ⟨row, hrow, huid, hunused, hmatch, hcons⟩ :=
      ConsumeBackupCode_match L db now userID (TrimSpace backupCode) hsel hupd hex
    have hres : validateTwoFactorCode L env db now userID code backupCode =
        (.ok "backup", { db with backupCodes := db.backupCodes.map (fun r =>
          if r.id = row.id then { r with used := true, used_at := some now } else r) }) := by
      rw [hno h, if_pos hb, hcons]
    refine ⟨row, hrow, huid, hunused, hmatch, hres, ?_⟩
    intro hids
    rw [hres]
    exact mark_count now row db.backupCodes hrow hunused hids
  · intro h hb
    rw [hno h]
    rcases hb with hb | ⟨hsel, hspent⟩
    · rw [if_neg (not_not.mpr hb)]
    · by_cases hblank : TrimSpace backupCode = ""
      · rw [if_neg (not_not.mpr hblank)]
      · rw [if_pos hblank, ConsumeBackupCode_spent L db now userID _ hsel hspent]

set_option maxRecDepth 100000 in
/-- Witness of `validateTwoFactorCode_paths`: `root` submits a valid TOTP code
together with a valid backup code; the method is "totp" and no code is
marked. -/
theorem validateTwoFactorCode_paths_witness :
    loadTwoFASecret refLib exampleEnv exampleDBWithCodes 1 = .ok "JBSWY3DPEHPK3PXP" ∧
    validateTwoFactorCode refLib exampleEnv exampleDBWithCodes 1751695800 1 "619585"
      "3Z23Z9AB" = (.ok "totp", exampleDBWithCodes) :=
  ⟨by decide!,
   (validateTwoFactorCode_paths refLib exampleEnv exampleDBWithCodes 1751695800 1 "619585"
      "3Z23Z9AB" "JBSWY3DPEHPK3PXP" (by decide!)).1 (by decide) (by decide!)⟩

/-! ## Attempt log of the login challenge -/

/-- The loop fails only with the storage error. -/
theorem consumeLoop_error (L : Lib) (d : Database) (now : Int) (c : String)
    (codes : List TwoFABackupCode) (e : String)
    (h : (consumeLoop L d now c codes).1 = .error e) : e = "sql: statement failed" := by
  induction codes with
  | nil => cases h
  | cons a rest ih =>
    unfold consumeLoop at h
    split_ifs at h
    all_goals first
      | exact ih h
      | (simp only [Except.error.injEq] at h; exact h.symm)

/-- A code validation returns the method "totp" or "backup", or a non-empty
error text. -/
theorem validateTwoFactorCode_result (L : Lib) (env : Env) (db : Database) (now userID : Int)
    (code backupCode : String) :
    (∀ m, (validateTwoFactorCode L env db now userID code backupCode).1 = .ok m →
      m = "totp" ∨ m = "backup") ∧
    (∀ e, (validateTwoFactorCode L env db now userID code backupCode).1 = .error e →
      e = "2FA secret unavailable" ∨ e = "invalid verification code" ∨
        e = "sql: statement failed") := by
  have hcons : ∀ e, (db.ConsumeBackupCode L now userID (TrimSpace backupCode)).1 = .error e →
      e = "sql: statement failed" := by
    intro e he
    unfold Database.ConsumeBackupCode at he
    cases hg : db.GetBackupCodes userID with
    | error e1 =>
      rw [hg] at he
      unfold Database.GetBackupCodes at hg
      split_ifs at hg
      cases hg
      cases he
      rfl
    | ok codes =>
      rw [hg] at he
      exact consumeLoop_error L db now _ codes e he
  unfold validateTwoFactorCode
  cases loadTwoFASecret L env db userID with
  | error e0 =>
    constructor
    · intro m h
      simp only [reduceCtorEq] at h
    · intro e h
      simp only [Except.error.injEq] at h
      exact Or.inl h.symm
  | ok secret =>
    dsimp only
    split_ifs
    · constructor
      · intro m h
        simp only [Except.ok.injEq] at h
        exact Or.inl h.symm
      · intro e h
        simp only [reduceCtorEq] at h
    · rcases hc : db.ConsumeBackupCode L now userID (TrimSpace backupCode) with ⟨res, db1⟩
      rw [hc] at hcons
      cases res with
      | error e1 =>
        constructor
        · intro m h
          simp only [reduceCtorEq] at h
        · intro e h
          simp only [Except.error.injEq] at h
          subst h
          exact Or.inr (Or.inr (hcons _ rfl))
      | ok b =>
        cases b
        · constructor
          · intro m h
            simp only [reduceCtorEq] at h
          · intro e h
            simp only [Except.error.injEq] at h
            exact Or.inr (Or.inl h.symm)
        · constructor
          · intro m h
            simp only [Except.ok.injEq] at h
            exact Or.inr h.symm
          · intro e h
            simp only [reduceCtorEq] at h
    · constructor
      · intro m h
        simp only [reduceCtorEq] at h
      · intro e h
        simp only [Except.error.injEq] at h
        exact Or.inr (Or.inl h.symm)

/-- A code validation leaves the attempt log and the failing statements as
they were. -/
theorem validateTwoFactorCode_frame (L : Lib) (env : Env) (db : Database) (now userID : Int)
    (code backupCode : String) :
    (validateTwoFactorCode L env db now userID code backupCode).2.twofaLogs = db.twofaLogs ∧
    (validateTwoFactorCode L env db now userID code backupCode).2.fails = db.fails ∧
    (validateTwoFactorCode L env db now userID code backupCode).2.users = db.users := by
  have hcons := ConsumeBackupCode_shape L db now userID (TrimSpace backupCode)
  unfold validateTwoFactorCode
  cases loadTwoFASecret L env db userID with
  | error e0 => exact ⟨rfl, rfl, rfl⟩
  | ok secret =>
    dsimp only
    split_ifs
    · exact ⟨rfl, rfl, rfl⟩
    · rcases hc : db.ConsumeBackupCode L now userID (TrimSpace backupCode) with ⟨res, db1⟩
      rw [hc] at hcons
      have hdb1 : db1.twofaLogs = db.twofaLogs ∧ db1.fails = db.fails ∧ db1.users = db.users := by
        rcases hcons with h | ⟨id, h⟩
        · simp only at h
          subst h
          exact ⟨rfl, rfl, rfl⟩
        · simp only at h
          subst h
          exact ⟨rfl, rfl, rfl⟩
      cases res with
      | error e1 => exact hdb1
      | ok b => cases b <;> exact hdb1
    · exact ⟨rfl, rfl, rfl⟩

/-- An attempt whose insert succeeds appends one row. -/
theorem logTwoFAAttempt_append (db : Database) (now userID : Int) (ip event method : String)
    (success : Bool) (message : String) (hins : db.fails .insertTwoFALog = false) :
    (logTwoFAAttempt db now userID ip event method success message).twofaLogs =
      db.twofaLogs ++ [⟨userID, ip, event, method, success, message, now⟩] := by
  unfold logTwoFAAttempt Database.LogTwoFAAttempt
  simp only [hins, Bool.false_eq_true, if_false]

/-- Logging an administrative action leaves the attempt log and the failing
statements as they were. -/
theorem LogAdminAction_frame (d : Database) (now : Int) (userID : Option Int)
    (action details ip : String) :
    (d.LogAdminAction now userID action details ip).twofaLogs = d.twofaLogs ∧
    (d.LogAdminAction now userID action details ip).fails = d.fails := by
  unfold Database.LogAdminAction
  split_ifs <;> exact ⟨rfl, rfl⟩

set_option maxRecDepth 100000 in
/-- Claim C18 as stated fails for an attempt that fails code validation: `root`
answers the login challenge with the wrong code `000000`; one entry is
appended to the attempt log and its method is empty. -/
theorem VerifyTwoFA_empty_method_counterexample :
    (VerifyTwoFA refLib exampleEnv exampleDB 1751696050
      (exampleChallenge "000000" "")).resp.Status = 401 ∧
    (VerifyTwoFA refLib exampleEnv exampleDB 1751696050
      (exampleChallenge "000000" "")).db.twofaLogs =
      exampleDB.twofaLogs ++
        [⟨1, "10.0.0.9", "login", "", false, "invalid verification code", 1751696050⟩] :=
  ⟨by decide!, by decide!⟩

/-- Claim C18, amended: every login-challenge attempt that gets past the token
and user checks of `VerifyTwoFA` appends exactly one attempt-log entry, the
insert into the log and the signing of the session token succeeding.  The
entry carries a non-empty reason.  Its method is "totp" when the attempt is
rate-limited, the method that validated ("totp" or "backup") when the attempt
succeeds, and empty when the attempt fails code validation, the reason then
being the validation error.  The token checked is the one `extractToken`
finds: the bearer of `Authorization`, else the header `X-2FA-Token`, else the
token of the body. -/
theorem VerifyTwoFA_logs_attempt (L : Lib) (env : Env) (db : Database) (now : Int)
    (r : Request) (req : TwoFAVerifyRequest) (claims : Claims) (user : User) (tok : String)
    (hbody : r.Body = some req) (htok : extractToken L r req.TempToken ≠ "")
    (hval : ValidateToken L env now (extractToken L r req.TempToken) = .ok claims)
    (htfv : claims.TwoFactorVerified = false) (huser : db.GetUserByID claims.UserID = .ok user)
    (hact : user.IsActive = true) (hins : db.fails .insertTwoFALog = false)
    (hsign : GenerateToken L env now user.ID user.Username user.IsAdmin true = .ok tok) :
    ∃ entry : TwoFALogRow,
      (VerifyTwoFA L env db now r).db.twofaLogs = db.twofaLogs ++ [entry] ∧
      entry.user_id = user.ID ∧ entry.ip_address = getRequestIP L r ∧ entry.event = "login" ∧
      entry.created_at = now ∧ entry.message ≠ "" ∧
      ((isRateLimited db now user.ID (getRequestIP L r) = true ∧
          (VerifyTwoFA L env db now r).resp.Status = 429 ∧ entry.success = false ∧
          entry.method = "totp" ∧ entry.message = "Rate limit exceeded") ∨
       (isRateLimited db now user.ID (getRequestIP L r) = false ∧
          (∃ e, (validateTwoFactorCode L env db now user.ID req.Code req.BackupCode).1 =
            .error e ∧ entry.message = e) ∧
          (VerifyTwoFA L env db now r).resp.Status = 401 ∧ entry.success = false ∧
          entry.method = "") ∨
       (isRateLimited db now user.ID (getRequestIP L r) = false ∧
          (validateTwoFactorCode L env db now user.ID req.Code req.BackupCode).1 =
            .ok entry.method ∧
          (VerifyTwoFA L env db now r).resp.Status = 200 ∧ entry.success = true ∧
          (entry.method = "totp" ∨ entry.method = "backup") ∧
          entry.message = "2FA challenge passed")) := by
  have hres := validateTwoFactorCode_result L env db now user.ID req.Code req.BackupCode
  have hframe := validateTwoFactorCode_frame L env db now user.ID req.Code req.BackupCode
  by_cases hlim : isRateLimited db now user.ID (getRequestIP L r) = true
  · have h := VerifyTwoFA_limited L env db now r req claims user _ hbody htok hval htfv huser
      hact rfl hlim
    rw [h]
    refine ⟨⟨user.ID, getRequestIP L r, "login", "totp", false, "Rate limit exceeded", now⟩,
      logTwoFAAttempt_append db now _ _ _ _ _ _ hins, rfl, rfl, rfl, rfl,
      (by decide : ("Rate limit exceeded" : String) ≠ ""),
      Or.inl ⟨hlim, rfl, rfl, rfl, rfl⟩⟩
  · have hlim2 : isRateLimited db now user.ID (getRequestIP L r) = false := by
      simpa using hlim
    rcases hv : validateTwoFactorCode L env db now user.ID req.Code req.BackupCode with
      ⟨res, db1⟩
    rw [hv] at hres hframe
    simp only at hres hframe
    cases res with
    | error e =>
      have h : VerifyTwoFA L env db now r =
          { resp := respondWithError 401 "Invalid authentication code"
            db := logTwoFAAttempt db1 now user.ID (getRequestIP L r) "login" "" false e } := by
        unfold VerifyTwoFA
        simp only [hbody, if_neg htok, hval, htfv, huser, hact, hlim2, hv, Bool.false_eq_true,
          if_false, Bool.not_true]
      rw [h]
      have hne : e ≠ "" := by
        rcases hres.2 e rfl with h1 | h1 | h1 <;> rw [h1] <;> decide
      refine ⟨⟨user.ID, getRequestIP L r, "login", "", false, e, now⟩, ?_, rfl, rfl, rfl, rfl,
        hne, Or.inr (Or.inl ⟨hlim2, ⟨e, rfl, rfl⟩, rfl, rfl, rfl⟩)⟩
      rw [logTwoFAAttempt_append db1 now _ _ _ _ _ _ (by rw [hframe.2.1]; exact hins),
        hframe.1]
    | ok m =>
      have h : VerifyTwoFA L env db now r =
          { resp := respondWithJSON 200
              (.twoFAVerify tok (some user) "Two-factor verification successful" [])
            db := logTwoFAAttempt
              (if user.IsAdmin then
                db1.LogAdminAction now (some user.ID) "LOGIN_SUCCESS"
                  ("Admin login via 2FA (" ++ m ++ ")") (getRequestIP L r)
              else db1) now user.ID (getRequestIP L r) "login" m true
              "2FA challenge passed" } := by
        unfold VerifyTwoFA
        simp only [hbody, if_neg htok, hval, htfv, huser, hact, hlim2, hv, hsign,
          Bool.false_eq_true, if_false, Bool.not_true]
      rw [h]
      have hdb2 : (if user.IsAdmin then
            db1.LogAdminAction now (some user.ID) "LOGIN_SUCCESS"
              ("Admin login via 2FA (" ++ m ++ ")") (getRequestIP L r)
          else db1).twofaLogs = db.twofaLogs ∧
          (if user.IsAdmin then
            db1.LogAdminAction now (some user.ID) "LOGIN_SUCCESS"
              ("Admin login via 2FA (" ++ m ++ ")") (getRequestIP L r)
          else db1).fails = db.fails := by
        split_ifs
        · have := LogAdminAction_frame db1 now (some user.ID) "LOGIN_SUCCESS"
            ("Admin login via 2FA (" ++ m ++ ")") (getRequestIP L r)
          exact ⟨this.1.trans hframe.1, this.2.trans hframe.2.1⟩
        · exact ⟨hframe.1, hframe.2.1⟩
      refine ⟨⟨user.ID, getRequestIP L r, "login", m, true, "2FA challenge passed", now⟩, ?_,
        rfl, rfl, rfl, rfl, (by decide : ("2FA challenge passed" : String) ≠ ""),
        Or.inr (Or.inr ⟨hlim2, rfl, rfl, rfl, hres.1 m rfl, rfl⟩)⟩
      rw [logTwoFAAttempt_append _ now _ _ _ _ _ _ (by rw [hdb2.2]; exact hins), hdb2.1]

set_option maxRecDepth 100000 in
/-- Witness of `VerifyTwoFA_logs_attempt`: `root` answers the login challenge
with the wrong code `000000` and the attempt is logged, with the temp token as
bearer and with the temp token in the header `X-2FA-Token` (the body then
holding another token). -/
theorem VerifyTwoFA_logs_attempt_witness :
    (∃ entry : TwoFALogRow,
      (VerifyTwoFA refLib exampleEnv exampleDB 1751696050
        (exampleChallenge "000000" "")).db.twofaLogs = exampleDB.twofaLogs ++ [entry] ∧
      entry.message ≠ "") ∧
    (∃ entry : TwoFALogRow,
      (VerifyTwoFA refLib exampleEnv exampleDB 1751696050
        (exampleHeaderChallenge "temp.root" "session.root" "000000")).db.twofaLogs =
        exampleDB.twofaLogs ++ [entry] ∧
      entry.message ≠ "") :=
  let ⟨entry, h1, _, _, _, _, h2, _⟩ :=
    VerifyTwoFA_logs_attempt refLib exampleEnv exampleDB 1751696050
      (exampleChallenge "000000" "") { Code := "000000", BackupCode := "", TempToken := "" }
      ⟨1, "root", true, false, some 1751696100, some 1751695800⟩
      (UserRow.toUser ⟨1, "root", "$2a$10$toor", "", "", true, true, "default", true,
        some "BwcHBwcHBwcHBwcHTUVUUF40Q1dCT1dMNFdfV2WnIh0IWGQcP9N+Wa2JxDE=", 0, 0⟩)
      "signed.full.root.s3cret" rfl (by decide) (by decide) rfl (by decide) rfl rfl (by decide)
  let ⟨entry2, h3, _, _, _, _, h4, _⟩ :=
    VerifyTwoFA_logs_attempt refLib exampleEnv exampleDB 1751696050
      (exampleHeaderChallenge "temp.root" "session.root" "000000")
      { Code := "000000", BackupCode := "", TempToken := "session.root" }
      ⟨1, "root", true, false, some 1751696100, some 1751695800⟩
      (UserRow.toUser ⟨1, "root", "$2a$10$toor", "", "", true, true, "default", true,
        some "BwcHBwcHBwcHBwcHTUVUUF40Q1dCT1dMNFdfV2WnIh0IWGQcP9N+Wa2JxDE=", 0, 0⟩)
      "signed.full.root.s3cret" rfl (by decide) (by decide) rfl (by decide) rfl rfl (by decide)
  ⟨⟨entry, h1, h2⟩, ⟨entry2, h3, h4⟩⟩

/-! ## Issuance of session tokens -/

/-- The loop reports a use only for an unused code that matches. -/
theorem consumeLoop_ok_true (L : Lib) (d : Database) (now : Int) (c : String)
    (codes : List TwoFABackupCode) (h : (consumeLoop L d now c codes).1 = .ok true) :
    ∃ e ∈ codes, e.Used = false ∧ L.bcryptCompare e.CodeHash c = true := by
  induction codes with
  | nil =>
    simp only [consumeLoop, Except.ok.injEq, Bool.false_eq_true] at h
  | cons a rest ih =>
    unfold consumeLoop at h
    by_cases hu : a.Used = true
    · rw [if_pos hu] at h
      obtain ⟨e, he, h1, h2⟩ := ih h
      exact ⟨e, List.mem_cons_of_mem _ he, h1, h2⟩
    · rw [if_neg hu] at h
      by_cases hm : L.bcryptCompare a.CodeHash c = true
      · exact ⟨a, List.mem_cons_self _ _, by simpa using hu, hm⟩
      · rw [if_neg hm] at h
        obtain ⟨e, he, h1, h2⟩ := ih h
        exact ⟨e, List.mem_cons_of_mem _ he, h1, h2⟩

/-- A code validation succeeds only on a code that is valid: the secret was
loaded and either the TOTP code verifies against it or the backup code matches
an unused stored code of the user. -/
theorem validateTwoFactorCode_ok (L : Lib) (env : Env) (db : Database) (now userID : Int)
    (code backupCode m : String)
    (h : (validateTwoFactorCode L env db now userID code backupCode).1 = .ok m) :
    ∃ secret, loadTwoFASecret L env db userID = .ok secret ∧
      ((m = "totp" ∧ TrimSpace code ≠ "" ∧ ValidateTOTP L secret (TrimSpace code) now = true) ∨
       (m = "backup" ∧ TrimSpace backupCode ≠ "" ∧
         ∃ row ∈ db.backupCodes, row.user_id = userID ∧ row.used = false ∧
           L.bcryptCompare row.code_hash (TrimSpace backupCode) = true)) := by
  unfold validateTwoFactorCode at h
  cases hs : loadTwoFASecret L env db userID with
  | error e0 =>
    rw [hs] at h
    simp only [reduceCtorEq] at h
  | ok secret =>
    rw [hs] at h
    refine ⟨secret, rfl, ?_⟩
    dsimp only at h
    split_ifs at h with h1 h2
    · simp only [Except.ok.injEq] at h
      simp only [ne_eq, Bool.and_eq_true, decide_eq_true_eq] at h1
      exact Or.inl ⟨h.symm, h1.1, h1.2⟩
    · rcases hc : db.ConsumeBackupCode L now userID (TrimSpace backupCode) with ⟨res, db1⟩
      rw [hc] at h
      cases res with
      | error e1 => simp only [reduceCtorEq] at h
      | ok b =>
        cases b
        · simp only [reduceCtorEq] at h
        · simp only [Except.ok.injEq] at h
          refine Or.inr ⟨h.symm, h2, ?_⟩
          unfold Database.ConsumeBackupCode at hc
          cases hg : db.GetBackupCodes userID with
          | error e2 =>
            rw [hg] at hc
            simp only [Prod.mk.injEq, reduceCtorEq, false_and] at hc
          | ok codes =>
            rw [hg] at hc
            have hc1 : (consumeLoop L db now (TrimSpace backupCode) codes).1 = .ok true :=
              congrArg Prod.fst hc
            obtain ⟨e, he, hu, hm⟩ := consumeLoop_ok_true L db now _ codes hc1
            obtain ⟨row, hrow, huid, rfl⟩ := (mem_GetBackupCodes db userID codes hg e).mp he
            exact ⟨row, hrow, huid, hu, hm⟩

/-- The full session token of the login challenge is issued only to the
active user named by a valid challenge token whose twoFactorVerified claim is
false, and only after a code validation succeeded. -/
theorem VerifyTwoFA_token (L : Lib) (env : Env) (db : Database) (now : Int) (r : Request)
    (tok : String) (u : Option User) (msg : String) (cs : List String)
    (h : (VerifyTwoFA L env db now r).resp.Body = .twoFAVerify tok u msg cs) :
    ∃ req user m tclaims, r.Body = some req ∧ u = some user ∧
      (validateTwoFactorCode L env db now user.ID req.Code req.BackupCode).1 = .ok m ∧
      GenerateToken L env now user.ID user.Username user.IsAdmin true = .ok tok ∧
      extractToken L r req.TempToken ≠ "" ∧
      ValidateToken L env now (extractToken L r req.TempToken) = .ok tclaims ∧
      tclaims.TwoFactorVerified = false ∧ db.GetUserByID tclaims.UserID = .ok user ∧
      user.IsActive = true := by
  unfold VerifyTwoFA at h
  cases hb : r.Body with
  | none =>
    rw [hb] at h
    simp only [respondWithError, respondWithJSON, reduceCtorEq] at h
  | some req =>
    rw [hb] at h
    dsimp only at h
    repeat' split at h
    all_goals first
      | (simp only [respondWithError, respondWithJSON, reduceCtorEq] at h; done)
      | skip
    all_goals
      rename_i htok _ tclaims hval htfv _ user huser hact _ _ m db1 hv _ t hsign _
      simp only [respondWithJSON, Payload.twoFAVerify.injEq] at h
      obtain ⟨h1, h2, _, _⟩ := h
      subst h1
      exact ⟨req, user, m, tclaims, rfl, h2.symm, by rw [hv], hsign, htok, hval,
        by simpa using htfv, huser, by simpa using hact⟩

/-- A login answers with a token only to an active admin whose password was
checked: a temp token when two-factor authentication is enabled, the full
session token when it is not. -/
theorem Login_token (L : Lib) (env : Env) (db : Database) (now : Int) (r : Request)
    (body : Option LoginRequest) (tok : String) (user : User) (msg : String) (req2fa : Bool)
    (temp : String)
    (h : (Login L env db now r body).resp.Body = .login tok user msg req2fa temp) :
    ∃ req, body = some req ∧ db.GetUserByUsername L req.Username = .ok user ∧
      user.IsActive = true ∧ CheckPasswordHash L req.Password user.PasswordHash = true ∧
      user.IsAdmin = true ∧
      ((user.TwoFAEnabled = true ∧ req2fa = true ∧ tok = "" ∧
          GenerateTempToken L env now user.ID user.Username user.IsAdmin = .ok temp) ∨
       (user.TwoFAEnabled = false ∧ req2fa = false ∧ temp = "" ∧
          GenerateToken L env now user.ID user.Username user.IsAdmin true = .ok tok)) := by
  unfold Login at h
  cases hb : body with
  | none =>
    rw [hb] at h
    simp only [respondWithError, respondWithJSON, reduceCtorEq] at h
  | some req =>
    rw [hb] at h
    dsimp only at h
    repeat' split at h
    all_goals first
      | (simp only [respondWithError, respondWithJSON, reduceCtorEq] at h; done)
      | skip
    · rename_i u hu hact hpw hadm h2fa _ t hgen
      simp only [respondWithJSON, Payload.login.injEq] at h
      obtain ⟨h1, h2, _, h4, h5⟩ := h
      subst h1 h2 h4 h5
      simp only [Bool.not_eq_true, Bool.not_eq_eq_eq_not, Bool.not_false, Bool.not_true,
        Bool.not_eq_false] at hact hpw hadm
      exact ⟨req, rfl, hu, hact, hpw, hadm, Or.inl ⟨h2fa, rfl, rfl, hgen⟩⟩
    all_goals
      rename_i u hu hact hpw hadm h2fa _ t hgen _
      simp only [respondWithJSON, Payload.login.injEq] at h
      obtain ⟨h1, h2, _, h4, h5⟩ := h
      subst h1 h2 h4 h5
      simp only [Bool.not_eq_true, Bool.not_eq_eq_eq_not, Bool.not_false, Bool.not_true,
        Bool.not_eq_false] at hact hpw hadm h2fa
      exact ⟨req, rfl, hu, hact, hpw, hadm, Or.inr ⟨h2fa, rfl, rfl, hgen⟩⟩

/-- The first administrator gets a full session token when no user exists
yet. -/
theorem InitSetup_token (L : Lib) (env : Env) (schema : UsersSchema) (salt : Bytes)
    (db : Database) (now : Int) (body : Option InitSetupRequest) (tok : String) (user : User)
    (msg : String) (req2fa : Bool) (temp : String)
    (h : (InitSetup L env schema salt db now body).resp.Body =
      .login tok user msg req2fa temp) :
    db.users = [] ∧ user.ID = schema.nextID ∧ user.IsAdmin = true ∧
      user.TwoFAEnabled = schema.twofa_enabled ∧ req2fa = false ∧ temp = "" ∧
      GenerateToken L env now user.ID user.Username user.IsAdmin true = .ok tok := by
  unfold InitSetup at h
  repeat' split at h
  all_goals first
    | (simp only [respondWithError, respondWithJSON, reduceCtorEq] at h; done)
    | skip
  dsimp only at h
  repeat' split at h
  all_goals first
    | (simp only [respondWithError, respondWithJSON, reduceCtorEq] at h; done)
    | skip
  rename_i _ valid hinit hvalid _ req _ _ hash _ _ u db1 hcreate _ t hgen
  simp only [respondWithJSON, Payload.login.injEq] at h
  obtain ⟨h1, h2, _, h4, h5⟩ := h
  subst h1 h2 h4 h5
  have husers : db.users = [] := by
    unfold Database.IsInitialized at hinit
    split_ifs at hinit
    simp only [Except.ok.injEq] at hinit
    subst hinit
    simp only [gt_iff_lt, Nat.cast_pos, decide_eq_true_eq, not_lt, Nat.le_zero_eq] at hvalid
    exact List.length_eq_zero.mp hvalid
  unfold Database.CreateUser at hcreate
  dsimp only at hcreate
  by_cases hfail : db.fails .insertUser = true
  · simp only [hfail, if_true, Prod.mk.injEq, reduceCtorEq, false_and] at hcreate
  · simp only [hfail, Bool.false_eq_true, if_false, if_true, Prod.mk.injEq,
      Except.ok.injEq] at hcreate
    obtain ⟨hu, _⟩ := hcreate
    subst hu
    exact ⟨husers, rfl, rfl, rfl, rfl, rfl, hgen⟩

set_option maxRecDepth 100000 in
/-- Claim C12 as stated fails for a login without two-factor authentication:
the admin `dave`, who has no secret stored, logs in with the password alone;
no code can be validated for `dave`, yet the full session token `Login` issues
carries a true twoFactorVerified claim. -/
theorem Login_unverified_counterexample :
    (Login refLib exampleEnv exampleDBDave 1751695800 (exampleRequest "POST" [] none)
      (some { Username := "dave", Password := "hunter2" })).resp =
      respondWithJSON 200 (.login "signed.full.dave.s3cret"
        (UserRow.toUser ⟨4, "dave", "$2a$10$hunter2", "", "", true, true, "default", false, none,
          0, 0⟩) "" false "") ∧
    GenerateToken refLib exampleEnv 1751695800 4 "dave" true true =
      .ok "signed.full.dave.s3cret" ∧
    ValidateToken refLib exampleEnv 1751695800 "signed.full.dave.s3cret" =
      .ok ⟨4, "dave", true, true, some 1751782200, some 1751695800⟩ ∧
    loadTwoFASecret refLib exampleEnv exampleDBDave 4 = .error "2FA secret missing" ∧
    (Login refLib exampleEnv exampleDBDave 1751695800 (exampleRequest "POST" [] none)
      (some { Username := "dave", Password := "hunter2" })).db.twofaLogs =
      exampleDBDave.twofaLogs :=
  ⟨by decide!, by decide!, by decide!, by decide!, by decide!⟩

/-- Claim C12, amended: every full session token issued by `Login`, `InitSetup`
or `VerifyTwoFA` carries a true twoFactorVerified claim.  `VerifyTwoFA` issues
it only after a 2FA code was validated: the stored secret was loaded and the
TOTP code verified against it, or the backup code matched an unused stored
code; it issues it to the active user named by the challenge token, which is
the bearer of `Authorization`, else the header `X-2FA-Token`, else the token
of the body, and is a valid token whose claim is false.  `Login` issues it, no code being validated, only to an admin whose
two-factor authentication is not enabled; when it is enabled `Login` issues a
temp token whose claim is false instead.  `InitSetup` issues it, no code being
validated, to the admin it creates when no user exists. -/
theorem fullToken_twoFactorVerified (L : Lib) (env : Env) (schema : UsersSchema) (salt : Bytes)
    (db : Database) (now : Int) (r : Request) (body : Option LoginRequest)
    (initBody : Option InitSetupRequest) :
    (∀ tok u msg cs, (VerifyTwoFA L env db now r).resp.Body = .twoFAVerify tok u msg cs →
      ∃ req user m secret claims, r.Body = some req ∧ u = some user ∧
        (validateTwoFactorCode L env db now user.ID req.Code req.BackupCode).1 = .ok m ∧
        loadTwoFASecret L env db user.ID = .ok secret ∧
        ((m = "totp" ∧ ValidateTOTP L secret (TrimSpace req.Code) now = true) ∨
         (m = "backup" ∧ ∃ row ∈ db.backupCodes, row.user_id = user.ID ∧ row.used = false ∧
            L.bcryptCompare row.code_hash (TrimSpace req.BackupCode) = true)) ∧
        claims.TwoFactorVerified = true ∧ claims.UserID = user.ID ∧
        L.SignedString claims (jwtSecret env) = .ok tok ∧
        ∃ tclaims, ValidateToken L env now (extractToken L r req.TempToken) = .ok tclaims ∧
          tclaims.TwoFactorVerified = false ∧ db.GetUserByID tclaims.UserID = .ok user ∧
          user.IsActive = true) ∧
    (∀ tok user msg req2fa temp,
      (Login L env db now r body).resp.Body = .login tok user msg req2fa temp →
      (user.TwoFAEnabled = true ∧ req2fa = true ∧ tok = "" ∧
        ∃ claims : Claims, claims.TwoFactorVerified = false ∧ claims.UserID = user.ID ∧
          L.SignedString claims (jwtSecret env) = .ok temp) ∨
      (user.TwoFAEnabled = false ∧ req2fa = false ∧ temp = "" ∧
        ∃ claims : Claims, claims.TwoFactorVerified = true ∧ claims.UserID = user.ID ∧
          L.SignedString claims (jwtSecret env) = .ok tok)) ∧
    (∀ tok user msg req2fa temp,
      (InitSetup L env schema salt db now initBody).resp.Body =
        .login tok user msg req2fa temp →
      db.users = [] ∧ req2fa = false ∧ temp = "" ∧
        ∃ claims : Claims, claims.TwoFactorVerified = true ∧ claims.UserID = user.ID ∧
          L.SignedString claims (jwtSecret env) = .ok tok) := by
  refine ⟨?_, ?_, ?_⟩
  · intro tok u msg cs h
    obtain ⟨req, user, m, tclaims, hb, hu, hv, hgen, _, hval, htfv, huser, hact⟩ :=
      VerifyTwoFA_token L env db now r tok u msg cs h
    obtain ⟨secret, hs, hcode⟩ :=
      validateTwoFactorCode_ok L env db now user.ID req.Code req.BackupCode m hv
    refine ⟨req, user, m, secret,
      ⟨user.ID, user.Username, user.IsAdmin, true, some (now + 24 * 3600), some now⟩,
      hb, hu, hv, hs, ?_, rfl, rfl, hgen, tclaims, hval, htfv, huser, hact⟩
    rcases hcode with ⟨h1, _, h3⟩ | ⟨h1, _, h3⟩
    · exact Or.inl ⟨h1, h3⟩
    · exact Or.inr ⟨h1, h3⟩
  · intro tok user msg req2fa temp h
    obtain ⟨req, _, _, _, _, _, hcase⟩ :=
      Login_token L env db now r body tok user msg req2fa temp h
    rcases hcase with ⟨h1, h2, h3, hgen⟩ | ⟨h1, h2, h3, hgen⟩
    · exact Or.inl ⟨h1, h2, h3,
        ⟨user.ID, user.Username, user.IsAdmin, false, some (now + 5 * 60), some now⟩,
        rfl, rfl, hgen⟩
    · exact Or.inr ⟨h1, h2, h3,
        ⟨user.ID, user.Username, user.IsAdmin, true, some (now + 24 * 3600), some now⟩,
        rfl, rfl, hgen⟩
  · intro tok user msg req2fa temp h
    obtain ⟨h1, _, _, _, h2, h3, hgen⟩ :=
      InitSetup_token L env schema salt db now initBody tok user msg req2fa temp h
    exact ⟨h1, h2, h3,
      ⟨user.ID, user.Username, user.IsAdmin, true, some (now + 24 * 3600), some now⟩,
      rfl, rfl, hgen⟩

set_option maxRecDepth 100000 in
/-- Witness of `fullToken_twoFactorVerified`: `root` passes the login challenge
with the TOTP code of the time step, the temp token in the header
`X-2FA-Token` and another token in the body, and receives the full session
token. -/
theorem fullToken_twoFactorVerified_witness :
    (VerifyTwoFA refLib exampleEnv exampleDB 1751696050
      (exampleHeaderChallenge "temp.root" "session.root" "113636")).resp.Status = 200 ∧
    ∃ claims tclaims : Claims, claims.TwoFactorVerified = true ∧ claims.UserID = 1 ∧
      refLib.SignedString claims (jwtSecret exampleEnv) = .ok "signed.full.root.s3cret" ∧
      ValidateToken refLib exampleEnv 1751696050 "temp.root" = .ok tclaims ∧
      tclaims.TwoFactorVerified = false :=
  let ⟨_, user, _, _, claims, _, hu, _, _, _, h1, h2, h3, tclaims, h4, h5, _⟩ :=
    (fullToken_twoFactorVerified refLib exampleEnv ⟨1, true, false⟩ [] exampleDB 1751696050
      (exampleHeaderChallenge "temp.root" "session.root" "113636") none none).1
      "signed.full.root.s3cret"
      (some (UserRow.toUser ⟨1, "root", "$2a$10$toor", "", "", true, true, "default", true,
        some "BwcHBwcHBwcHBwcHTUVUUF40Q1dCT1dMNFdfV2WnIh0IWGQcP9N+Wa2JxDE=", 0, 0⟩))
      "Two-factor verification successful" [] (by decide!)
  ⟨by decide!, claims, tclaims, h1, by rw [h2]; cases hu; rfl, h3, h4, h5⟩

/-! ## Transitions of the two-factor state -/

theorem KeepsTwoFA_refl (rows : List UserRow) : KeepsTwoFA rows rows := by
  unfold KeepsTwoFA
  induction rows with
  | nil => exact List.Forall₂.nil
  | cons a t ih => exact List.Forall₂.cons ⟨rfl, fun h => h, rfl⟩ ih

theorem KeepsTwoFA_enable (rows : List UserRow) (id : Int) :
    KeepsTwoFA rows (rows.map (fun r => if r.id = id then { r with twofa_enabled := true } else r)) := by
  unfold KeepsTwoFA
  induction rows with
  | nil => exact List.Forall₂.nil
  | cons a t ih =>
    refine List.Forall₂.cons ?_ ih
    by_cases h : a.id = id
    · simp only [h, if_true, implies_true, and_self]
    · simp only [h, if_false, imp_self, and_self]

theorem logTwoFAAttempt_users (db : Database) (now userID : Int) (ip event method : String)
    (success : Bool) (message : String) :
    (logTwoFAAttempt db now userID ip event method success message).users = db.users :=
  (logTwoFAAttempt_frame db now userID ip event method success message).1

theorem validateTwoFactorCode_users (L : Lib) (env : Env) (db : Database) (now userID : Int)
    (code backupCode : String) (res : Except String String) (db1 : Database)
    (h : validateTwoFactorCode L env db now userID code backupCode = (res, db1)) :
    db1.users = db.users := by
  have := (validateTwoFactorCode_frame L env db now userID code backupCode).2.2
  rw [h] at this
  exact this

theorem ReplaceBackupCodes_users (d : Database) (now userID : Int) (hashes : List String)
    (res : Except String Unit) (d1 : Database)
    (h : d.ReplaceBackupCodes now userID hashes = (res, d1)) : d1.users = d.users := by
  unfold Database.ReplaceBackupCodes at h
  split_ifs at h <;> (cases h; rfl)

theorem LogAdminAction_users (d : Database) (now : Int) (userID : Option Int)
    (action details ip : String) :
    (d.LogAdminAction now userID action details ip).users = d.users := by
  unfold Database.LogAdminAction
  split_ifs <;> rfl

/-- The login challenge leaves the table `users` as it was. -/
theorem VerifyTwoFA_users (L : Lib) (env : Env) (db : Database) (now : Int) (r : Request) :
    (VerifyTwoFA L env db now r).db.users = db.users := by
  unfold VerifyTwoFA
  dsimp only
  repeat' (first | split | dsimp only)
  all_goals first
    | rfl
    | (simp only [logTwoFAAttempt_users, LogAdminAction_users]; done)
    | exact validateTwoFactorCode_users _ _ _ _ _ _ _ _ _ (by assumption)
    | (simp only [logTwoFAAttempt_users, LogAdminAction_users]
       exact validateTwoFactorCode_users _ _ _ _ _ _ _ _ _ (by assumption))

/-- A regeneration of the backup codes leaves the table `users` as it was. -/
theorem RegenerateBackupCodes_users (L : Lib) (env : Env) (draw : Nat → Except String Bytes)
    (salt : Nat → Bytes) (db : Database) (now : Int) (r : Request) :
    (RegenerateBackupCodes L env draw salt db now r).db.users = db.users := by
  unfold RegenerateBackupCodes
  dsimp only
  repeat' (first | split | dsimp only)
  all_goals first
    | rfl
    | (simp only [logTwoFAAttempt_users]; done)
    | exact validateTwoFactorCode_users _ _ _ _ _ _ _ _ _ (by assumption)
    | exact (ReplaceBackupCodes_users _ _ _ _ _ _ (by assumption)).trans
        (validateTwoFactorCode_users _ _ _ _ _ _ _ _ _ (by assumption))
    | (simp only [logTwoFAAttempt_users]
       first
         | exact validateTwoFactorCode_users _ _ _ _ _ _ _ _ _ (by assumption)
         | exact (ReplaceBackupCodes_users _ _ _ _ _ _ (by assumption)).trans
             (validateTwoFactorCode_users _ _ _ _ _ _ _ _ _ (by assumption)))

theorem ClearTwoFAData_result (d : Database) (userID : Int) (res : Except String Unit)
    (d2 : Database) (h : d.ClearTwoFAData userID = (res, d2)) :
    d2.users = d.users ∨
    d2.users = d.users.map (fun r =>
      if r.id = userID then { r with twofa_secret := none, twofa_enabled := false } else r) := by
  unfold Database.ClearTwoFAData at h
  split_ifs at h
  · cases h
    exact Or.inl rfl
  · cases h
    exact Or.inr rfl

theorem SetTwoFAEnabled_result (d : Database) (userID : Int) (enabled : Bool)
    (res : Except String Unit) (d2 : Database) (h : d.SetTwoFAEnabled userID enabled = (res, d2)) :
    d2.users = d.users ∨
    d2.users = d.users.map (fun r =>
      if r.id = userID then { r with twofa_enabled := enabled } else r) := by
  unfold Database.SetTwoFAEnabled at h
  split_ifs at h
  · cases h
    exact Or.inl rfl
  · cases h
    exact Or.inr rfl

theorem StoreTwoFASecret_result (d : Database) (userID : Int) (enc : String)
    (res : Except String Unit) (d2 : Database) (h : d.StoreTwoFASecret userID enc = (res, d2)) :
    d2.users = d.users ∨
    d2.users = d.users.map (fun r =>
      if r.id = userID then { r with twofa_secret := some enc, twofa_enabled := false }
      else r) := by
  unfold Database.StoreTwoFASecret at h
  split_ifs at h
  · cases h
    exact Or.inl rfl
  · cases h
    exact Or.inr rfl

/-- A disable request changes the table `users` only after a code validation
succeeded, and then clears the secret and the flag of the caller. -/
theorem DisableTwoFA_users (L : Lib) (env : Env) (db : Database) (now : Int) (r : Request) :
    (DisableTwoFA L env db now r).db.users = db.users ∨
    ∃ user req m, r.ContextUser = some user ∧ r.Body = some req ∧
      (validateTwoFactorCode L env db now user.ID req.Code req.BackupCode).1 = .ok m ∧
      (DisableTwoFA L env db now r).db.users = db.users.map (fun row =>
        if row.id = user.ID then { row with twofa_secret := none, twofa_enabled := false }
        else row) := by
  unfold DisableTwoFA
  cases hctx : r.ContextUser with
  | none => exact Or.inl rfl
  | some user =>
    cases hbody : r.Body with
    | none => exact Or.inl rfl
    | some req =>
      dsimp only
      split_ifs with h1 h2
      · exact Or.inl rfl
      · exact Or.inl (logTwoFAAttempt_users _ _ _ _ _ _ _ _)
      · rcases hv : validateTwoFactorCode L env db now user.ID req.Code req.BackupCode with
          ⟨res, db1⟩
        have hu := validateTwoFactorCode_users L env db now user.ID req.Code req.BackupCode
          res db1 hv
        cases res with
        | error e =>
          dsimp only
          exact Or.inl (by rw [logTwoFAAttempt_users, hu])
        | ok m =>
          dsimp only
          rcases hc : db1.ClearTwoFAData user.ID with ⟨cres, db2⟩
          have hcl := ClearTwoFAData_result db1 user.ID cres db2 hc
          rw [hu] at hcl
          cases cres with
          | error e =>
            dsimp only
            rcases hcl with hcl | hcl
            · exact Or.inl hcl
            · exact Or.inr ⟨user, req, m, rfl, rfl, by rw [hv], hcl⟩
          | ok u =>
            dsimp only
            rw [logTwoFAAttempt_users]
            rcases hcl with hcl | hcl
            · exact Or.inl hcl
            · exact Or.inr ⟨user, req, m, rfl, rfl, by rw [hv], hcl⟩

/-- A verify-setup request changes the table `users` only after the TOTP code
verified against the stored secret, and then sets the flag of the caller. -/
theorem VerifySetupTwoFA_users (L : Lib) (env : Env) (draw : Nat → Except String Bytes)
    (salt : Nat → Bytes) (db : Database) (now : Int) (r : Request) :
    (VerifySetupTwoFA L env draw salt db now r).db.users = db.users ∨
    ∃ user req secret, r.ContextUser = some user ∧ r.Body = some req ∧
      loadTwoFASecret L env db user.ID = .ok secret ∧
      ValidateTOTP L secret req.Code now = true ∧
      (VerifySetupTwoFA L env draw salt db now r).db.users = db.users.map (fun row =>
        if row.id = user.ID then { row with twofa_enabled := true } else row) := by
  unfold VerifySetupTwoFA
  cases hctx : r.ContextUser with
  | none => exact Or.inl rfl
  | some user =>
    cases hbody : r.Body with
    | none => exact Or.inl rfl
    | some req =>
      dsimp only
      split_ifs with h1 h2
      · exact Or.inl rfl
      · exact Or.inl (logTwoFAAttempt_users _ _ _ _ _ _ _ _)
      · cases hs : loadTwoFASecret L env db user.ID with
        | error e => exact Or.inl rfl
        | ok secret =>
          dsimp only
          by_cases hv : ValidateTOTP L secret req.Code now = true
          · simp only [hv, Bool.not_true, Bool.false_eq_true, if_false]
            cases hg : GenerateBackupCodes draw backupCodesCount with
            | error e => exact Or.inl rfl
            | ok codes =>
              dsimp only
              cases hh : hashCodes L salt 0 codes with
              | error e => exact Or.inl rfl
              | ok hashes =>
                dsimp only
                rcases hr : db.ReplaceBackupCodes now user.ID hashes with ⟨rres, db1⟩
                have hu1 := ReplaceBackupCodes_users db now user.ID hashes rres db1 hr
                cases rres with
                | error e => exact Or.inl hu1
                | ok u1 =>
                  dsimp only
                  rcases he : db1.SetTwoFAEnabled user.ID true with ⟨eres, db2⟩
                  have hen := SetTwoFAEnabled_result db1 user.ID true eres db2 he
                  rw [hu1] at hen
                  cases eres with
                  | error e =>
                    dsimp only
                    rcases hen with hen | hen
                    · exact Or.inl hen
                    · exact Or.inr ⟨user, req, secret, rfl, rfl, hs, hv, hen⟩
                  | ok u2 =>
                    dsimp only
                    rw [logTwoFAAttempt_users]
                    rcases hen with hen | hen
                    · exact Or.inl hen
                    · exact Or.inr ⟨user, req, secret, rfl, rfl, hs, hv, hen⟩
          · simp only [hv, Bool.not_false, if_true]
            exact Or.inl (logTwoFAAttempt_users _ _ _ _ _ _ _ _)

/-- A setup request stores a fresh encrypted secret for the caller and resets
the flag, whatever the state of the caller. -/
theorem SetupTwoFA_users (L : Lib) (env : Env) (rnd draw : Nat → Except String Bytes)
    (db : Database) (now : Int) (r : Request) :
    (SetupTwoFA L env rnd draw db now r).db.users = db.users ∨
    ∃ user key secret enc, r.ContextUser = some user ∧
      GenerateKey L env rnd user.Username user.Email = .ok (key, secret) ∧
      EncryptSecret L env draw secret = .ok enc ∧
      (SetupTwoFA L env rnd draw db now r).db.users = db.users.map (fun row =>
        if row.id = user.ID then { row with twofa_secret := some enc, twofa_enabled := false }
        else row) := by
  unfold SetupTwoFA
  cases hctx : r.ContextUser with
  | none => exact Or.inl rfl
  | some user =>
    dsimp only
    cases hk : GenerateKey L env rnd user.Username user.Email with
    | error e => exact Or.inl rfl
    | ok ks =>
      obtain ⟨key, secret⟩ := ks
      dsimp only
      cases he : EncryptSecret L env draw secret with
      | error e => exact Or.inl rfl
      | ok enc =>
        dsimp only
        rcases hst : db.StoreTwoFASecret user.ID enc with ⟨sres, db1⟩
        have hs := StoreTwoFASecret_result db user.ID enc sres db1 hst
        cases sres with
        | error e =>
          dsimp only
          rcases hs with hs | hs
          · exact Or.inl hs
          · exact Or.inr ⟨user, key, secret, enc, rfl, hk, he, hs⟩
        | ok u =>
          dsimp only
          cases hq : GenerateQRCodeBase64 L key with
          | error e =>
            dsimp only
            rcases hs with hs | hs
            · exact Or.inl hs
            · exact Or.inr ⟨user, key, secret, enc, rfl, hk, he, hs⟩
          | ok qr =>
            dsimp only
            rw [logTwoFAAttempt_users]
            rcases hs with hs | hs
            · exact Or.inl hs
            · exact Or.inr ⟨user, key, secret, enc, rfl, hk, he, hs⟩

/-- A login leaves the table `users` as it was. -/
theorem Login_users (L : Lib) (env : Env) (db : Database) (now : Int) (r : Request)
    (body : Option LoginRequest) : (Login L env db now r body).db.users = db.users := by
  unfold Login
  dsimp only
  repeat' (first | split | dsimp only)
  all_goals first
    | rfl
    | simp only [logAuditEvent, LogAdminAction_users]

/-- The handlers other than `SetupTwoFA` and the two-factor state of a user.
`VerifySetupTwoFA`, the login challenge `VerifyTwoFA`, `Login` and
`RegenerateBackupCodes` take no user out of Enabled and replace no stored
secret.  `DisableTwoFA` does so only for its caller and only after a code
validation succeeded on a valid TOTP code or an unused backup code; it then
clears the secret and the flag.  `VerifySetupTwoFA` sets the flag of its caller
only after the TOTP code verified against the stored secret.  What
`SetupTwoFA` changes, if anything, is the row of its caller, where it stores a
fresh encrypted secret and sets the flag off. -/
theorem twoFA_transitions (L : Lib) (env : Env) (rnd draw : Nat → Except String Bytes)
    (salt : Nat → Bytes) (db : Database) (now : Int) (r : Request)
    (body : Option LoginRequest) :
    KeepsTwoFA db.users (VerifySetupTwoFA L env draw salt db now r).db.users ∧
    KeepsTwoFA db.users (VerifyTwoFA L env db now r).db.users ∧
    KeepsTwoFA db.users (Login L env db now r body).db.users ∧
    KeepsTwoFA db.users (RegenerateBackupCodes L env draw salt db now r).db.users ∧
    (KeepsTwoFA db.users (DisableTwoFA L env db now r).db.users ∨
      ∃ user req m secret, r.ContextUser = some user ∧ r.Body = some req ∧
        (validateTwoFactorCode L env db now user.ID req.Code req.BackupCode).1 = .ok m ∧
        loadTwoFASecret L env db user.ID = .ok secret ∧
        ((m = "totp" ∧ ValidateTOTP L secret (TrimSpace req.Code) now = true) ∨
         (m = "backup" ∧ ∃ row ∈ db.backupCodes, row.user_id = user.ID ∧ row.used = false ∧
            L.bcryptCompare row.code_hash (TrimSpace req.BackupCode) = true)) ∧
        (DisableTwoFA L env db now r).db.users = db.users.map (fun row =>
          if row.id = user.ID then { row with twofa_secret := none, twofa_enabled := false }
          else row)) ∧
    ((VerifySetupTwoFA L env draw salt db now r).db.users = db.users ∨
      ∃ user req secret, r.ContextUser = some user ∧ r.Body = some req ∧
        loadTwoFASecret L env db user.ID = .ok secret ∧
        ValidateTOTP L secret req.Code now = true ∧
        (VerifySetupTwoFA L env draw salt db now r).db.users = db.users.map (fun row =>
          if row.id = user.ID then { row with twofa_enabled := true } else row)) ∧
    ((SetupTwoFA L env rnd draw db now r).db.users = db.users ∨
      ∃ user key secret enc, r.ContextUser = some user ∧
        GenerateKey L env rnd user.Username user.Email = .ok (key, secret) ∧
        EncryptSecret L env draw secret = .ok enc ∧
        (SetupTwoFA L env rnd draw db now r).db.users = db.users.map (fun row =>
          if row.id = user.ID then
            { row with twofa_secret := some enc, twofa_enabled := false }
          else row)) := by
  refine ⟨?_, ?_, ?_, ?_, ?_, VerifySetupTwoFA_users L env draw salt db now r,
    SetupTwoFA_users L env rnd draw db now r⟩
  · rcases VerifySetupTwoFA_users L env draw salt db now r with h | ⟨user, _, _, _, _, _, _, h⟩
    · rw [h]
      exact KeepsTwoFA_refl _
    · rw [h]
      exact KeepsTwoFA_enable _ _
  · rw [VerifyTwoFA_users]
    exact KeepsTwoFA_refl _
  · rw [Login_users]
    exact KeepsTwoFA_refl _
  · rw [RegenerateBackupCodes_users]
    exact KeepsTwoFA_refl _
  · rcases DisableTwoFA_users L env db now r with h | ⟨user, req, m, hctx, hbody, hv, h⟩
    · rw [h]
      exact Or.inl (KeepsTwoFA_refl _)
    · obtain ⟨secret, hs, hcode⟩ :=
        validateTwoFactorCode_ok L env db now user.ID req.Code req.BackupCode m hv
      refine Or.inr ⟨user, req, m, secret, hctx, hbody, hv, hs, ?_, h⟩
      rcases hcode with ⟨h1, _, h3⟩ | ⟨h1, _, h3⟩
      · exact Or.inl ⟨h1, h3⟩
      · exact Or.inr ⟨h1, h3⟩

/-- Claim C13 on `SetupTwoFA`, as the code behaves.  For every authenticated
caller, whatever the two-factor state of the caller, Enabled included, when
the key generation, the encryption of the secret and the update of the row
succeed, `SetupTwoFA` leaves the row of the caller with the enabled flag off
and the fresh encrypted secret in place of the stored one, and every other row
as it was; the handler reads no code: the outcome on the table `users` is the
same whatever codes the request carries.  So a user leaves Enabled, and the
stored secret is replaced, by a request that presented no TOTP code and no
backup code, where `DisableTwoFA` and `RegenerateBackupCodes` demand a
validated code. -/
theorem SetupTwoFA_resets_enabled (L : Lib) (env : Env) (rnd draw : Nat → Except String Bytes)
    (db : Database) (now : Int) (r : Request) (user : User) (key secret enc : String)
    (hctx : r.ContextUser = some user)
    (hgen : GenerateKey L env rnd user.Username user.Email = .ok (key, secret))
    (henc : EncryptSecret L env draw secret = .ok enc)
    (hstore : db.fails .updateTwoFASecret = false) :
    (SetupTwoFA L env rnd draw db now r).db.users = db.users.map (fun row =>
      if row.id = user.ID then { row with twofa_secret := some enc, twofa_enabled := false }
      else row) ∧
    (∀ row ∈ (SetupTwoFA L env rnd draw db now r).db.users, row.id = user.ID →
      row.twofa_enabled = false ∧ row.twofa_secret = some enc) ∧
    (∀ code backup,
      (SetupTwoFA L env rnd draw db now (r.withCodes code backup)).db.users =
        (SetupTwoFA L env rnd draw db now r).db.users) := by
  have hres : ∀ r2 : Request, r2.ContextUser = some user →
      (SetupTwoFA L env rnd draw db now r2).db.users = db.users.map (fun row =>
        if row.id = user.ID then { row with twofa_secret := some enc, twofa_enabled := false }
        else row) := by
    intro r2 hc
    unfold SetupTwoFA
    simp only [hc, hgen, henc, Database.StoreTwoFASecret, hstore, Bool.false_eq_true, if_false]
    cases hq : GenerateQRCodeBase64 L key with
    | error e => rfl
    | ok qr =>
      dsimp only
      rw [logTwoFAAttempt_users]
  refine ⟨hres r hctx, ?_, ?_⟩
  · intro row hrow hid
    rw [hres r hctx] at hrow
    obtain ⟨row0, _, h0⟩ := List.mem_map.mp hrow
    by_cases h1 : row0.id = user.ID
    · rw [if_pos h1] at h0
      subst h0
      exact ⟨rfl, rfl⟩
    · rw [if_neg h1] at h0
      subst h0
      exact absurd hid h1
  · intro code backup
    rw [hres r hctx, hres (r.withCodes code backup) (by simp [Request.withCodes, hctx])]

set_option maxRecDepth 100000 in
/-- Witness of `SetupTwoFA_resets_enabled`: `root` has two-factor
authentication enabled; after `SetupTwoFA`, which asks for no code, the
request is answered 200, the enabled flag of `root` is off and the stored
secret is another one. -/
theorem SetupTwoFA_resets_enabled_witness :
    exampleDB.users.map (fun row => (row.id, row.twofa_enabled, row.twofa_secret)) =
      [(1, true, some "BwcHBwcHBwcHBwcHTUVUUF40Q1dCT1dMNFdfV2WnIh0IWGQcP9N+Wa2JxDE="),
       (2, false, none), (3, false, none)] ∧
    exampleSetup.Body = none ∧
    (SetupTwoFA refLib exampleEnv (fun n => .ok (List.replicate n 1))
      (fun n => .ok (List.replicate n 7)) exampleDB 1751695800 exampleSetup).resp.Status = 200 ∧
    (SetupTwoFA refLib exampleEnv (fun n => .ok (List.replicate n 1))
      (fun n => .ok (List.replicate n 7)) exampleDB 1751695800 exampleSetup).db.users.map
        (fun row => (row.id, row.twofa_enabled, row.twofa_secret)) =
      [(1, false,
          some "BwcHBwcHBwcHBwcHRkJGVkRGTkVGQkZWREZORUZCRlZERk5FRkXmsQuL9iSwDyevEnQRiwQTLpeUD9j/"),
       (2, false, none), (3, false, none)] :=
  ⟨by decide!, rfl, by decide!, by
    rw [(SetupTwoFA_resets_enabled refLib exampleEnv (fun n => .ok (List.replicate n 1))
      (fun n => .ok (List.replicate n 7)) exampleDB 1751695800 exampleSetup
      (UserRow.toUser ⟨1, "root", "$2a$10$toor", "", "", true, true, "default", true,
        some "BwcHBwcHBwcHBwcHTUVUUF40Q1dCT1dMNFdfV2WnIh0IWGQcP9N+Wa2JxDE=", 0, 0⟩)
      "otpauth://totp/MyApp:root?secret=AEAQCAIBAEAQCAIBAEAQCAIBAEAQCAIB&issuer=MyApp"
      "AEAQCAIBAEAQCAIBAEAQCAIBAEAQCAIB"
      "BwcHBwcHBwcHBwcHRkJGVkRGTkVGQkZWREZORUZCRlZERk5FRkXmsQuL9iSwDyevEnQRiwQTLpeUD9j/"
      rfl (by decide!) (by decide!) rfl).1]
    decide!⟩

/-! ## Bearer tokens and the persistence state -/

/-- Claim C27: on the Bearer path the outcome of `authenticateRequest` does not
depend on the persistence state: for every token and any two databases (the
user deleted, deactivated or promoted to admin in one of them) the result is
the same, namely what `ValidateToken` makes of the token under the signing
secret, an admin claim being refused. -/
theorem authenticateRequest_bearer_stateless (L : Lib) (env : Env) (db1 db2 : Database)
    (now : Int) (r : Request) (token : String)
    (hdr : r.Header.Get "Proxy-Authorization" = "Bearer" ++ " " ++ token) :
    authenticateRequest L env db1 now r = authenticateRequest L env db2 now r ∧
    authenticateRequest L env db1 now r =
      match ValidateToken L env now token with
      | .error _ => .error "invalid token"
      | .ok claims =>
        if claims.IsAdmin then .error "admin accounts cannot use proxy" else .ok claims := by
  rw [authenticateRequest_bearer L env db1 now r token hdr,
    authenticateRequest_bearer L env db2 now r token hdr]
  exact ⟨rfl, rfl⟩

set_option maxRecDepth 100000 in
/-- Witness of `authenticateRequest_bearer_stateless`: the session token of
`alice` is accepted alike with `alice` stored and with the table `users`
empty. -/
theorem authenticateRequest_bearer_stateless_witness :
    authenticateRequest refLib exampleEnv exampleDB 1751695900
      (exampleRequest "GET" [("Proxy-Authorization", ["Bearer session.alice"])] none) =
    authenticateRequest refLib exampleEnv { exampleDB with users := [] } 1751695900
      (exampleRequest "GET" [("Proxy-Authorization", ["Bearer session.alice"])] none) ∧
    authenticateRequest refLib exampleEnv { exampleDB with users := [] } 1751695900
      (exampleRequest "GET" [("Proxy-Authorization", ["Bearer session.alice"])] none) =
      .ok ⟨2, "alice", false, false, some 1751782200, some 1751695800⟩ :=
  ⟨(authenticateRequest_bearer_stateless refLib exampleEnv exampleDB
      { exampleDB with users := [] } 1751695900
      (exampleRequest "GET" [("Proxy-Authorization", ["Bearer session.alice"])] none)
      "session.alice" (by decide)).1,
   by decide!⟩

/-! ## The rate limit fails open -/

/-- Claim C30: `isRateLimited` returns true iff the windowed count query
succeeds and returns a count of at least 5; when the count query fails it
returns false, and the login challenge then proceeds to the validation of the
submitted code instead of answering 429. -/
theorem isRateLimited_iff (L : Lib) (env : Env) (db : Database) (now userID : Int)
    (ip : String) :
    (isRateLimited db now userID ip = true ↔
      ∃ n, db.CountRecentTwoFAAttempts now userID ip twoFARateLimitWindow = .ok n ∧ 5 ≤ n) ∧
    (∀ e, db.CountRecentTwoFAAttempts now userID ip twoFARateLimitWindow = .error e →
      isRateLimited db now userID ip = false) ∧
    (db.fails .countTwoFALogs = true →
      (∃ e, db.CountRecentTwoFAAttempts now userID ip twoFARateLimitWindow = .error e) ∧
      isRateLimited db now userID ip = false) ∧
    (∀ (r : Request) (req : TwoFAVerifyRequest) (claims : Claims) (user : User),
      db.fails .countTwoFALogs = true →
      r.Body = some req → extractToken L r req.TempToken ≠ "" →
      ValidateToken L env now (extractToken L r req.TempToken) = .ok claims →
      claims.TwoFactorVerified = false → db.GetUserByID claims.UserID = .ok user →
      user.IsActive = true →
      (VerifyTwoFA L env db now r).resp.Status ≠ 429 ∧
      VerifyTwoFA L env db now r =
        match validateTwoFactorCode L env db now user.ID req.Code req.BackupCode with
        | (.error e, db1) =>
          { resp := respondWithError 401 "Invalid authentication code"
            db := logTwoFAAttempt db1 now user.ID (getRequestIP L r) "login" "" false e }
        | (.ok method, db1) =>
          match GenerateToken L env now user.ID user.Username user.IsAdmin true with
          | .error _ =>
            { resp := respondWithError 500 "Failed to generate token", db := db1 }
          | .ok tokenResp =>
            { resp := respondWithJSON 200
                (.twoFAVerify tokenResp (some user) "Two-factor verification successful" [])
              db := logTwoFAAttempt
                (if user.IsAdmin then
                  db1.LogAdminAction now (some user.ID) "LOGIN_SUCCESS"
                    ("Admin login via 2FA (" ++ method ++ ")") (getRequestIP L r)
                else db1) now user.ID (getRequestIP L r) "login" method true
                "2FA challenge passed" }) := by
  have hfail : ∀ uid ip0, db.fails .countTwoFALogs = true →
      (∃ e, db.CountRecentTwoFAAttempts now uid ip0 twoFARateLimitWindow = .error e) ∧
      isRateLimited db now uid ip0 = false := by
    intro uid ip0 h
    unfold isRateLimited Database.CountRecentTwoFAAttempts
    simp only [h, if_true]
    exact ⟨⟨_, rfl⟩, trivial⟩
  refine ⟨?_, ?_, hfail userID ip, ?_⟩
  · unfold isRateLimited
    cases db.CountRecentTwoFAAttempts now userID ip twoFARateLimitWindow with
    | error e => simp
    | ok n => simp [twoFARateLimitAttempts]
  · intro e he
    unfold isRateLimited
    rw [he]
  · intro r req claims user hf hbody htok hval htfv huser hact
    have hlim := (hfail user.ID (getRequestIP L r) hf).2
    have heq : VerifyTwoFA L env db now r =
        match validateTwoFactorCode L env db now user.ID req.Code req.BackupCode with
        | (.error e, db1) =>
          { resp := respondWithError 401 "Invalid authentication code"
            db := logTwoFAAttempt db1 now user.ID (getRequestIP L r) "login" "" false e }
        | (.ok method, db1) =>
          match GenerateToken L env now user.ID user.Username user.IsAdmin true with
          | .error _ =>
            { resp := respondWithError 500 "Failed to generate token", db := db1 }
          | .ok tokenResp =>
            { resp := respondWithJSON 200
                (.twoFAVerify tokenResp (some user) "Two-factor verification successful" [])
              db := logTwoFAAttempt
                (if user.IsAdmin then
                  db1.LogAdminAction now (some user.ID) "LOGIN_SUCCESS"
                    ("Admin login via 2FA (" ++ method ++ ")") (getRequestIP L r)
                else db1) now user.ID (getRequestIP L r) "login" method true
                "2FA challenge passed" } := by
      unfold VerifyTwoFA
      simp only [hbody, if_neg htok, hval, htfv, huser, hact, hlim, Bool.false_eq_true,
        if_false, Bool.not_true]
    refine ⟨?_, heq⟩
    rw [heq]
    rcases validateTwoFactorCode L env db now user.ID req.Code req.BackupCode with ⟨res, db1⟩
    cases res with
    | error e => simp [respondWithError, respondWithJSON]
    | ok m =>
      dsimp only
      cases GenerateToken L env now user.ID user.Username user.IsAdmin true with
      | error e => simp [respondWithError, respondWithJSON]
      | ok t => simp [respondWithJSON]

set_option maxRecDepth 100000 in
/-- Witness of `isRateLimited_iff`: with five recent attempts logged and the
count query failing, the limit is not applied. -/
theorem isRateLimited_iff_witness :
    5 ≤ recentAttempts exampleDBCountDown 1751695800 1 "10.0.0.9" ∧
    isRateLimited exampleDBCountDown 1751695800 1 "10.0.0.9" = false :=
  ⟨by decide,
   ((isRateLimited_iff refLib exampleEnv exampleDBCountDown 1751695800 1 "10.0.0.9").2.2.1
     (by decide)).2⟩

/-! ## Accounting of proxied requests -/

/-- A request-log entry whose insert succeeds is appended; the traffic counters
stay. -/
theorem logRequest_append (db : Database) (now elapsedMs userID : Int) (method url : String)
    (statusCode bytesSent bytesReceived : Int) (hlog : db.fails .insertRequestLog = false) :
    (logRequest db now elapsedMs userID method url statusCode bytesSent bytesReceived).requestLogs =
      db.requestLogs ++
        [⟨some userID, method, url, statusCode, bytesSent, bytesReceived, elapsedMs, now⟩] ∧
    (logRequest db now elapsedMs userID method url statusCode bytesSent
      bytesReceived).trafficStats = db.trafficStats ∧
    (logRequest db now elapsedMs userID method url statusCode bytesSent bytesReceived).fails =
      db.fails := by
  unfold logRequest Database.LogRequest
  simp only [hlog, Bool.false_eq_true, if_false, and_self]

/-- A traffic upsert that succeeds runs once on the counters; the request log
stays. -/
theorem UpdateTrafficStats_upsert (db : Database) (now userID sent received : Int)
    (hups : db.fails .upsertTrafficStats = false) :
    (db.UpdateTrafficStats now userID sent received).2.trafficStats =
      upsertTraffic userID sent received (dateOf now) db.trafficStats ∧
    (db.UpdateTrafficStats now userID sent received).2.requestLogs = db.requestLogs := by
  unfold Database.UpdateTrafficStats
  simp only [hups, Bool.false_eq_true, if_false, and_self]

/-- The steps of `handleHTTP`, with the outbound request named. -/
theorem handleHTTP_steps (L : Lib) (net : Network) (db : Database) (now elapsedMs : Int)
    (r : Request) (claims : Claims) (prefs : UserProxySettings) :
    handleHTTP L net db now elapsedMs r claims prefs =
      match L.NewRequest r.Method r.URL with
      | .error _ =>
        { reply := .response (httpError [] "Failed to create upstream request" 502)
          db := logRequest db now elapsedMs claims.UserID r.Method r.URL 502 0 0
          net := [] }
      | .ok created =>
        if isHostAllowed L (some prefs) (extractHost L created.URLHost) = false then
          { reply := .response (httpError [] "Access to this host is not permitted" 403)
            db := logRequest db now elapsedMs claims.UserID r.Method r.URL 403 0 0
            net := [] }
        else
          match net.Do (forwardedRequest L r created) with
          | .error e =>
            { reply := .response (httpError [] e 502)
              db := logRequest db now elapsedMs claims.UserID r.Method r.URL 502 0 0
              net := [.roundTrip (forwardedRequest L r created)] }
          | .ok resp =>
            { reply := .response
                { Status := resp.StatusCode
                  Header := resp.Header.foldl
                    (fun w kv => kv.2.foldl (fun o v => o.Add kv.1 v) w) []
                  Body := .stream resp.BodyBytes }
              db := ((logRequest db now elapsedMs claims.UserID r.Method r.URL resp.StatusCode
                (if r.ContentLength > 0 then r.ContentLength else 0)
                resp.BodyBytes).UpdateTrafficStats now claims.UserID
                (if r.ContentLength > 0 then r.ContentLength else 0) resp.BodyBytes).2
              net := [.roundTrip (forwardedRequest L r created)] } := by
  unfold handleHTTP forwardedRequest
  cases L.NewRequest r.Method r.URL with
  | error e => rfl
  | ok created =>
    dsimp only
    by_cases h1 : created.URLScheme = "" <;> by_cases h2 : created.Host = "" <;>
      by_cases h3 : isHostAllowed L (some prefs) (extractHost L created.URLHost) = true <;>
      simp [h1, h2, h3]

set_option maxRecDepth 100000 in
/-- Claim C21 as stated fails for a request denied by the host policy: `alice`,
whose whitelist holds `example.com`, asks for `other.org`; every statement
succeeds, the request is answered 403, one request-log entry is appended and
the traffic counters are left as they were, without an upsert. -/
theorem handleProxy_denied_counterexample :
    (handleProxy refLib exampleEnv exampleNetwork exampleDB 1751695800 12
      { exampleRequest "GET" [("Proxy-Authorization", ["Basic YWxpY2U6c2VjcmV0"])] none with
        URL := "http://other.org/x" }).reply =
      .response (httpError [] "Access to this host is not permitted" 403) ∧
    (handleProxy refLib exampleEnv exampleNetwork exampleDB 1751695800 12
      { exampleRequest "GET" [("Proxy-Authorization", ["Basic YWxpY2U6c2VjcmV0"])] none with
        URL := "http://other.org/x" }).db.requestLogs =
      [⟨some 2, "GET", "http://other.org/x", 403, 0, 0, 12, 1751695800⟩] ∧
    (handleProxy refLib exampleEnv exampleNetwork exampleDB 1751695800 12
      { exampleRequest "GET" [("Proxy-Authorization", ["Basic YWxpY2U6c2VjcmV0"])] none with
        URL := "http://other.org/x" }).db.trafficStats = exampleDB.trafficStats ∧
    exampleDB.trafficStats = [] ∧
    (∀ s, exampleDB.fails s = false) :=
  ⟨by decide!, by decide!, by decide!, rfl, fun _ => rfl⟩

/-- Claim C21, amended: the inserts into `request_logs` and the upserts into
`traffic_stats` succeeding, every authenticated proxied request that completes
(an upstream response was forwarded, or a tunnel was established) appends
exactly one request-log entry for the authenticated user and performs exactly
one traffic-counter upsert keyed by the user and the current date; a request
denied by the host policy appends exactly one request-log entry, with status
403 and no bytes, and performs no upsert. -/
theorem proxy_accounting (L : Lib) (net : Network) (db : Database) (now elapsedMs : Int)
    (r : Request) (claims : Claims) (prefs : UserProxySettings)
    (hlog : db.fails .insertRequestLog = false)
    (hups : db.fails .upsertTrafficStats = false) :
    (∀ out resp, (handleHTTP L net db now elapsedMs r claims prefs).net = [.roundTrip out] →
      net.Do out = .ok resp →
      (handleHTTP L net db now elapsedMs r claims prefs).db.requestLogs =
        db.requestLogs ++
          [⟨some claims.UserID, r.Method, r.URL, resp.StatusCode,
            if r.ContentLength > 0 then r.ContentLength else 0, resp.BodyBytes, elapsedMs,
            now⟩] ∧
      (handleHTTP L net db now elapsedMs r claims prefs).db.trafficStats =
        upsertTraffic claims.UserID (if r.ContentLength > 0 then r.ContentLength else 0)
          resp.BodyBytes (dateOf now) db.trafficStats) ∧
    (∀ created, L.NewRequest r.Method r.URL = .ok created →
      isHostAllowed L (some prefs) (extractHost L created.URLHost) = false →
      (handleHTTP L net db now elapsedMs r claims prefs).reply =
        .response (httpError [] "Access to this host is not permitted" 403) ∧
      (handleHTTP L net db now elapsedMs r claims prefs).db.requestLogs =
        db.requestLogs ++ [⟨some claims.UserID, r.Method, r.URL, 403, 0, 0, elapsedMs, now⟩] ∧
      (handleHTTP L net db now elapsedMs r claims prefs).db.trafficStats = db.trafficStats) ∧
    (isHostAllowed L (some prefs) (extractHost L r.Host) = true →
      net.Dial r.Host = .ok () → net.Hijack = some (.ok ()) →
      (handleHTTPS L net db now elapsedMs r claims prefs).db.requestLogs =
        db.requestLogs ++
          [⟨some claims.UserID, r.Method, r.Host, 200, net.TunnelSent, net.TunnelReceived,
            elapsedMs, now⟩] ∧
      (handleHTTPS L net db now elapsedMs r claims prefs).db.trafficStats =
        upsertTraffic claims.UserID net.TunnelSent net.TunnelReceived (dateOf now)
          db.trafficStats) ∧
    (isHostAllowed L (some prefs) (extractHost L r.Host) = false →
      (handleHTTPS L net db now elapsedMs r claims prefs).reply =
        .response (httpError [] "Access to this host is not permitted" 403) ∧
      (handleHTTPS L net db now elapsedMs r claims prefs).db.requestLogs =
        db.requestLogs ++ [⟨some claims.UserID, r.Method, r.Host, 403, 0, 0, elapsedMs, now⟩] ∧
      (handleHTTPS L net db now elapsedMs r claims prefs).db.trafficStats = db.trafficStats) := by
  have hacc : ∀ (status sent received : Int) (url : String),
      ((logRequest db now elapsedMs claims.UserID r.Method url status sent
          received).UpdateTrafficStats now claims.UserID sent received).2.requestLogs =
        db.requestLogs ++
          [⟨some claims.UserID, r.Method, url, status, sent, received, elapsedMs, now⟩] ∧
      ((logRequest db now elapsedMs claims.UserID r.Method url status sent
          received).UpdateTrafficStats now claims.UserID sent received).2.trafficStats =
        upsertTraffic claims.UserID sent received (dateOf now) db.trafficStats := by
    intro status sent received url
    have h1 := logRequest_append db now elapsedMs claims.UserID r.Method url status sent
      received hlog
    have h2 := UpdateTrafficStats_upsert
      (logRequest db now elapsedMs claims.UserID r.Method url status sent received) now
      claims.UserID sent received (by rw [h1.2.2]; exact hups)
    exact ⟨h2.2.trans h1.1, by rw [h2.1, h1.2.1]⟩
  refine ⟨?_, ?_, ?_, ?_⟩
  · intro out resp hnet hdo
    rw [handleHTTP_steps] at hnet ⊢
    cases hreq : L.NewRequest r.Method r.URL with
    | error e =>
      rw [hreq] at hnet
      simp only [List.nil_eq, reduceCtorEq] at hnet
    | ok created =>
      rw [hreq] at hnet
      dsimp only at hnet ⊢
      by_cases hden : isHostAllowed L (some prefs) (extractHost L created.URLHost) = false
      · rw [if_pos hden] at hnet
        simp only [List.nil_eq, reduceCtorEq] at hnet
      · rw [if_neg hden] at hnet ⊢
        have hout : forwardedRequest L r created = out := by
          cases hd : net.Do (forwardedRequest L r created) with
          | error e =>
            rw [hd] at hnet
            simpa using hnet
          | ok resp1 =>
            rw [hd] at hnet
            simpa using hnet
        rw [hout, hdo]
        exact hacc _ _ _ _
  · intro created hreq hden
    rw [handleHTTP_steps, hreq]
    dsimp only
    rw [if_pos hden]
    have h1 := logRequest_append db now elapsedMs claims.UserID r.Method r.URL 403 0 0 hlog
    exact ⟨rfl, h1.1, h1.2.1⟩
  · intro hallow hdial hhij
    unfold handleHTTPS
    simp only [hallow, Bool.not_true, Bool.false_eq_true, if_false, hdial, hhij]
    exact hacc _ _ _ _
  · intro hden
    unfold handleHTTPS
    simp only [hden, Bool.not_false, if_true]
    have h1 := logRequest_append db now elapsedMs claims.UserID r.Method r.Host 403 0 0 hlog
    exact ⟨trivial, h1.1, h1.2.1⟩

set_option maxRecDepth 100000 in
/-- Witness of `proxy_accounting`: `alice` fetches a page of `sub.example.com`;
one request-log entry is appended and the counter of the day is created. -/
theorem proxy_accounting_witness :
    (handleHTTP refLib exampleNetwork exampleDB 1751695800 12
      (exampleRequest "GET" [("Proxy-Authorization", ["Basic YWxpY2U6c2VjcmV0"])] none)
      ⟨2, "alice", false, false, none, none⟩
      ⟨"whitelist", ["example.com"], []⟩).db.requestLogs =
      exampleDB.requestLogs ++
        [⟨some 2, "GET", "http://sub.example.com/index.html", 200, 0, 5, 12, 1751695800⟩] ∧
    (handleHTTP refLib exampleNetwork exampleDB 1751695800 12
      (exampleRequest "GET" [("Proxy-Authorization", ["Basic YWxpY2U6c2VjcmV0"])] none)
      ⟨2, "alice", false, false, none, none⟩
      ⟨"whitelist", ["example.com"], []⟩).db.trafficStats =
      upsertTraffic 2 0 5 (dateOf 1751695800) exampleDB.trafficStats :=
  (proxy_accounting refLib exampleNetwork exampleDB 1751695800 12
    (exampleRequest "GET" [("Proxy-Authorization", ["Basic YWxpY2U6c2VjcmV0"])] none)
    ⟨2, "alice", false, false, none, none⟩ ⟨"whitelist", ["example.com"], []⟩ rfl rfl).1
    ⟨"GET", "http", "sub.example.com", "http://sub.example.com/index.html", "sub.example.com",
      [("X-Forwarded-For", ["10.0.0.9"])]⟩
    ⟨200, [], 5⟩ (by decide!) rfl

/-! ## Target host -/

theorem dropWhile_eq_self_of_head (P : Char → Bool) (l : List Char)
    (h : l.head?.all (fun c => !P c) = true) : l.dropWhile P = l := by
  cases l with
  | nil => rfl
  | cons c t =>
    simp only [List.head?_cons, Option.all_some, Bool.not_eq_eq_eq_not, Bool.not_true] at h
    simp [List.dropWhile, h]

theorem dropWhile_append_cons (P : Char → Bool) (a b : List Char) (c : Char) (hc : P c = false) :
    (a ++ c :: b).dropWhile P = a.dropWhile P ++ c :: b := by
  induction a with
  | nil => simp [List.dropWhile, hc]
  | cons x t ih =>
    by_cases hx : P x = true
    · simp [List.dropWhile, hx, ih]
    · simp [List.dropWhile, hx]

/-- A string without leading and trailing white space is its own trimming. -/
theorem TrimSpace_of_Trimmed (s : String) (h : Trimmed s = true) : TrimSpace s = s := by
  unfold Trimmed at h
  simp only [Bool.and_eq_true] at h
  unfold TrimSpace
  rw [dropWhile_eq_self_of_head isSpace s.data h.1,
    dropWhile_eq_self_of_head isSpace s.data.reverse (by rw [List.head?_reverse]; exact h.2),
    List.reverse_reverse]

/-- Trimming a host followed by a colon and a port keeps the host and the
colon. -/
theorem TrimSpace_host_port (h p : String) (hlead : h.data.head?.all (fun c => !isSpace c) = true) :
    TrimSpace (h ++ ":" ++ p) =
      String.mk (h.data ++ ':' :: (p.data.reverse.dropWhile isSpace).reverse) := by
  unfold TrimSpace
  have hdata : (h ++ ":" ++ p).data = h.data ++ ':' :: p.data := by
    simp [String.data_append]
  have hcolon : isSpace ':' = false := by decide
  rw [hdata]
  have h1 : (h.data ++ ':' :: p.data).dropWhile isSpace = h.data ++ ':' :: p.data := by
    apply dropWhile_eq_self_of_head
    cases hd : h.data with
    | nil => simp [hcolon]
    | cons c t =>
      rw [hd] at hlead
      simpa using hlead
  rw [h1]
  have h2 : (h.data ++ ':' :: p.data).reverse = p.data.reverse ++ ':' :: h.data.reverse := by
    simp
  rw [h2, dropWhile_append_cons isSpace _ _ ':' hcolon]
  simp

/-- Lower-casing leaves the characters `:`, `[` and `]` alone and makes none of
them out of another ASCII character. -/
theorem unicodeToLower_ascii (L : Lib) (c : Char) (hc : c.toNat ≤ 0x7F) :
    (unicodeToLower L c = ':' ↔ c = ':') ∧ (unicodeToLower L c = '[' ↔ c = '[') ∧
    (unicodeToLower L c = ']' ↔ c = ']') := by
  unfold unicodeToLower
  rw [if_pos hc]
  by_cases hu : 0x41 ≤ c.toNat ∧ c.toNat ≤ 0x5A
  · rw [if_pos hu]
    have hne : c ≠ ':' ∧ c ≠ '[' ∧ c ≠ ']' := by
      refine ⟨?_, ?_, ?_⟩ <;> (rintro rfl; revert hu; decide)
    have hv : ∀ n, 0x41 ≤ n → n ≤ 0x5A →
        Char.ofNat (n + 0x20) ≠ ':' ∧ Char.ofNat (n + 0x20) ≠ '[' ∧
          Char.ofNat (n + 0x20) ≠ ']' := by
      intro n h1 h2
      interval_cases n <;> decide
    have := hv c.toNat hu.1 hu.2
    simp [this.1, this.2.1, this.2.2, hne.1, hne.2.1, hne.2.2]
  · rw [if_neg hu]
    simp

/-- On a host without colon and brackets followed by a colon and a port,
`net.SplitHostPort` returns that host when it returns one. -/
theorem goSplitHostPort_host (lh lp : List Char) (a b : String)
    (hclean : ∀ c ∈ lh, c ≠ ':' ∧ c ≠ '[' ∧ c ≠ ']')
    (h : goSplitHostPort (String.mk (lh ++ ':' :: lp)) = .ok (a, b)) : a = String.mk lh := by
  unfold goSplitHostPort at h
  dsimp only at h
  have hhead : ¬ (lh ++ ':' :: lp).head? = some '[' := by
    cases lh with
    | nil => simp
    | cons c t =>
      have := (hclean c (List.mem_cons_self _ _)).2.1
      simpa using this
  cases hcut : cutAt ':' (lh ++ ':' :: lp).reverse with
  | none =>
    rw [hcut] at h
    simp only [reduceCtorEq] at h
  | some pr =>
    obtain ⟨portRev, hostRev⟩ := pr
    rw [hcut] at h
    dsimp only at h
    rw [if_neg hhead] at h
    by_cases hcol : ':' ∈ hostRev.reverse
    · rw [if_pos hcol] at h
      simp only [reduceCtorEq] at h
    · rw [if_neg hcol] at h
      have hsplit := (cutAt_eq_some_iff ':' _ _ _).mp hcut
      have hs : lh ++ ':' :: lp = hostRev.reverse ++ ':' :: portRev.reverse := by
        have := congrArg List.reverse hsplit.1
        simpa using this
      have hnot : ':' ∉ lh := fun hm => (hclean ':' hm).1 rfl
      have e1 := (cutAt_eq_some_iff ':' (lh ++ ':' :: lp) lh lp).mpr ⟨rfl, hnot⟩
      have e2 := (cutAt_eq_some_iff ':' (lh ++ ':' :: lp) hostRev.reverse
        portRev.reverse).mpr ⟨hs, hcol⟩
      rw [e1] at e2
      simp only [Option.some.injEq, Prod.mk.injEq] at e2
      split_ifs at h
      simp only [Except.ok.injEq, Prod.mk.injEq] at h
      rw [← h.1, e2.1]

/-- The host of a target made of a host without colon and brackets, a colon and
a port. -/
theorem extractHost_host_port (L : Lib) (h p : String)
    (hlead : h.data.head?.all (fun c => !isSpace c) = true)
    (hclean : ∀ c ∈ (ToLower L h).data, c ≠ ':' ∧ c ≠ '[' ∧ c ≠ ']')
    (hlib : L.SplitHostPort (ToLower L (TrimSpace (h ++ ":" ++ p))) =
      goSplitHostPort (ToLower L (TrimSpace (h ++ ":" ++ p)))) :
    extractHost L (h ++ ":" ++ p) = ToLower L h := by
  have hcolon : unicodeToLower L ':' = ':' := rfl
  have hlow : ToLower L (TrimSpace (h ++ ":" ++ p)) =
      String.mk ((ToLower L h).data ++
        ':' :: ((p.data.reverse.dropWhile isSpace).reverse.map (unicodeToLower L))) := by
    rw [TrimSpace_host_port h p hlead]
    simp [ToLower, hcolon]
  unfold extractHost
  dsimp only
  rw [hlib, hlow]
  have hne : ¬ (String.mk ((ToLower L h).data ++
      ':' :: ((p.data.reverse.dropWhile isSpace).reverse.map (unicodeToLower L))) = "") := by
    intro hcon
    have := congrArg String.data hcon
    simp at this
  have hcont : Contains (String.mk ((ToLower L h).data ++
      ':' :: ((p.data.reverse.dropWhile isSpace).reverse.map (unicodeToLower L)))) ":" = true := by
    rw [Contains_iff]
    exact ⟨(ToLower L h).data,
      (p.data.reverse.dropWhile isSpace).reverse.map (unicodeToLower L), by simp⟩
  rw [if_neg hne, if_pos hcont]
  have hnot : ':' ∉ (ToLower L h).data := fun hm => (hclean ':' hm).1 rfl
  cases hsp : goSplitHostPort (String.mk ((ToLower L h).data ++
      ':' :: ((p.data.reverse.dropWhile isSpace).reverse.map (unicodeToLower L)))) with
  | ok pr =>
    obtain ⟨a, b⟩ := pr
    exact goSplitHostPort_host _ _ a b hclean hsp
  | error e =>
    dsimp only
    rw [(cutAt_eq_some_iff ':' _ _ _).mpr ⟨rfl, hnot⟩]

/-- The host of a target without colon is the target, trimmed and
lower-cased. -/
theorem extractHost_plain (L : Lib) (h : String) (htrim : Trimmed h = true)
    (hclean : ∀ c ∈ (ToLower L h).data, c ≠ ':') : extractHost L h = ToLower L h := by
  unfold extractHost
  dsimp only
  rw [TrimSpace_of_Trimmed h htrim]
  by_cases he : ToLower L h = ""
  · rw [if_pos he, he]
  · rw [if_neg he]
    have hcont : ¬ Contains (ToLower L h) ":" = true := by
      rw [Contains_iff]
      rintro ⟨a, b, hab⟩
      have hm : ':' ∈ (ToLower L h).data := by
        rw [← hab]
        simp
      exact (hclean ':' hm) rfl
    rw [if_neg hcont]

/-- Lower-casing a name without `:`, `[` and `]` makes none of them, the case
tables making none either. -/
theorem ToLower_clean (L : Lib) (h : String)
    (hclean : ∀ c ∈ h.data, c ≠ ':' ∧ c ≠ '[' ∧ c ≠ ']')
    (hcase : ∀ c ∈ h.data, 0x7F < c.toNat →
      L.caseTable c ≠ ':' ∧ L.caseTable c ≠ '[' ∧ L.caseTable c ≠ ']') :
    ∀ c ∈ (ToLower L h).data, c ≠ ':' ∧ c ≠ '[' ∧ c ≠ ']' := by
  intro c hc
  simp only [ToLower, List.mem_map] at hc
  obtain ⟨d, hd, rfl⟩ := hc
  by_cases hascii : d.toNat ≤ 0x7F
  · have := unicodeToLower_ascii L d hascii
    have hcl := hclean d hd
    exact ⟨fun h1 => hcl.1 (this.1.mp h1), fun h1 => hcl.2.1 (this.2.1.mp h1),
      fun h1 => hcl.2.2 (this.2.2.mp h1)⟩
  · have hnon : unicodeToLower L d = L.caseTable d := by
      unfold unicodeToLower
      rw [if_neg hascii]
    rw [hnon]
    exact hcase d hd (by omega)

/-- Claim C23 as stated fails for a name in square brackets: `[abc]` contains no
colon and no white space, yet with a port `net.SplitHostPort` takes the
brackets off and without one they stay. -/
theorem extractHost_brackets_counterexample :
    (∀ c ∈ "[abc]".data, c ≠ ':') ∧ Trimmed "[abc]" = true ∧
    extractHost refLib ("[abc]" ++ ":" ++ "443") = "abc" ∧
    extractHost refLib "[abc]" = "[abc]" ∧ ToLower refLib "[abc]" = "[abc]" :=
  ⟨by decide, by decide, by decide, by decide, by decide⟩

/-- Claim C23, amended: for every host name `h` that contains no `:`, no `[`
and no `]` and has no leading or trailing white space, and every port `p`,
`extractHost (h ++ ":" ++ p) = extractHost h` = the lower-cased `h`.  The
library splits as `net.SplitHostPort` does, and the case tables map no
character of `h` to `:`, `[` or `]`. -/
theorem extractHost_strips_port (L : Lib) (h p : String) (htrim : Trimmed h = true)
    (hclean : ∀ c ∈ h.data, c ≠ ':' ∧ c ≠ '[' ∧ c ≠ ']')
    (hcase : ∀ c ∈ h.data, 0x7F < c.toNat →
      L.caseTable c ≠ ':' ∧ L.caseTable c ≠ '[' ∧ L.caseTable c ≠ ']')
    (hlib : L.SplitHostPort (ToLower L (TrimSpace (h ++ ":" ++ p))) =
      goSplitHostPort (ToLower L (TrimSpace (h ++ ":" ++ p)))) :
    extractHost L (h ++ ":" ++ p) = ToLower L h ∧ extractHost L h = ToLower L h ∧
    extractHost L (h ++ ":" ++ p) = extractHost L h := by
  have hlow := ToLower_clean L h hclean hcase
  have hlead : h.data.head?.all (fun c => !isSpace c) = true := by
    unfold Trimmed at htrim
    simp only [Bool.and_eq_true] at htrim
    exact htrim.1
  have h1 := extractHost_host_port L h p hlead hlow hlib
  have h2 := extractHost_plain L h htrim (fun c hc => (hlow c hc).1)
  exact ⟨h1, h2, h1.trans h2.symm⟩

/-- Witness of `extractHost_strips_port`: the target `Example.COM:443`. -/
theorem extractHost_strips_port_witness :
    extractHost refLib ("Example.COM" ++ ":" ++ "443") = "example.com" ∧
    extractHost refLib "Example.COM" = "example.com" :=
  have h := extractHost_strips_port refLib "Example.COM" "443" (by decide) (by decide)
    (by decide) rfl
  ⟨h.1.trans (by decide), h.2.1.trans (by decide)⟩

/-- Claim C26: for every policy snapshot, a whitelist policy included, and
every raw target whose host part is empty, that is a colon followed by any
port, `extractHost` returns the empty string and `isHostAllowed` returns true
for it, so `handleHTTPS` does not answer 403 and dials the target.  The
library splits as `net.SplitHostPort` does. -/
theorem extractHost_empty_host (L : Lib) (net : Network) (db : Database) (now elapsedMs : Int)
    (r : Request) (claims : Claims) (prefs : UserProxySettings) (p : String)
    (hlib : L.SplitHostPort (ToLower L (TrimSpace (":" ++ p))) =
      goSplitHostPort (ToLower L (TrimSpace (":" ++ p)))) :
    extractHost L (":" ++ p) = "" ∧
    isHostAllowed L (some prefs) (extractHost L (":" ++ p)) = true ∧
    (r.Host = ":" ++ p →
      (handleHTTPS L net db now elapsedMs r claims prefs).net = [.dial r.Host]) := by
  have he : ("" : String) ++ ":" ++ p = ":" ++ p := by
    apply String.ext
    simp [String.data_append]
  have h0 : extractHost L ("" ++ ":" ++ p) = ToLower L "" :=
    extractHost_host_port L "" p rfl (by intro c hc; simp [ToLower] at hc)
      (by rw [he]; exact hlib)
  have h1 : extractHost L (":" ++ p) = "" := by
    rw [he] at h0
    rw [h0]
    rfl
  have h2 : isHostAllowed L (some prefs) (extractHost L (":" ++ p)) = true := by
    rw [h1]
    simp [isHostAllowed]
  refine ⟨h1, h2, ?_⟩
  intro hhost
  unfold handleHTTPS
  dsimp only
  rw [hhost, h2]
  simp only [Bool.not_true, Bool.false_eq_true, if_false]
  cases net.Dial (":" ++ p) with
  | error e => rfl
  | ok u =>
    dsimp only
    cases net.Hijack with
    | none => rfl
    | some res =>
      cases res with
      | error e => rfl
      | ok u2 => rfl

/-- Witness of `extractHost_empty_host`: the target `:443` under a whitelist
that does not list it. -/
theorem extractHost_empty_host_witness :
    extractHost refLib (":" ++ "443") = "" ∧
    isHostAllowed refLib (some ⟨"whitelist", ["example.com"], []⟩)
      (extractHost refLib (":" ++ "443")) = true :=
  have h := extractHost_empty_host refLib exampleNetwork exampleDB 1751695800 12
    (exampleRequest "CONNECT" [] none) ⟨2, "alice", false, false, none, none⟩
    ⟨"whitelist", ["example.com"], []⟩ "443" rfl
  ⟨h.1, h.2.1⟩

/-! ## Authentication middleware -/

theorem splitAll_ne_nil (sep : Char) (l : List Char) : splitAll sep l ≠ [] := by
  cases l with
  | nil => simp [splitAll]
  | cons c cs =>
    unfold splitAll
    split_ifs
    · simp
    · split <;> simp

theorem splitAll_of_not_mem (sep : Char) (a : List Char) (h : sep ∉ a) :
    splitAll sep a = [a] := by
  induction a with
  | nil => rfl
  | cons c t ih =>
    simp only [List.mem_cons, not_or] at h
    unfold splitAll
    rw [if_neg (Ne.symm h.1), ih h.2]

theorem splitAll_append (sep : Char) (a b : List Char) (ha : sep ∉ a) (hb : sep ∉ b) :
    splitAll sep (a ++ sep :: b) = [a, b] := by
  induction a with
  | nil =>
    simp only [List.nil_append]
    unfold splitAll
    rw [if_pos rfl, splitAll_of_not_mem sep b hb]
  | cons c t ih =>
    simp only [List.mem_cons, not_or] at ha
    simp only [List.cons_append]
    unfold splitAll
    rw [if_neg (Ne.symm ha.1), ih ha.2]

theorem splitAll_eq_singleton (sep : Char) (l a : List Char) (h : splitAll sep l = [a]) :
    l = a ∧ sep ∉ a := by
  induction l generalizing a with
  | nil =>
    simp only [splitAll, List.cons.injEq, and_true] at h
    subst h
    exact ⟨rfl, by simp⟩
  | cons c cs ih =>
    unfold splitAll at h
    by_cases hc : c = sep
    · rw [if_pos hc] at h
      simp only [List.cons.injEq] at h
      exact absurd h.2 (splitAll_ne_nil sep cs)
    · rw [if_neg hc] at h
      cases hs : splitAll sep cs with
      | nil => exact absurd hs (splitAll_ne_nil sep cs)
      | cons piece pieces =>
        rw [hs] at h
        simp only [List.cons.injEq] at h
        obtain ⟨rfl, rfl⟩ := h
        have := ih piece hs
        refine ⟨by rw [this.1], ?_⟩
        simp only [List.mem_cons, not_or]
        exact ⟨Ne.symm hc, this.2⟩

theorem splitAll_eq_pair (sep : Char) (l a b : List Char) (h : splitAll sep l = [a, b]) :
    l = a ++ sep :: b ∧ sep ∉ a ∧ sep ∉ b := by
  induction l generalizing a with
  | nil => simp [splitAll] at h
  | cons c cs ih =>
    unfold splitAll at h
    by_cases hc : c = sep
    · rw [if_pos hc] at h
      simp only [List.cons.injEq] at h
      obtain ⟨rfl, h2⟩ := h
      have := splitAll_eq_singleton sep cs b h2
      exact ⟨by simp [hc, this.1], by simp, this.2⟩
    · rw [if_neg hc] at h
      cases hs : splitAll sep cs with
      | nil => exact absurd hs (splitAll_ne_nil sep cs)
      | cons piece pieces =>
        rw [hs] at h
        simp only [List.cons.injEq] at h
        obtain ⟨rfl, rfl⟩ := h
        have := ih piece hs
        refine ⟨by simp [this.1], ?_, this.2.2⟩
        simp only [List.mem_cons, not_or]
        exact ⟨Ne.symm hc, this.2.1⟩

/-- `Split` gives two pieces exactly on a text with one separator. -/
theorem Split_eq_pair_iff (s a b : String) (sep : Char) :
    Split s sep = [a, b] ↔
      s = a ++ String.singleton sep ++ b ∧ sep ∉ a.data ∧ sep ∉ b.data := by
  unfold Split
  constructor
  · intro h
    cases hs : splitAll sep s.data with
    | nil => exact absurd hs (splitAll_ne_nil sep _)
    | cons x rest =>
      rw [hs] at h
      cases rest with
      | nil => simp at h
      | cons y rest2 =>
        cases rest2 with
        | nil =>
          simp only [List.map_cons, List.map_nil, List.cons.injEq, and_true] at h
          obtain ⟨rfl, rfl⟩ := h
          have := splitAll_eq_pair sep s.data x y hs
          refine ⟨?_, this.2.1, this.2.2⟩
          apply String.ext
          simp [String.data_append, this.1]
        | cons z rest3 => simp at h
  · rintro ⟨rfl, ha, hb⟩
    have hd : (a ++ String.singleton sep ++ b).data = a.data ++ sep :: b.data := by
      simp [String.data_append]
    rw [hd, splitAll_append sep a.data b.data ha hb]
    rfl

/-- What the middleware does with a header `Bearer <token>` whose token holds
no space. -/
theorem AuthMiddleware_Handler_bearer (L : Lib) (env : Env) (db : Database) (now : Int)
    (r : Request) (token : String)
    (hdr : r.Header.Get "Authorization" = "Bearer" ++ " " ++ token) (hsp : ' ' ∉ token.data) :
    AuthMiddleware.Handler L env db now r =
      match ValidateToken L env now token with
      | .error _ => .rejected (respondWithError 401 "Invalid token")
      | .ok claims =>
        match db.GetUserByID claims.UserID with
        | .error _ => .rejected (respondWithError 401 "User not found")
        | .ok user =>
          if !user.IsActive then .rejected (respondWithError 403 "User account is inactive")
          else if user.TwoFAEnabled && !claims.TwoFactorVerified then
            .rejected (respondWithError 403 "Two-factor authentication required")
          else .next { r with ContextUser := some user } := by
  have hne : ¬ ("Bearer" ++ " " ++ token = "") := by
    intro h
    have := congrArg String.length h
    simp [String.length_append] at this
    exact absurd this.1 (by decide)
  have hsplit : Split ("Bearer" ++ " " ++ token) ' ' = ["Bearer", token] :=
    (Split_eq_pair_iff _ _ _ _).mpr ⟨rfl, by decide, hsp⟩
  unfold AuthMiddleware.Handler
  simp only [hdr, if_neg hne, hsplit, ne_eq, not_true_eq_false, if_false]

/-- Claim C28: `AuthMiddleware.Handler` invokes the next handler iff the
Authorization header has exactly the form `Bearer <token>` (one space, none in
the token), the token validates, the user named by the token is found and is
active, and either the user does not have 2FA enabled or the twoFactorVerified
claim of the token is true; the request handed on carries that user.  Hence a
token whose claim is false, a temp token, never gets a request of a user with
2FA enabled to the next handler. -/
theorem AuthMiddleware_Handler_iff (L : Lib) (env : Env) (db : Database) (now : Int)
    (r : Request) :
    ((∃ r', AuthMiddleware.Handler L env db now r = .next r') ↔
      ∃ token claims user, r.Header.Get "Authorization" = "Bearer" ++ " " ++ token ∧
        ' ' ∉ token.data ∧ ValidateToken L env now token = .ok claims ∧
        db.GetUserByID claims.UserID = .ok user ∧ user.IsActive = true ∧
        (user.TwoFAEnabled = false ∨ claims.TwoFactorVerified = true)) ∧
    (∀ r', AuthMiddleware.Handler L env db now r = .next r' →
      ∃ user, r' = { r with ContextUser := some user } ∧ user.IsActive = true) ∧
    (∀ token claims user, r.Header.Get "Authorization" = "Bearer" ++ " " ++ token →
      ValidateToken L env now token = .ok claims → claims.TwoFactorVerified = false →
      db.GetUserByID claims.UserID = .ok user → user.TwoFAEnabled = true →
      ∃ resp, AuthMiddleware.Handler L env db now r = .rejected resp ∧
        (resp.Status = 401 ∨ resp.Status = 403)) := by
  have hfwd : ∀ r', AuthMiddleware.Handler L env db now r = .next r' →
      ∃ token claims user, r.Header.Get "Authorization" = "Bearer" ++ " " ++ token ∧
        ' ' ∉ token.data ∧ ValidateToken L env now token = .ok claims ∧
        db.GetUserByID claims.UserID = .ok user ∧ user.IsActive = true ∧
        (user.TwoFAEnabled = false ∨ claims.TwoFactorVerified = true) ∧
        r' = { r with ContextUser := some user } := by
    intro r' h
    unfold AuthMiddleware.Handler at h
    dsimp only at h
    split_ifs at h with h0
    split at h
    · rename_i scheme token hsplit
      split_ifs at h with hs
      have hs2 : scheme = "Bearer" := by
        by_contra hcon
        exact hs hcon
      subst hs2
      have hform := (Split_eq_pair_iff _ _ _ _).mp hsplit
      cases hv : ValidateToken L env now token with
      | error e =>
        rw [hv] at h
        simp only [reduceCtorEq] at h
      | ok claims =>
        rw [hv] at h
        dsimp only at h
        cases hu : db.GetUserByID claims.UserID with
        | error e =>
          rw [hu] at h
          simp only [reduceCtorEq] at h
        | ok user =>
          rw [hu] at h
          dsimp only at h
          split_ifs at h with hact h2fa
          simp only [MiddlewareResult.next.injEq] at h
          refine ⟨token, claims, user, hform.1, hform.2.2, hv, hu, ?_, ?_, h.symm⟩
          · simpa using hact
          · simp only [Bool.and_eq_true, Bool.not_eq_true', not_and, Bool.not_eq_false] at h2fa
            cases h2 : user.TwoFAEnabled with
            | false => exact Or.inl rfl
            | true => exact Or.inr (h2fa h2)
    · simp only [reduceCtorEq] at h
  refine ⟨⟨?_, ?_⟩, ?_, ?_⟩
  · rintro ⟨r', h⟩
    obtain ⟨token, claims, user, h1, h2, h3, h4, h5, h6, _⟩ := hfwd r' h
    exact ⟨token, claims, user, h1, h2, h3, h4, h5, h6⟩
  · rintro ⟨token, claims, user, hdr, hsp, hv, hu, hact, h2fa⟩
    refine ⟨{ r with ContextUser := some user }, ?_⟩
    rw [AuthMiddleware_Handler_bearer L env db now r token hdr hsp, hv]
    dsimp only
    rw [hu]
    dsimp only
    rcases h2fa with h2 | h2 <;> simp [hact, h2]
  · intro r' h
    obtain ⟨_, _, user, _, _, _, _, h5, _, h7⟩ := hfwd r' h
    exact ⟨user, h7, h5⟩
  · intro token claims user hdr hv htfv hu h2fa
    cases hres : AuthMiddleware.Handler L env db now r with
    | next r' =>
      obtain ⟨token', claims', user', h1, _, h3, h4, _, h6, _⟩ := hfwd r' hres
      rw [hdr] at h1
      have htok : token = token' := by
        have := congrArg String.data h1
        simp only [String.data_append, List.append_assoc, List.append_cancel_left_eq] at this
        exact String.ext this
      subst htok
      rw [hv] at h3
      cases h3
      rw [hu] at h4
      cases h4
      rcases h6 with h6 | h6
      · rw [h2fa] at h6
        cases h6
      · rw [htfv] at h6
        cases h6
    | rejected resp =>
      refine ⟨resp, rfl, ?_⟩
      unfold AuthMiddleware.Handler at hres
      dsimp only at hres
      repeat' split at hres
      all_goals first
        | (simp only [MiddlewareResult.rejected.injEq] at hres; subst hres
           simp [respondWithError, respondWithJSON])
        | (simp only [reduceCtorEq] at hres)

set_option maxRecDepth 100000 in
/-- Witness of `AuthMiddleware_Handler_iff`: `root`, who has 2FA enabled, gets
through with the full session token and is refused with the temp token. -/
theorem AuthMiddleware_Handler_iff_witness :
    (∃ r', AuthMiddleware.Handler refLib exampleEnv exampleDB 1751695900
      (exampleRequest "GET" [("Authorization", ["Bearer session.root"])] none) = .next r') ∧
    AuthMiddleware.Handler refLib exampleEnv exampleDB 1751695900
      (exampleRequest "GET" [("Authorization", ["Bearer temp.root"])] none) =
      .rejected (respondWithError 403 "Two-factor authentication required") :=
  ⟨(AuthMiddleware_Handler_iff refLib exampleEnv exampleDB 1751695900
      (exampleRequest "GET" [("Authorization", ["Bearer session.root"])] none)).1.mpr
      ⟨"session.root", ⟨1, "root", true, true, some 1751782200, some 1751695800⟩,
        UserRow.toUser ⟨1, "root", "$2a$10$toor", "", "", true, true, "default", true,
          some "BwcHBwcHBwcHBwcHTUVUUF40Q1dCT1dMNFdfV2WnIh0IWGQcP9N+Wa2JxDE=", 0, 0⟩,
        by decide, by decide, by decide!, by decide!, rfl, Or.inr rfl⟩,
   by decide!⟩

/-! ## Headers of the outbound request -/

/-- Adding values under a key that ends the header extends its values. -/
theorem foldl_Add_last (k : String) (acc : Header) (hk : ∀ kv ∈ acc, kv.1 ≠ k) :
    ∀ (vs ws : List String),
      vs.foldl (fun o v => Header.Add o k v) (acc ++ [(k, ws)]) = acc ++ [(k, ws ++ vs)] := by
  intro vs
  induction vs with
  | nil => intro ws; simp
  | cons v rest ih =>
    intro ws
    simp only [List.foldl_cons]
    have hadd : Header.Add (acc ++ [(k, ws)]) k v = acc ++ [(k, ws ++ [v])] := by
      unfold Header.Add
      have hany : (acc ++ [(k, ws)]).any (fun kv => decide (kv.1 = k)) = true := by
        simp
      rw [if_pos hany, List.map_append]
      have hacc : acc.map (fun kv => if kv.1 = k then (k, kv.2 ++ [v]) else kv) = acc := by
        conv_rhs => rw [← List.map_id acc]
        apply List.map_congr_left
        intro kv hkv
        simp [hk kv hkv]
      rw [hacc]
      simp
    rw [hadd, ih (ws ++ [v])]
    simp

/-- Adding the values of a key the header does not hold yet appends one entry,
none when there are no values. -/
theorem foldl_Add_fresh (k : String) (acc : Header) (hk : ∀ kv ∈ acc, kv.1 ≠ k)
    (vs : List String) :
    vs.foldl (fun o v => Header.Add o k v) acc = if vs = [] then acc else acc ++ [(k, vs)] := by
  cases vs with
  | nil => simp
  | cons v rest =>
    simp only [List.foldl_cons, reduceCtorEq, if_false]
    have hadd : Header.Add acc k v = acc ++ [(k, [v])] := by
      unfold Header.Add
      have hany : ¬ acc.any (fun kv => decide (kv.1 = k)) = true := by
        simp only [List.any_eq_true, decide_eq_true_eq, not_exists, not_and]
        exact fun kv hkv => hk kv hkv
      rw [if_neg hany]
    rw [hadd, foldl_Add_last k acc hk rest [v]]
    simp

/-- The header names to strip. -/
theorem copyHeaders_eq (L : Lib) (inbound : Header)
    (hmap : (inbound.map Prod.fst).Nodup) :
    copyHeaders L inbound = inbound.filter (fun kv =>
      !(L.EqualFold kv.1 "Proxy-Authorization" || L.EqualFold kv.1 "Proxy-Connection") &&
        !kv.2.isEmpty) := by
  unfold copyHeaders
  suffices hgen : ∀ (l acc : Header), (l.map Prod.fst).Nodup →
      (∀ kv ∈ acc, ∀ kv' ∈ l, kv.1 ≠ kv'.1) →
      l.foldl (fun out kv =>
        if L.EqualFold kv.1 "Proxy-Authorization" || L.EqualFold kv.1 "Proxy-Connection" then out
        else kv.2.foldl (fun o v => o.Add kv.1 v) out) acc =
      acc ++ l.filter (fun kv =>
        !(L.EqualFold kv.1 "Proxy-Authorization" || L.EqualFold kv.1 "Proxy-Connection") &&
          !kv.2.isEmpty) by
    simpa using hgen inbound [] hmap (by simp)
  intro l
  induction l with
  | nil => intro acc _ _; simp
  | cons kv rest ih =>
    intro acc hnd hdis
    simp only [List.map_cons, List.nodup_cons] at hnd
    simp only [List.foldl_cons]
    have hrest : ∀ a ∈ acc, ∀ kv' ∈ rest, a.1 ≠ kv'.1 :=
      fun a ha kv' hkv' => hdis a ha kv' (List.mem_cons_of_mem _ hkv')
    by_cases hstrip : (L.EqualFold kv.1 "Proxy-Authorization" ||
        L.EqualFold kv.1 "Proxy-Connection") = true
    · rw [if_pos hstrip, ih acc hnd.2 hrest,
        List.filter_cons_of_neg (by simp [hstrip])]
    · rw [if_neg hstrip]
      have hstrip2 : (L.EqualFold kv.1 "Proxy-Authorization" ||
          L.EqualFold kv.1 "Proxy-Connection") = false := by
        simpa using hstrip
      have hk : ∀ a ∈ acc, a.1 ≠ kv.1 := fun a ha => hdis a ha kv (List.mem_cons_self _ _)
      rw [foldl_Add_fresh kv.1 acc hk kv.2]
      by_cases hempty : kv.2 = []
      · rw [if_pos hempty, ih acc hnd.2 hrest,
          List.filter_cons_of_neg (by simp [hempty])]
      · rw [if_neg hempty]
        have hdis2 : ∀ a ∈ acc ++ [(kv.1, kv.2)], ∀ kv' ∈ rest, a.1 ≠ kv'.1 := by
          intro a ha kv' hkv'
          rcases List.mem_append.mp ha with ha | ha
          · exact hrest a ha kv' hkv'
          · simp only [List.mem_singleton] at ha
            subst ha
            intro heq
            exact hnd.1 (List.mem_map.mpr ⟨kv', hkv', heq.symm⟩)
        have hne : kv.2.isEmpty = false := by
          cases h2 : kv.2 with
          | nil => exact absurd h2 hempty
          | cons _ _ => rfl
        rw [ih _ hnd.2 hdis2, List.filter_cons_of_pos (by simp [hstrip2, hne])]
        simp

/-- In a header that holds each name once, the values of a name are those of
its entry. -/
theorem Values_of_mem (h : Header) (k : String) (vs : List String)
    (hmap : (h.map Prod.fst).Nodup) (hmem : (k, vs) ∈ h) : Header.Values h k = vs := by
  unfold Header.Values
  induction h with
  | nil => cases hmem
  | cons kv rest ih =>
    simp only [List.map_cons, List.nodup_cons] at hmap
    rcases List.mem_cons.mp hmem with heq | hin
    · subst heq
      simp [List.find?]
    · have hne : kv.1 ≠ k := by
        intro heq
        exact hmap.1 (List.mem_map.mpr ⟨(k, vs), hin, heq.symm⟩)
      simp only [List.find?, hne, decide_False]
      exact ih hmap.2 hin

/-- A name the header does not hold has no values. -/
theorem Values_of_absent (h : Header) (k : String) (habs : ∀ kv ∈ h, kv.1 ≠ k) :
    Header.Values h k = [] := by
  unfold Header.Values
  have : h.find? (fun kv => decide (kv.1 = k)) = none := by
    rw [List.find?_eq_none]
    intro kv hkv
    simpa using habs kv hkv
  rw [this]

/-- Setting a name leaves the values of every other name. -/
theorem Values_Set_ne (h : Header) (k0 v k : String) (hne : k ≠ k0) :
    Header.Values (h.Set k0 v) k = Header.Values h k := by
  have hfind : ∀ l : Header,
      (l.map (fun kv => if kv.1 = k0 then (k0, [v]) else kv)).find?
          (fun kv => decide (kv.1 = k)) =
        l.find? (fun kv => decide (kv.1 = k)) := by
    intro l
    induction l with
    | nil => rfl
    | cons kv rest ih =>
      rw [List.map_cons]
      by_cases hk : kv.1 = k0
      · have hk2 : ¬ kv.1 = k := fun h2 => hne (h2.symm.trans hk)
        rw [if_pos hk, List.find?_cons_of_neg _ (by simpa using hne.symm),
          List.find?_cons_of_neg _ (by simpa using hk2), ih]
      · rw [if_neg hk]
        by_cases hk2 : kv.1 = k
        · rw [List.find?_cons_of_pos _ (by simpa using hk2),
            List.find?_cons_of_pos _ (by simpa using hk2)]
        · rw [List.find?_cons_of_neg _ (by simpa using hk2),
            List.find?_cons_of_neg _ (by simpa using hk2), ih]
  unfold Header.Values Header.Set
  split_ifs
  · rw [hfind]
  · rw [List.find?_append]
    have : [(k0, [v])].find? (fun kv => decide (kv.1 = k)) = none := by
      rw [List.find?_cons_of_neg _ (by simpa using hne.symm)]
      rfl
    rw [this]
    simp

/-- The entries of a header after a name was set: the entry of that name, or
an entry there before. -/
theorem mem_Set (h : Header) (k0 v : String) (kv : String × List String)
    (hmem : kv ∈ h.Set k0 v) : kv.1 = k0 ∨ kv ∈ h := by
  unfold Header.Set at hmem
  split_ifs at hmem
  · simp only [List.mem_map] at hmem
    obtain ⟨kv0, hkv0, rfl⟩ := hmem
    by_cases hk : kv0.1 = k0
    · simp [hk]
    · simp [hk, hkv0]
  · rcases List.mem_append.mp hmem with hm | hm
    · exact Or.inr hm
    · simp only [List.mem_singleton] at hm
      subst hm
      exact Or.inl rfl

/-- The headers of the outbound request: the copied ones, `X-Forwarded-For`
set on top when the client address splits. -/
theorem forwardedRequest_header (L : Lib) (r : Request) (created : OutboundRequest) :
    (forwardedRequest L r created).Header = copyHeaders L r.Header ∨
    ∃ v, (forwardedRequest L r created).Header =
      (copyHeaders L r.Header).Set "X-Forwarded-For" v := by
  unfold forwardedRequest
  dsimp only
  cases L.SplitHostPort r.RemoteAddr with
  | error e =>
    dsimp only
    split_ifs <;> exact Or.inl rfl
  | ok pr =>
    obtain ⟨clientIP, port⟩ := pr
    dsimp only
    split_ifs <;> exact Or.inr ⟨_, rfl⟩

/-- Claim C22: for every inbound request, whose header holds each name once,
the outbound request built by `handleHTTP` carries no header whose name equals
`Proxy-Authorization` or `Proxy-Connection` under `strings.EqualFold`, that is
whatever the letter case of the inbound name, and carries every other inbound
header apart from `X-Forwarded-For` with all of its values in their original
order; every request `handleHTTP` sends upstream is that request.  The map of
the outbound request holds nothing under a name that folds onto a stripped
one, and `Header.Get`, which looks a name up in its canonical form, returns
nothing for a name whose canonical form folds onto one.  The library does not
fold `X-Forwarded-For` onto either stripped name. -/
theorem forwardedRequest_headers (L : Lib) (r : Request) (created : OutboundRequest)
    (hmap : (r.Header.map Prod.fst).Nodup)
    (hxff : L.EqualFold "X-Forwarded-For" "Proxy-Authorization" = false ∧
      L.EqualFold "X-Forwarded-For" "Proxy-Connection" = false) :
    (∀ k vs, (k, vs) ∈ (forwardedRequest L r created).Header →
      L.EqualFold k "Proxy-Authorization" = false ∧
        L.EqualFold k "Proxy-Connection" = false) ∧
    ((∀ k, L.EqualFold k "Proxy-Authorization" = true ∨ L.EqualFold k "Proxy-Connection" = true →
        Header.Values (forwardedRequest L r created).Header k = []) ∧
      (∀ k, L.EqualFold (CanonicalMIMEHeaderKey k) "Proxy-Authorization" = true ∨
          L.EqualFold (CanonicalMIMEHeaderKey k) "Proxy-Connection" = true →
        Header.Get (forwardedRequest L r created).Header k = "")) ∧
    (∀ k vs, (k, vs) ∈ r.Header → L.EqualFold k "Proxy-Authorization" = false →
      L.EqualFold k "Proxy-Connection" = false → k ≠ "X-Forwarded-For" →
      Header.Values (forwardedRequest L r created).Header k = vs) ∧
    (∀ (net : Network) (db : Database) (now elapsedMs : Int) (claims : Claims)
      (prefs : UserProxySettings) (out : OutboundRequest),
      .roundTrip out ∈ (handleHTTP L net db now elapsedMs r claims prefs).net →
      ∃ made, L.NewRequest r.Method r.URL = .ok made ∧ out = forwardedRequest L r made) := by
  have hcopy := copyHeaders_eq L r.Header hmap
  have hkeep : ∀ k vs, (k, vs) ∈ copyHeaders L r.Header →
      L.EqualFold k "Proxy-Authorization" = false ∧
        L.EqualFold k "Proxy-Connection" = false := by
    intro k vs hm
    rw [hcopy] at hm
    simp only [List.mem_filter, Bool.and_eq_true, Bool.not_eq_eq_eq_not, Bool.not_true,
      Bool.or_eq_false_iff] at hm
    exact hm.2.1
  have hout : ∀ k vs, (k, vs) ∈ (forwardedRequest L r created).Header →
      L.EqualFold k "Proxy-Authorization" = false ∧
        L.EqualFold k "Proxy-Connection" = false := by
    intro k vs hm
    rcases forwardedRequest_header L r created with h | ⟨v, h⟩
    · rw [h] at hm
      exact hkeep k vs hm
    · rw [h] at hm
      rcases mem_Set _ _ _ _ hm with h1 | h1
      · simp only at h1
        subst h1
        exact hxff
      · exact hkeep k vs h1
  have hnd : ((copyHeaders L r.Header).map Prod.fst).Nodup := by
    rw [hcopy]
    exact hmap.sublist ((List.filter_sublist _).map Prod.fst)
  have habs : ∀ k, L.EqualFold k "Proxy-Authorization" = true ∨
      L.EqualFold k "Proxy-Connection" = true →
      ∀ kv ∈ (forwardedRequest L r created).Header, kv.1 ≠ k := by
    intro k hk kv hkv heq
    have := hout kv.1 kv.2 hkv
    rw [heq] at this
    rcases hk with hk | hk
    · rw [this.1] at hk
      cases hk
    · rw [this.2] at hk
      cases hk
  refine ⟨hout, ⟨?_, ?_⟩, ?_, ?_⟩
  · intro k hk
    exact Values_of_absent _ k (habs k hk)
  · intro k hk
    have hfind : (forwardedRequest L r created).Header.find?
        (fun kv => decide (kv.1 = CanonicalMIMEHeaderKey k)) = none := by
      rw [List.find?_eq_none]
      intro kv hkv
      simpa using habs (CanonicalMIMEHeaderKey k) hk kv hkv
    unfold Header.Get
    rw [hfind]
  · intro k vs hm h1 h2 hk
    have hval : Header.Values (copyHeaders L r.Header) k = vs := by
      by_cases hempty : vs = []
      · subst hempty
        apply Values_of_absent
        intro kv hkv heq
        rw [hcopy] at hkv
        simp only [List.mem_filter, Bool.and_eq_true, Bool.not_eq_eq_eq_not, Bool.not_true,
          List.isEmpty_eq_false] at hkv
        have hsame : kv.2 = [] := by
          have h3 := Values_of_mem r.Header k [] hmap hm
          have h4 := Values_of_mem r.Header kv.1 kv.2 hmap hkv.1
          rw [heq, h3] at h4
          exact h4.symm
        exact hkv.2.2 hsame
      · apply Values_of_mem _ _ _ hnd
        rw [hcopy]
        simp only [List.mem_filter, Bool.and_eq_true, Bool.not_eq_eq_eq_not, Bool.not_true,
          Bool.or_eq_false_iff, List.isEmpty_eq_false]
        exact ⟨hm, ⟨h1, h2⟩, hempty⟩
    rcases forwardedRequest_header L r created with h | ⟨v, h⟩
    · rw [h]
      exact hval
    · rw [h, Values_Set_ne _ _ _ _ hk]
      exact hval
  · intro net db now elapsedMs claims prefs out hm
    rw [handleHTTP_steps] at hm
    cases hreq : L.NewRequest r.Method r.URL with
    | error e =>
      rw [hreq] at hm
      simp at hm
    | ok made =>
      rw [hreq] at hm
      dsimp only at hm
      refine ⟨made, rfl, ?_⟩
      by_cases hden : isHostAllowed L (some prefs) (extractHost L made.URLHost) = false
      · rw [if_pos hden] at hm
        simp at hm
      · rw [if_neg hden] at hm
        cases hd : net.Do (forwardedRequest L r made) with
        | error e =>
          rw [hd] at hm
          simpa using hm
        | ok resp =>
          rw [hd] at hm
          simpa using hm

set_option maxRecDepth 100000 in
/-- Witness of `forwardedRequest_headers`: the inbound names `proxy-authorization`
and `PROXY-CONNECTION` are left out, `Accept` keeps its two values, and
`Header.Get` finds nothing under `proxy-authorization`. -/
theorem forwardedRequest_headers_witness :
    (forwardedRequest refLib
      (exampleRequest "GET" [("proxy-authorization", ["Basic YWxpY2U6c2VjcmV0"]),
        ("Accept", ["text/html", "text/plain"]), ("PROXY-CONNECTION", ["keep-alive"])] none)
      ⟨"GET", "http", "sub.example.com", "http://sub.example.com/index.html",
        "sub.example.com", []⟩).Header =
      [("Accept", ["text/html", "text/plain"]), ("X-Forwarded-For", ["10.0.0.9"])] ∧
    Header.Values (forwardedRequest refLib
      (exampleRequest "GET" [("proxy-authorization", ["Basic YWxpY2U6c2VjcmV0"]),
        ("Accept", ["text/html", "text/plain"]), ("PROXY-CONNECTION", ["keep-alive"])] none)
      ⟨"GET", "http", "sub.example.com", "http://sub.example.com/index.html",
        "sub.example.com", []⟩).Header "Accept" = ["text/html", "text/plain"] ∧
    Header.Get (forwardedRequest refLib
      (exampleRequest "GET" [("proxy-authorization", ["Basic YWxpY2U6c2VjcmV0"]),
        ("Accept", ["text/html", "text/plain"]), ("PROXY-CONNECTION", ["keep-alive"])] none)
      ⟨"GET", "http", "sub.example.com", "http://sub.example.com/index.html",
        "sub.example.com", []⟩).Header "proxy-authorization" = "" :=
  ⟨by decide!,
   (forwardedRequest_headers refLib
      (exampleRequest "GET" [("proxy-authorization", ["Basic YWxpY2U6c2VjcmV0"]),
        ("Accept", ["text/html", "text/plain"]), ("PROXY-CONNECTION", ["keep-alive"])] none)
      ⟨"GET", "http", "sub.example.com", "http://sub.example.com/index.html",
        "sub.example.com", []⟩ (by decide) (by decide)).2.2.1 "Accept"
      ["text/html", "text/plain"] (by decide) (by decide) (by decide) (by decide),
   (forwardedRequest_headers refLib
      (exampleRequest "GET" [("proxy-authorization", ["Basic YWxpY2U6c2VjcmV0"]),
        ("Accept", ["text/html", "text/plain"]), ("PROXY-CONNECTION", ["keep-alive"])] none)
      ⟨"GET", "http", "sub.example.com", "http://sub.example.com/index.html",
        "sub.example.com", []⟩ (by decide) (by decide)).2.1.2 "proxy-authorization"
      (Or.inl (by decide))⟩

/-! ## Normalised list entries -/

/-- On ASCII, lower-casing keeps white space and non-space apart and is
idempotent. -/
theorem unicodeToLower_ascii_stable (L : Lib) (c : Char) (hc : c.toNat ≤ 0x7F) :
    isSpace (unicodeToLower L c) = isSpace c ∧
    unicodeToLower L (unicodeToLower L c) = unicodeToLower L c := by
  have hv : ∀ n, 0x41 ≤ n → n ≤ 0x5A →
      isSpace (unicodeToLower L (Char.ofNat n)) = isSpace (Char.ofNat n) ∧
      unicodeToLower L (unicodeToLower L (Char.ofNat n)) = unicodeToLower L (Char.ofNat n) := by
    intro n h1 h2
    interval_cases n <;> exact ⟨rfl, rfl⟩
  by_cases hu : 0x41 ≤ c.toNat ∧ c.toNat ≤ 0x5A
  · have := hv c.toNat hu.1 hu.2
    rwa [Char.ofNat_toNat] at this
  · have hsame : unicodeToLower L c = c := by
      unfold unicodeToLower
      rw [if_pos hc, if_neg hu]
    rw [hsame]
    exact ⟨rfl, hsame⟩

/-- The last element a `dropWhile` leaves is the last element of the list. -/
theorem getLast?_dropWhile (P : Char → Bool) (m : List Char) (x : Char)
    (h : (m.dropWhile P).getLast? = some x) : m.getLast? = some x := by
  induction m with
  | nil => simp at h
  | cons a t ih =>
    by_cases ha : P a = true
    · rw [List.dropWhile_cons_of_pos ha] at h
      have ht := ih h
      cases t with
      | nil => simp at ht
      | cons b t2 =>
        rw [List.getLast?_cons_cons]
        exact ht
    · rw [List.dropWhile_cons_of_neg ha] at h
      exact h

/-- A trimmed string has no leading and no trailing white space. -/
theorem Trimmed_TrimSpace (s : String) : Trimmed (TrimSpace s) = true := by
  unfold Trimmed TrimSpace
  simp only [Bool.and_eq_true]
  constructor
  · rw [List.head?_reverse]
    cases hl : ((s.data.dropWhile isSpace).reverse.dropWhile isSpace).getLast? with
    | none => rfl
    | some x =>
      have h1 := getLast?_dropWhile isSpace _ x hl
      rw [List.getLast?_reverse] at h1
      have h2 := List.head?_dropWhile_not isSpace s.data
      rw [h1] at h2
      simp only [Option.all_some, Bool.not_eq_eq_eq_not, Bool.not_true]
      simpa using h2
  · rw [List.getLast?_reverse]
    have h2 := List.head?_dropWhile_not isSpace (s.data.dropWhile isSpace).reverse
    cases hl : ((s.data.dropWhile isSpace).reverse.dropWhile isSpace).head? with
    | none => rfl
    | some x =>
      rw [hl] at h2
      simp only [Option.all_some, Bool.not_eq_eq_eq_not, Bool.not_true]
      simpa using h2

/-- The characters of a trimmed string are characters of the string. -/
theorem mem_TrimSpace (s : String) (c : Char) (h : c ∈ (TrimSpace s).data) : c ∈ s.data := by
  unfold TrimSpace at h
  simp only [List.mem_reverse] at h
  have h1 := (List.dropWhile_suffix isSpace).subset h
  simp only [List.mem_reverse] at h1
  exact (List.dropWhile_suffix isSpace).subset h1

/-- The case-table contract at the characters of one entry gives, for every
character of it, that lower-casing keeps a non-space character a non-space
one and is idempotent. -/
theorem unicodeToLower_stable (L : Lib) (e : String)
    (hcase : ∀ c ∈ e.data, 0x7F < c.toNat →
      (isSpace c = false → isSpace (L.caseTable c) = false) ∧
      unicodeToLower L (L.caseTable c) = L.caseTable c) :
    ∀ c ∈ e.data, (isSpace c = false → isSpace (unicodeToLower L c) = false) ∧
      unicodeToLower L (unicodeToLower L c) = unicodeToLower L c := by
  intro c hc
  by_cases ha : c.toNat ≤ 0x7F
  · have h := unicodeToLower_ascii_stable L c ha
    exact ⟨fun hs => by rw [h.1]; exact hs, h.2⟩
  · have hsame : unicodeToLower L c = L.caseTable c := by
      unfold unicodeToLower
      rw [if_neg ha]
    rw [hsame]
    exact hcase c hc (by omega)

/-- Lower-casing a trimmed string leaves it trimmed. -/
theorem Trimmed_ToLower (L : Lib) (t : String) (ht : Trimmed t = true)
    (h : ∀ c ∈ t.data, isSpace c = false → isSpace (unicodeToLower L c) = false) :
    Trimmed (ToLower L t) = true := by
  unfold Trimmed at ht ⊢
  simp only [Bool.and_eq_true] at ht ⊢
  unfold ToLower
  constructor
  · cases hd : t.data with
    | nil => rfl
    | cons a rest =>
      have h1 := ht.1
      rw [hd] at h1
      simp only [List.head?_cons, Option.all_some, Bool.not_eq_eq_eq_not, Bool.not_true] at h1
      have := h a (by rw [hd]; simp) h1
      simp [this]
  · cases hl : t.data.getLast? with
    | none =>
      have : t.data = [] := by simpa using hl
      rw [this]; rfl
    | some x =>
      have h1 := ht.2
      rw [hl] at h1
      simp only [Option.all_some, Bool.not_eq_eq_eq_not, Bool.not_true] at h1
      have hx : x ∈ t.data := List.mem_of_getLast?_eq_some hl
      have := h x hx h1
      rw [← List.head?_reverse, ← List.map_reverse, List.head?_map, List.head?_reverse, hl]
      simp [this]

/-- A normalised entry is a fixed point of lower-casing and of trimming. -/
theorem normalized_fixed (L : Lib) (e : String)
    (hcase : ∀ c ∈ e.data, 0x7F < c.toNat →
      (isSpace c = false → isSpace (L.caseTable c) = false) ∧
      unicodeToLower L (L.caseTable c) = L.caseTable c) :
    ToLower L (ToLower L (TrimSpace e)) = ToLower L (TrimSpace e) ∧
    Trimmed (ToLower L (TrimSpace e)) = true ∧
    TrimSpace (ToLower L (TrimSpace e)) = ToLower L (TrimSpace e) := by
  have hst := unicodeToLower_stable L e hcase
  have hT : Trimmed (ToLower L (TrimSpace e)) = true :=
    Trimmed_ToLower L (TrimSpace e) (Trimmed_TrimSpace e)
      (fun c hc => (hst c (mem_TrimSpace e c hc)).1)
  refine ⟨?_, hT, TrimSpace_of_Trimmed _ hT⟩
  unfold ToLower
  simp only [List.map_map]
  congr 1
  apply List.map_congr_left
  intro c hc
  exact (hst c (mem_TrimSpace e c hc)).2

/-- The elements of the result of the loop of `sanitizeEntries`: those already
collected and the non-empty normal forms of the entries. -/
theorem mem_sanitizeLoop (L : Lib) (entries result : List String) (x : String) :
    x ∈ sanitizeLoop L entries result ↔
      x ∈ result ∨ ∃ e ∈ entries, ToLower L (TrimSpace e) = x ∧ x ≠ "" := by
  induction entries generalizing result with
  | nil => simp [sanitizeLoop]
  | cons a rest ih =>
    unfold sanitizeLoop
    dsimp only
    by_cases h1 : ToLower L (TrimSpace a) = ""
    · rw [if_pos h1, ih]
      constructor
      · rintro (h | ⟨e, he, hx, hne⟩)
        · exact Or.inl h
        · exact Or.inr ⟨e, List.mem_cons_of_mem _ he, hx, hne⟩
      · rintro (h | ⟨e, he, hx, hne⟩)
        · exact Or.inl h
        · rcases List.mem_cons.mp he with rfl | he
          · exact absurd (hx ▸ h1) hne
          · exact Or.inr ⟨e, he, hx, hne⟩
    · rw [if_neg h1]
      by_cases h2 : ToLower L (TrimSpace a) ∈ result
      · rw [if_pos h2, ih]
        constructor
        · rintro (h | ⟨e, he, hx, hne⟩)
          · exact Or.inl h
          · exact Or.inr ⟨e, List.mem_cons_of_mem _ he, hx, hne⟩
        · rintro (h | ⟨e, he, hx, hne⟩)
          · exact Or.inl h
          · rcases List.mem_cons.mp he with rfl | he
            · exact Or.inl (hx ▸ h2)
            · exact Or.inr ⟨e, he, hx, hne⟩
      · rw [if_neg h2, ih]
        constructor
        · rintro (h | ⟨e, he, hx, hne⟩)
          · rcases List.mem_append.mp h with h | h
            · exact Or.inl h
            · have hx : x = ToLower L (TrimSpace a) := by simpa using h
              exact Or.inr ⟨a, List.mem_cons_self _ _, hx.symm, by rw [hx]; exact h1⟩
          · exact Or.inr ⟨e, List.mem_cons_of_mem _ he, hx, hne⟩
        · rintro (h | ⟨e, he, hx, hne⟩)
          · exact Or.inl (List.mem_append_left _ h)
          · rcases List.mem_cons.mp he with rfl | he
            · exact Or.inl (List.mem_append_right _ (by simp [hx]))
            · exact Or.inr ⟨e, he, hx, hne⟩

/-- The loop of `sanitizeEntries` keeps the collected list free of
duplicates. -/
theorem sanitizeLoop_nodup (L : Lib) (entries result : List String) (h : result.Nodup) :
    (sanitizeLoop L entries result).Nodup := by
  induction entries generalizing result with
  | nil => simpa [sanitizeLoop] using h
  | cons a rest ih =>
    unfold sanitizeLoop
    dsimp only
    by_cases h1 : ToLower L (TrimSpace a) = ""
    · rw [if_pos h1]; exact ih result h
    · rw [if_neg h1]
      by_cases h2 : ToLower L (TrimSpace a) ∈ result
      · rw [if_pos h2]; exact ih result h
      · rw [if_neg h2]
        apply ih
        rw [List.nodup_append]
        refine ⟨h, List.nodup_singleton _, ?_⟩
        intro y hy hy2
        have : y = ToLower L (TrimSpace a) := by simpa using hy2
        exact h2 (this ▸ hy)

/-- The elements of `sanitizeEntries`. -/
theorem mem_sanitizeEntries (L : Lib) (entries : List String) (x : String) :
    x ∈ sanitizeEntries L entries ↔
      ∃ e ∈ entries, ToLower L (TrimSpace e) = x ∧ x ≠ "" := by
  unfold sanitizeEntries
  rw [mem_sanitizeLoop]
  simp

/-- The rows `replaceProxyList` inserts belong to the user and carry the
values in order. -/
theorem newProxyListRows_values (userID id : Int) (values : List String) :
    ((newProxyListRows userID id values).filter (fun r => decide (r.user_id = userID))).map
      (fun r => r.value) = values := by
  induction values generalizing id with
  | nil => rfl
  | cons v rest ih =>
    unfold newProxyListRows
    rw [List.filter_cons_of_pos (by simp), List.map_cons, ih]

/-- The rows of the other users hold nothing of the user. -/
theorem filter_kept (table : List ProxyListRow) (userID : Int) :
    (table.filter (fun row => !decide (row.user_id = userID))).filter
      (fun r => decide (r.user_id = userID)) = [] := by
  rw [List.filter_filter]
  apply List.filter_eq_nil_iff.mpr
  intro r _
  simp

/-- Membership form of `matchesList`: some entry, non-empty once trimmed, is
contained in the lower-cased host after normalisation. -/
theorem matchesList_iff (L : Lib) (list : List String) (host : String) :
    matchesList L list host = true ↔
      ∃ e ∈ list, TrimSpace e ≠ "" ∧
        (ToLower L (TrimSpace e)).data <:+: (ToLower L host).data := by
  unfold matchesList
  by_cases h : list.length = 0
  · rw [if_pos h]
    have : list = [] := List.length_eq_zero.mp h
    subst this
    simp
  · rw [if_neg h]
    exact matchesListLoop_iff L (ToLower L host) list

/-- Claim C24.  For every list of entries (the case tables of the library
keeping, on the non-ASCII characters of the entries, a non-space character a
non-space one and being idempotent there), every element of
`sanitizeEntries entries` is non-empty, equal to its own lower-casing, and has
no leading and no trailing white space (so trimming leaves it as it is); no
element occurs twice in the result; and when the statements of
`replaceProxyList` succeed on one of the two list tables, the call returns the
sanitized list and the rows of the user in that table afterwards carry exactly
that list, which holds no empty string and no duplicate. -/
theorem sanitizeEntries_normalized (L : Lib) (d : Database) (nextID userID : Int)
    (entries : List String)
    (hcase : ∀ e ∈ entries, ∀ c ∈ e.data, 0x7F < c.toNat →
      (isSpace c = false → isSpace (L.caseTable c) = false) ∧
      unicodeToLower L (L.caseTable c) = L.caseTable c) :
    (∀ e ∈ sanitizeEntries L entries,
      e ≠ "" ∧ ToLower L e = e ∧ Trimmed e = true ∧ TrimSpace e = e) ∧
    (sanitizeEntries L entries).Nodup ∧
    (d.fails .replaceProxyList = false →
      (d.replaceProxyList L nextID "user_proxy_whitelist" userID entries).1
          = .ok (sanitizeEntries L entries) ∧
      getProxyList false
          (d.replaceProxyList L nextID "user_proxy_whitelist" userID entries).2.whitelist userID
          = .ok (sanitizeEntries L entries) ∧
      (d.replaceProxyList L nextID "user_proxy_blacklist" userID entries).1
          = .ok (sanitizeEntries L entries) ∧
      getProxyList false
          (d.replaceProxyList L nextID "user_proxy_blacklist" userID entries).2.blacklist userID
          = .ok (sanitizeEntries L entries) ∧
      "" ∉ sanitizeEntries L entries) := by
  have hne : ∀ e ∈ sanitizeEntries L entries, e ≠ "" := by
    intro e he
    obtain ⟨_, _, _, h⟩ := (mem_sanitizeEntries L entries e).mp he
    exact h
  refine ⟨?_, sanitizeLoop_nodup L entries [] List.nodup_nil, ?_⟩
  · intro x hx
    obtain ⟨e, he, hex, hne⟩ := (mem_sanitizeEntries L entries x).mp hx
    have h := normalized_fixed L e (hcase e he)
    rw [hex] at h
    exact ⟨hne, h.1, h.2.1, h.2.2⟩
  · intro hf
    have hvals : ∀ table : List ProxyListRow,
        getProxyList false
          (table.filter (fun row => !decide (row.user_id = userID)) ++
            newProxyListRows userID nextID (sanitizeEntries L entries)) userID
          = .ok (sanitizeEntries L entries) := by
      intro table
      unfold getProxyList
      simp only [Bool.false_eq_true, if_false]
      rw [List.filter_append, filter_kept, List.nil_append, newProxyListRows_values]
    refine ⟨?_, ?_, ?_, ?_, fun h => hne "" h rfl⟩
    · simp [Database.replaceProxyList, hf]
    · simp only [Database.replaceProxyList, hf, Bool.false_eq_true, if_false, if_true]
      exact hvals d.whitelist
    · simp [Database.replaceProxyList, hf]
    · have hw : ("user_proxy_blacklist" : String) ≠ "user_proxy_whitelist" := by decide
      simp only [Database.replaceProxyList, hf, Bool.false_eq_true, if_false, if_true, if_neg hw]
      exact hvals d.blacklist

set_option maxRecDepth 100000 in
/-- Witness of C24 on the reference library: four raw entries, two of them
the same host in different spellings and one empty. -/
theorem sanitizeEntries_normalized_witness :
    sanitizeEntries refLib [" Example.COM ", "example.com", "", "b.org"]
        = ["example.com", "b.org"] ∧
    (exampleDB.fails .replaceProxyList = false →
      (exampleDB.replaceProxyList refLib 7 "user_proxy_whitelist" 2
          [" Example.COM ", "example.com", "", "b.org"]).1
          = .ok (sanitizeEntries refLib [" Example.COM ", "example.com", "", "b.org"]) ∧
      getProxyList false
          (exampleDB.replaceProxyList refLib 7 "user_proxy_whitelist" 2
            [" Example.COM ", "example.com", "", "b.org"]).2.whitelist 2
          = .ok (sanitizeEntries refLib [" Example.COM ", "example.com", "", "b.org"]) ∧
      (exampleDB.replaceProxyList refLib 7 "user_proxy_blacklist" 2
          [" Example.COM ", "example.com", "", "b.org"]).1
          = .ok (sanitizeEntries refLib [" Example.COM ", "example.com", "", "b.org"]) ∧
      getProxyList false
          (exampleDB.replaceProxyList refLib 7 "user_proxy_blacklist" 2
            [" Example.COM ", "example.com", "", "b.org"]).2.blacklist 2
          = .ok (sanitizeEntries refLib [" Example.COM ", "example.com", "", "b.org"]) ∧
      "" ∉ sanitizeEntries refLib [" Example.COM ", "example.com", "", "b.org"]) :=
  ⟨by decide,
   (sanitizeEntries_normalized refLib exampleDB 7 2 [" Example.COM ", "example.com", "", "b.org"]
    (by decide)).2.2⟩

/-- Claim C29.  For every list of entries and every host (the case tables of
the library keeping, on the non-ASCII characters of the entries, a non-space
character a non-space one and being idempotent there),
`matchesList list host = matchesList (sanitizeEntries list) host`; hence
`isHostAllowed` gives the same decision on that host whether the preferences
hold the list, as whitelist or as blacklist, raw or sanitized. -/
theorem matchesList_sanitizeEntries (L : Lib) (list : List String) (host : String)
    (hcase : ∀ e ∈ list, ∀ c ∈ e.data, 0x7F < c.toNat →
      (isSpace c = false → isSpace (L.caseTable c) = false) ∧
      unicodeToLower L (L.caseTable c) = L.caseTable c) :
    matchesList L list host = matchesList L (sanitizeEntries L list) host ∧
    ∀ (proxyType : String) (other : List String),
      isHostAllowed L (some ⟨proxyType, list, other⟩) host
        = isHostAllowed L (some ⟨proxyType, sanitizeEntries L list, other⟩) host ∧
      isHostAllowed L (some ⟨proxyType, other, list⟩) host
        = isHostAllowed L (some ⟨proxyType, other, sanitizeEntries L list⟩) host := by
  have hm : matchesList L list host = matchesList L (sanitizeEntries L list) host := by
    rw [Bool.eq_iff_iff, matchesList_iff, matchesList_iff]
    constructor
    · rintro ⟨e, he, hne, hin⟩
      have hn : ToLower L (TrimSpace e) ≠ "" := fun h => hne ((ToLower_eq_empty L _).mp h)
      have hfix := normalized_fixed L e (hcase e he)
      refine ⟨ToLower L (TrimSpace e), (mem_sanitizeEntries L list _).mpr ⟨e, he, rfl, hn⟩, ?_, ?_⟩
      · rw [hfix.2.2]; exact hn
      · rw [hfix.2.2, hfix.1]; exact hin
    · rintro ⟨n, hn, hne, hin⟩
      obtain ⟨e, he, hen, hn0⟩ := (mem_sanitizeEntries L list n).mp hn
      have hfix := normalized_fixed L e (hcase e he)
      rw [hen] at hfix
      rw [hfix.2.2, hfix.1] at hin
      refine ⟨e, he, ?_, ?_⟩
      · intro h
        apply hn0
        rw [← hen, h]
        exact (ToLower_eq_empty L "").mpr rfl
      · rw [hen]; exact hin
  refine ⟨hm, fun proxyType other => ⟨?_, ?_⟩⟩
  · simp only [isHostAllowed, hm]
  · simp only [isHostAllowed, hm]

set_option maxRecDepth 100000 in
/-- Witness of C29 on the reference library: a raw whitelist and a host one
of its entries matches. -/
theorem matchesList_sanitizeEntries_witness :
    matchesList refLib [" Example.COM ", "example.com", "", "b.org"] "sub.example.com" = true ∧
    matchesList refLib [" Example.COM ", "example.com", "", "b.org"] "sub.example.com"
      = matchesList refLib (sanitizeEntries refLib [" Example.COM ", "example.com", "", "b.org"])
          "sub.example.com" :=
  ⟨by decide,
   (matchesList_sanitizeEntries refLib [" Example.COM ", "example.com", "", "b.org"]
    "sub.example.com" (by decide)).1⟩

/-! ## Byte counts of a tunnel -/

/-- One move keeps a variable zero until its goroutine assigns it. -/
theorem Tunnel_step_zeroBeforeAssign (s s1 : Tunnel) (a : TunnelStep)
    (hs : s.zeroBeforeAssign = true) (hstep : s.step a = some s1) :
    s1.zeroBeforeAssign = true := by
  obtain ⟨bs, br, ch, up, down, hd⟩ := s
  cases a <;> simp only [Tunnel.step] at hstep <;> split at hstep <;>
    first
    | (simp only [Option.some.injEq] at hstep
       subst hstep
       simp_all [Tunnel.zeroBeforeAssign])
    | simp at hstep

/-- Until a copy goroutine executes its assignment, the variable it assigns
holds its zero value, in every state a schedule reaches from the start of the
tunnel. -/
theorem Tunnel_run_zeroBeforeAssign (schedule : List TunnelStep) (s t : Tunnel)
    (hs : s.zeroBeforeAssign = true) (h : s.run schedule = some t) :
    t.zeroBeforeAssign = true := by
  induction schedule generalizing s with
  | nil =>
    simp only [Tunnel.run, Option.some.injEq] at h
    subst h
    exact hs
  | cons a rest ih =>
    unfold Tunnel.run at h
    cases hstep : s.step a with
    | none => rw [hstep] at h; simp at h
    | some s1 =>
      rw [hstep] at h
      exact ih s1 (Tunnel_step_zeroBeforeAssign s s1 a hs hstep) h

/-- The run of the echo schedule: both copies have moved `K` bytes, and the
handler has read `K` from `bytesSent` and `0` from `bytesReceived`. -/
theorem echoSchedule_run (K : Nat) :
    Tunnel.start.run (echoSchedule K) =
      some { bytesSent := K, bytesReceived := 0, errChan := [], up := .sent K, down := .copying K,
             handler := .recorded K 0 } := by
  simp [echoSchedule, Tunnel.run, Tunnel.step, Tunnel.start]

/-- Claim C25, as the code behaves.  For a tunnel that is established (host
allowed, dial and hijack succeed, the insert into `request_logs` and the
upsert into `traffic_stats` succeed) and run by the echo schedule, where the
client writes `K` bytes, the `K` echoed bytes are copied back to the client and
the client then closes: both copies have moved `K` bytes, the handler has read
`bytesSent = K` and `bytesReceived = 0`, and `handleHTTPS` appends the
request-log entry with `K` bytes sent and `0` bytes received and upserts the
traffic counters with `K` and `0`; the handler receives once from `errChan`
and reads `bytesReceived` before the second goroutine has assigned it. -/
theorem handleHTTPS_echo_tunnel (L : Lib) (net : Network) (db : Database) (now elapsedMs : Int)
    (r : Request) (claims : Claims) (prefs : UserProxySettings) (K : Nat)
    (hallow : isHostAllowed L (some prefs) (extractHost L r.Host) = true)
    (hdial : net.Dial r.Host = .ok ()) (hhij : net.Hijack = some (.ok ()))
    (hlog : db.fails .insertRequestLog = false)
    (hups : db.fails .upsertTrafficStats = false) :
    (∃ t, Tunnel.start.run (echoSchedule K) = some t ∧ t.up.moved = K ∧ t.down.moved = K ∧
      t.handler = .recorded K 0) ∧
    ∃ res, handleHTTPSTunnel L net db now elapsedMs r claims prefs (echoSchedule K) = some res ∧
      res.reply = .hijacked "HTTP/1.1 200 Connection Established\r\n\r\n" ∧
      res.db.requestLogs =
        db.requestLogs ++ [⟨some claims.UserID, r.Method, r.Host, 200, K, 0, elapsedMs, now⟩] ∧
      res.db.trafficStats = upsertTraffic claims.UserID K 0 (dateOf now) db.trafficStats := by
  refine ⟨⟨_, echoSchedule_run K, rfl, rfl, rfl⟩, ?_⟩
  have h1 := logRequest_append db now elapsedMs claims.UserID r.Method r.Host 200 K 0 hlog
  have h2 := UpdateTrafficStats_upsert
    (logRequest db now elapsedMs claims.UserID r.Method r.Host 200 K 0) now
    claims.UserID K 0 (by rw [h1.2.2]; exact hups)
  refine ⟨_, by rw [handleHTTPSTunnel, echoSchedule_run], ?_⟩
  unfold handleHTTPS
  simp only [hallow, Bool.not_true, Bool.false_eq_true, if_false, hdial, hhij]
  exact ⟨trivial, h2.2.trans h1.1, by rw [h2.1, h1.2.1]⟩

set_option maxRecDepth 100000 in
/-- Witness of `handleHTTPS_echo_tunnel`: `alice` tunnels to
`sub.example.com:443`, 5 bytes go up and 5 echoed bytes come down; the entry
and the counters record 5 bytes sent and 0 bytes received. -/
theorem handleHTTPS_echo_tunnel_witness :
    (Tunnel.start.run (echoSchedule 5)).map (fun t => (t.up.moved, t.down.moved, t.handler))
      = some (5, 5, .recorded 5 0) ∧
    ∃ res, handleHTTPSTunnel refLib exampleNetwork exampleDB 1751695800 12
        (exampleRequest "CONNECT" [] none) ⟨2, "alice", false, false, none, none⟩
        ⟨"whitelist", ["example.com"], []⟩ (echoSchedule 5) = some res ∧
      res.reply = .hijacked "HTTP/1.1 200 Connection Established\r\n\r\n" ∧
      res.db.requestLogs =
        exampleDB.requestLogs ++
          [⟨some 2, "CONNECT", "sub.example.com:443", 200, 5, 0, 12, 1751695800⟩] ∧
      res.db.trafficStats = upsertTraffic 2 5 0 (dateOf 1751695800) exampleDB.trafficStats :=
  ⟨by decide,
   (handleHTTPS_echo_tunnel refLib exampleNetwork exampleDB 1751695800 12
    (exampleRequest "CONNECT" [] none) ⟨2, "alice", false, false, none, none⟩
    ⟨"whitelist", ["example.com"], []⟩ 5 (by decide!) rfl rfl rfl rfl).2⟩

end Progzy
